import Mathlib

/-!
# Order lifecycle of the Sherwin back end

A shallow embedding of `src/controllers/orderController.js`, `src/models/Order.js`,
`src/models/Product.js`, `src/middleware/auth.js`, the order and product-update parts of
`src/middleware/validation.js` and the three controllers of
`src/controllers/productController.js` that change a product, followed by theorems about it.

Modelling conventions

* A JavaScript `Number` is represented by the rational it denotes (`Number := ℚ`), and the
  controllers compute on it exactly. The computation of subtotals and totals in `createOrder`
  and `removeOrderItem` is embedded a second time with IEEE 754 binary64 rounding
  (`createOrderDouble`, `removeOrderItemDouble`), for the one property that rounding decides.
  `NaN` and the infinities are outside the embedding. The one place where `NaN` decides
  control flow, `parseInt` of a route parameter, is modelled with `Option Int` (`none` is
  `NaN`).
* A Mongo `ObjectId` is a natural number; a collection is the list of its documents in
  insertion order; `Db.nextId` stands for the identifier generator.
* A populated `order.user` is represented by the owner's identifier, the only part of it the
  controllers read (the owner's account is taken to exist). Timestamps are not represented.
* Identifiers in requests are well-formed, so `idParamValidation` always passes, and the
  requester `req.user` is the one `protect` has authenticated.
* A controller returns the database after the call together with an `Outcome` that records the
  arguments of the `errorResponse` / `successResponse` call it ends with, or `next` when an
  exception reaches `next(error)`.
-/

namespace Sherwin

/-- A JavaScript number, represented by the rational it denotes. The operators `+` and `*`
on it are exact; `jsAdd`, `jsMul` and `jsSub` below are the operators of JavaScript, which
round to binary64. -/
abbrev Number := ℚ

/-! ## Documents (`models/Product.js`, `models/Order.js`) -/

/-- A document of the `Product` collection. -/
structure Product where
  _id : Nat
  reference : String
  nameEn : String
  nameFr : String
  size : String
  price : Number
  color : Option String
  allowedQuantities : List Number
  relatedProducts : List String
  isActive : Bool
deriving DecidableEq, Repr

/-- The sub-document `orderItemSchema`. -/
structure OrderItem where
  product : Nat
  reference : String
  name : String
  size : String
  quantity : Number
  price : Number
  subtotal : Number
deriving DecidableEq, Repr

/-- A document of the `Order` collection (`orderSchema`). -/
structure Order where
  _id : Nat
  user : Nat
  items : List OrderItem
  total : Number
  status : String
  notes : Option String
deriving DecidableEq, Repr

/-- The authenticated requester `req.user`. -/
structure User where
  _id : Nat
  role : String
deriving DecidableEq, Repr

/-- One element of `req.body.items`. -/
structure CartItem where
  productId : Nat
  quantity : Number
deriving DecidableEq, Repr

/-- The persistent state: both collections and the identifier generator. -/
structure Db where
  products : List Product
  orders : List Order
  nextId : Nat
deriving DecidableEq, Repr

/-! ## Responses -/

/-- A response message. Template strings that only splice strings are rendered; the one that
splices a list of numbers keeps its arguments. -/
inductive Message where
  | str (text : String)
  | invalidQuantity (reference : String) (allowedQuantities : List Number)
deriving DecidableEq, Repr

/-- How a controller call ends: the arguments given to `errorResponse` or `successResponse`
(an argument the call site omits is `none`), or `next` for `next(error)`. -/
inductive Outcome where
  | errorResponse (message : Message) (statusCode : Nat)
  | successResponse (data : Option Order) (message : Option String) (statusCode : Option Nat)
  | next
deriving DecidableEq, Repr

/-- The error kinds of the specification. -/
inductive ErrorKind where
  | NotFound
  | Forbidden
  | ValidationError
  | IndexOutOfRange
deriving DecidableEq, Repr

/-- The error kind of the specification that a response stands for, read off the HTTP status
code given to `errorResponse`: 404 is `NotFound`, 403 is `Forbidden`, 400 is
`ValidationError`, except that the 400 answer to a bad removal index is `IndexOutOfRange`.
Any other outcome has no error kind. -/
def Outcome.kind : Outcome → Option ErrorKind
  | .errorResponse m code =>
    if code = 404 then some .NotFound
    else if code = 403 then some .Forbidden
    else if code = 400 then
      (if m = .str "Invalid item index" then some .IndexOutOfRange else some .ValidationError)
    else none
  | _ => none

/-- The call ended with `successResponse`. -/
def Outcome.isSuccess : Outcome → Bool
  | .successResponse _ _ _ => true
  | _ => false

/-! ## JavaScript library functions used by the controllers -/

/-- White space skipped by `parseInt` and removed by `String.prototype.trim`:
the ECMAScript `WhiteSpace` and `LineTerminator` code points. -/
def isJsWhitespace (c : Char) : Bool :=
  [0x09, 0x0A, 0x0B, 0x0C, 0x0D, 0x20, 0xA0, 0x1680, 0x2000, 0x2001, 0x2002, 0x2003, 0x2004,
    0x2005, 0x2006, 0x2007, 0x2008, 0x2009, 0x200A, 0x2028, 0x2029, 0x202F, 0x205F, 0x3000,
    0xFEFF].contains c.toNat

/-- The function `String.prototype.trim`. -/
def jsTrim (s : String) : String :=
  String.mk ((s.toList.dropWhile isJsWhitespace).reverse.dropWhile isJsWhitespace).reverse

/-- The value of a character as a digit in the given radix, if it is one. -/
def digitValue (radix : Nat) (c : Char) : Option Nat :=
  let n := c.toNat
  let v : Option Nat :=
    if 48 ≤ n ∧ n ≤ 57 then some (n - 48)
    else if 97 ≤ n ∧ n ≤ 122 then some (n - 87)
    else if 65 ≤ n ∧ n ≤ 90 then some (n - 55)
    else none
  v.filter (fun d => d < radix)

/-- Steps 3 to 10 of `parseInt(string)` without a radix argument, on the characters left after
the leading white space: optional sign, optional `0x` prefix, the longest run of digits. -/
def parseIntChars (cs : List Char) : Option Int :=
  let signed : Int × List Char :=
    match cs with
    | '-' :: rest => (-1, rest)
    | '+' :: rest => (1, rest)
    | _ => (1, cs)
  let prefixed : Nat × List Char :=
    match signed.2 with
    | '0' :: 'x' :: rest => (16, rest)
    | '0' :: 'X' :: rest => (16, rest)
    | _ => (10, signed.2)
  let radix := prefixed.1
  let z := prefixed.2.takeWhile (fun c => (digitValue radix c).isSome)
  if z.isEmpty then none
  else
    let value : Nat := z.foldl (fun acc c => acc * radix + (digitValue radix c).getD 0) 0
    some (signed.1 * (value : Int))

/-- The global `parseInt(string)`; `none` is `NaN`. The result is the exact integer (the
rounding of integers beyond 2^53 is not represented). -/
def parseInt (s : String) : Option Int :=
  parseIntChars (s.toList.dropWhile isJsWhitespace)

/-- The call `array.splice(start, deleteCount)` with no inserted elements, as it leaves the
array: `start` is `none` for `NaN`, which `ToIntegerOrInfinity` turns into 0; a negative
start counts from the end. -/
def splice {α : Type} (items : List α) (start : Option Int) (deleteCount : Nat) : List α :=
  let len : Int := items.length
  let relativeStart : Int := start.getD 0
  let actualStart : Nat :=
    if relativeStart < 0 then (max (len + relativeStart) 0).toNat
    else (min relativeStart len).toNat
  let actualDeleteCount : Nat := min deleteCount (items.length - actualStart)
  items.take actualStart ++ items.drop (actualStart + actualDeleteCount)

/-- The call `array.reduce((sum, item) => sum + item.subtotal, 0)`. -/
def reduceSubtotals (items : List OrderItem) : Number :=
  items.foldl (fun sum item => sum + item.subtotal) 0

/-! ## Schema validation and hooks (`models/Product.js`, `models/Order.js`) -/

/-- The validators of `productSchema`: `reference`, `nameEn` and `nameFr` are required strings,
`price` has `min: 0`. -/
def Product.validate (product : Product) : Bool :=
  !product.reference.isEmpty && !product.nameEn.isEmpty && !product.nameFr.isEmpty &&
    decide (0 ≤ product.price)

/-- The enumeration of `status` in `orderSchema`. -/
def statusEnum : List String :=
  ["pending", "confirmed", "processing", "shipped", "delivered", "cancelled"]

/-- The validators of `orderItemSchema`: `reference` and `name` are required strings (the
empty string is refused), `quantity` has `min: 1`. The other fields are always present in
this embedding. -/
def OrderItem.validate (item : OrderItem) : Bool :=
  !item.reference.isEmpty && !item.name.isEmpty && decide (1 ≤ item.quantity)

/-- The validators of `orderSchema`: every item is valid, `total` has `min: 0`, `status` is
in the enumeration. -/
def Order.validate (order : Order) : Bool :=
  order.items.all OrderItem.validate && decide (0 ≤ order.total) &&
    statusEnum.contains order.status

/-- The hook `orderSchema.pre('save')`: a non-empty order gets its total recomputed. -/
def preSave (order : Order) : Order :=
  if order.items.length > 0 then { order with total := reduceSubtotals order.items }
  else order

/-! ## Collections -/

/-- The query `Product.findById(id)`. -/
def Product.findById (products : List Product) (id : Nat) : Option Product :=
  products.find? (fun p => p._id == id)

/-- The query `Order.findById(id)`. -/
def Order.findById (orders : List Order) (id : Nat) : Option Order :=
  orders.find? (fun o => o._id == id)

/-- The call `Order.findByIdAndDelete(id)`: the first document with that identifier goes. -/
def Order.findByIdAndDelete (orders : List Order) (id : Nat) : List Order :=
  orders.eraseP (fun o => o._id == id)

/-- The write of `order.save()`: the first stored document with the identifier of `order` is
replaced by it. -/
def Order.replace (orders : List Order) (order : Order) : List Order :=
  match orders with
  | [] => []
  | o :: rest => if o._id == order._id then order :: rest else o :: Order.replace rest order

/-- The call `order.save()` on a loaded document: validation runs first and throws (`none`)
when it fails, then the `pre('save')` hook, then the write. The saved document is returned
with the database. -/
def Order.save (db : Db) (order : Order) : Option (Db × Order) :=
  if order.validate then
    let saved := preSave order
    some ({ db with orders := Order.replace db.orders saved }, saved)
  else none

/-- The call `Order.create({ user, items, total, notes })`: the new document gets a fresh
identifier, the default status `pending` and trimmed notes, and is then saved like any
document (validation, hook, insertion). -/
def Order.create (db : Db) (user : Nat) (items : List OrderItem) (total : Number)
    (notes : Option String) : Option (Db × Order) :=
  let doc : Order :=
    { _id := db.nextId, user := user, items := items, total := total, status := "pending",
      notes := notes.map jsTrim }
  if doc.validate then
    let saved := preSave doc
    some ({ db with orders := db.orders ++ [saved], nextId := db.nextId + 1 }, saved)
  else none

/-! ## Middleware (`middleware/auth.js`, `middleware/validation.js`) -/

/-- The middleware `authorize(...roles)`: `none` is `next()`, otherwise the 403 response. -/
def authorize (roles : List String) (user : User) : Option Outcome :=
  if !roles.contains user.role then
    some (.errorResponse
      (.str ("Role '" ++ user.role ++ "' is not authorized to access this route")) 403)
  else none

/-- The middleware `adminOnly = authorize('admin')`. -/
def adminOnly (user : User) : Option Outcome :=
  authorize ["admin"] user

/-- The chain `orderValidation` on a cart: at least one item and every quantity an integer
that is at least 1 (a product identifier is never empty here). `true` lets the request
through. -/
def orderValidation (items : List CartItem) : Bool :=
  decide (1 ≤ items.length) &&
    items.all (fun item => item.quantity.isInt && decide (1 ≤ item.quantity))

/-! ## Controllers (`controllers/orderController.js`) -/

/-- The controller `getOrderById`. It writes nothing. -/
def getOrderById (db : Db) (user : User) (id : Nat) : Outcome :=
  match Order.findById db.orders id with
  | none => .errorResponse (.str "Order not found") 404
  | some order =>
    if order.user != user._id && user.role != "admin" then
      .errorResponse (.str "Not authorized to view this order") 403
    else .successResponse (some order) none none

/-- The body of the `for (const item of items)` loop of `createOrder`, with the two
accumulators `orderItems` and `total`; an early `return errorResponse(...)` is `Except.error`. -/
def createOrderLoop (products : List Product) :
    List CartItem → List OrderItem → Number → Except Outcome (List OrderItem × Number)
  | [], orderItems, total => .ok (orderItems, total)
  | item :: rest, orderItems, total =>
    match Product.findById products item.productId with
    | none =>
      .error (.errorResponse (.str ("Product not found: " ++ toString item.productId)) 404)
    | some product =>
      if !product.isActive then
        .error (.errorResponse
          (.str ("Product is no longer available: " ++ product.reference)) 400)
      else if product.allowedQuantities.length > 0 &&
          !product.allowedQuantities.contains item.quantity then
        .error (.errorResponse
          (.invalidQuantity product.reference product.allowedQuantities) 400)
      else
        let subtotal := product.price * item.quantity
        createOrderLoop products rest
          (orderItems ++ [{ product := product._id, reference := product.reference,
                            name := product.nameEn, size := product.size,
                            quantity := item.quantity, price := product.price,
                            subtotal := subtotal }])
          (total + subtotal)

/-- The controller `createOrder`; `items` and `notes` are the fields of `req.body` (a missing
`items` is the empty cart, a missing `notes` is `none`). -/
def createOrder (db : Db) (user : User) (items : List CartItem) (notes : Option String) :
    Db × Outcome :=
  if items.length = 0 then (db, .errorResponse (.str "No items in order") 400)
  else
    match createOrderLoop db.products items [] 0 with
    | .error response => (db, response)
    | .ok (orderItems, total) =>
      match Order.create db user._id orderItems total notes with
      | none => (db, .next)
      | some (db', order) =>
        (db', .successResponse (some order) (some "Order created successfully") (some 201))

/-- The controller `removeOrderItem`; `itemIndex` is the route parameter, a string. -/
def removeOrderItem (db : Db) (user : User) (id : Nat) (itemIndex : String) : Db × Outcome :=
  match Order.findById db.orders id with
  | none => (db, .errorResponse (.str "Order not found") 404)
  | some order =>
    let isOwner := order.user == user._id
    let isAdmin := user.role == "admin"
    if !isOwner && !isAdmin then
      (db, .errorResponse (.str "Not authorized to modify this order") 403)
    else if !isAdmin && order.status != "pending" then
      (db, .errorResponse (.str "Cannot modify order that is not pending") 400)
    else
      let index := parseInt itemIndex
      -- a comparison with `NaN` is false
      let outOfRange : Bool :=
        match index with
        | none => false
        | some i => decide (i < 0) || decide (i ≥ (order.items.length : Int))
      if outOfRange then (db, .errorResponse (.str "Invalid item index") 400)
      else
        let items := splice order.items index 1
        if items.length = 0 then
          ({ db with orders := Order.findByIdAndDelete db.orders id },
            .successResponse none (some "Order deleted (no items remaining)") none)
        else
          match Order.save db { order with items := items, total := reduceSubtotals items } with
          | none => (db, .next)
          | some (db', saved) =>
            (db', .successResponse (some saved) (some "Item removed from order") none)

/-- The controller `cancelOrder`. -/
def cancelOrder (db : Db) (user : User) (id : Nat) : Db × Outcome :=
  match Order.findById db.orders id with
  | none => (db, .errorResponse (.str "Order not found") 404)
  | some order =>
    let isOwner := order.user == user._id
    let isAdmin := user.role == "admin"
    if !isOwner && !isAdmin then
      (db, .errorResponse (.str "Not authorized to cancel this order") 403)
    else if !isAdmin && order.status != "pending" then
      (db, .errorResponse (.str "Cannot cancel order that is not pending") 400)
    else
      match Order.save db { order with status := "cancelled" } with
      | none => (db, .next)
      | some (db', saved) => (db', .successResponse (some saved) (some "Order cancelled") none)

/-- The list `validStatuses` of `updateOrderStatus`. -/
def validStatuses : List String :=
  ["pending", "confirmed", "processing", "shipped", "delivered", "cancelled"]

/-- The controller `updateOrderStatus`; `status` is `req.body.status`, `none` when absent
(an absent value is in no list). -/
def updateOrderStatus (db : Db) (id : Nat) (status : Option String) : Db × Outcome :=
  let includes : Bool :=
    match status with
    | none => false
    | some s => validStatuses.contains s
  if !includes then
    (db, .errorResponse
      (.str ("Invalid status. Valid statuses: " ++ ", ".intercalate validStatuses)) 400)
  else
    match Order.findById db.orders id with
    | none => (db, .errorResponse (.str "Order not found") 404)
    | some order =>
      match Order.save db { order with status := status.getD "" } with
      | none => (db, .next)
      | some (db', saved) =>
        (db', .successResponse (some saved)
          (some ("Order status updated to " ++ status.getD "")) none)

/-- The controller `deleteOrder`. -/
def deleteOrder (db : Db) (id : Nat) : Db × Outcome :=
  match Order.findById db.orders id with
  | none => (db, .errorResponse (.str "Order not found") 404)
  | some _ =>
    ({ db with orders := Order.findByIdAndDelete db.orders id },
      .successResponse none (some "Order deleted successfully") none)

/-! ## Routes (`routes/orderRoutes.js`, `routes/adminRoutes.js`) -/

/-- A handler mounted behind `router.use(adminOnly)`. -/
def behindAdminOnly (db : Db) (user : User) (handler : Db × Outcome) : Db × Outcome :=
  match adminOnly user with
  | some refusal => (db, refusal)
  | none => handler

/-- The route `PUT /api/admin/orders/:id/status`. -/
def adminUpdateOrderStatus (db : Db) (user : User) (id : Nat) (status : Option String) :
    Db × Outcome :=
  behindAdminOnly db user (updateOrderStatus db id status)

/-- The route `DELETE /api/admin/orders/:id`. -/
def adminDeleteOrder (db : Db) (user : User) (id : Nat) : Db × Outcome :=
  behindAdminOnly db user (deleteOrder db id)

/-- The route `PUT /api/admin/orders/:id/items/:itemIndex`. -/
def adminRemoveOrderItem (db : Db) (user : User) (id : Nat) (itemIndex : String) :
    Db × Outcome :=
  behindAdminOnly db user (removeOrderItem db user id itemIndex)

/-- A request to one of the order routes. -/
inductive Request where
  | createOrder (user : User) (items : List CartItem) (notes : Option String)
  | getOrderById (user : User) (id : Nat)
  | removeOrderItem (user : User) (id : Nat) (itemIndex : String)
  | cancelOrder (user : User) (id : Nat)
  | adminUpdateOrderStatus (user : User) (id : Nat) (status : Option String)
  | adminDeleteOrder (user : User) (id : Nat)
  | adminRemoveOrderItem (user : User) (id : Nat) (itemIndex : String)
deriving DecidableEq, Repr

/-- One request served: the database afterwards and the outcome. The route `POST /api/orders`
runs `orderValidation` first, which answers 400 `Validation failed` itself. -/
def step (db : Db) : Request → Db × Outcome
  | .createOrder user items notes =>
    if orderValidation items then createOrder db user items notes
    else (db, .errorResponse (.str "Validation failed") 400)
  | .getOrderById user id => (db, getOrderById db user id)
  | .removeOrderItem user id itemIndex => removeOrderItem db user id itemIndex
  | .cancelOrder user id => cancelOrder db user id
  | .adminUpdateOrderStatus user id status => adminUpdateOrderStatus db user id status
  | .adminDeleteOrder user id => adminDeleteOrder db user id
  | .adminRemoveOrderItem user id itemIndex => adminRemoveOrderItem db user id itemIndex

/-- The database after a sequence of requests. -/
def run (db : Db) : List Request → Db
  | [] => db
  | request :: rest => run (step db request).1 rest

/-! ## Catalog maintenance (`controllers/productController.js`) -/

/-- The function `String.prototype.toUpperCase`, on the ASCII letters. -/
def jsToUpperCase (s : String) : String :=
  s.map Char.toUpper

/-- The fields the update controllers read from `req.body`; `none` is an absent field (a JSON
`null` is not represented). -/
structure ProductUpdate where
  nameEn : Option String
  nameFr : Option String
  price : Option Number
  size : Option String
  color : Option String
  allowedQuantities : Option (List Number)
  relatedProducts : Option (List String)
  isActive : Option Bool
  newReference : Option String
deriving DecidableEq, Repr

/-- How a product controller ends; as `Outcome`, with a product as data. -/
inductive ProductOutcome where
  | errorResponse (message : Message) (statusCode : Nat)
  | successResponse (data : Option Product) (message : Option String)
      (statusCode : Option Nat)
  | next
deriving DecidableEq, Repr

/-- The refusal of a middleware, seen from a product route. -/
def Outcome.toProductOutcome : Outcome → ProductOutcome
  | .errorResponse message statusCode => .errorResponse message statusCode
  | .successResponse _ message statusCode => .successResponse none message statusCode
  | .next => .next

/-- The query `Product.findOne({ reference })`. -/
def Product.findOneByReference (products : List Product) (reference : String) :
    Option Product :=
  products.find? (fun p => p.reference == reference)

/-- The write of `product.save()`: the first stored document with the identifier of `product`
is replaced by it. -/
def Product.replace (products : List Product) (product : Product) : List Product :=
  match products with
  | [] => []
  | p :: rest =>
    if p._id == product._id then product :: rest else p :: Product.replace rest product

/-- The call `product.save()`: it throws (`none`) when a validator of `productSchema` fails or
when another product already holds the reference (`unique: true`), and writes otherwise. -/
def Product.save (db : Db) (product : Product) : Option Db :=
  if product.validate &&
      !db.products.any (fun p => p._id != product._id && p.reference == product.reference) then
    some { db with products := Product.replace db.products product }
  else none

/-- The block `// Update fields` shared by `updateProduct` and `updateProductByReference`:
a string is assigned when it is truthy (non-empty), an array when it is present, `price`,
`color` and `isActive` when they are not `undefined`; the schema setters trim the names and
the colour. -/
def updateFields (product : Product) (body : ProductUpdate) : Product :=
  let product :=
    match body.nameEn with
    | some nameEn => if !nameEn.isEmpty then { product with nameEn := jsTrim nameEn } else product
    | none => product
  let product :=
    match body.nameFr with
    | some nameFr => if !nameFr.isEmpty then { product with nameFr := jsTrim nameFr } else product
    | none => product
  let product :=
    match body.price with
    | some price => { product with price := price }
    | none => product
  let product :=
    match body.size with
    | some size => if !size.isEmpty then { product with size := size } else product
    | none => product
  let product :=
    match body.color with
    | some color => { product with color := some (jsTrim color) }
    | none => product
  let product :=
    match body.allowedQuantities with
    | some allowedQuantities => { product with allowedQuantities := allowedQuantities }
    | none => product
  let product :=
    match body.relatedProducts with
    | some relatedProducts => { product with relatedProducts := relatedProducts }
    | none => product
  match body.isActive with
  | some isActive => { product with isActive := isActive }
  | none => product

/-- The controller `updateProduct`. -/
def updateProduct (db : Db) (id : Nat) (body : ProductUpdate) : Db × ProductOutcome :=
  match Product.findById db.products id with
  | none => (db, .errorResponse (.str "Product not found") 404)
  | some product =>
    let product := updateFields product body
    match Product.save db product with
    | none => (db, .next)
    | some db' =>
      (db', .successResponse (some product) (some "Product updated successfully") none)

/-- The controller `updateProductByReference`; `ref` is the route parameter. -/
def updateProductByReference (db : Db) (ref : String) (body : ProductUpdate) :
    Db × ProductOutcome :=
  match Product.findOneByReference db.products (jsToUpperCase ref) with
  | none => (db, .errorResponse (.str "Product not found") 404)
  | some product =>
    let product := updateFields product body
    let product :=
      match body.newReference with
      | some newReference =>
        if !newReference.isEmpty then
          { product with reference := jsTrim (jsToUpperCase newReference) }
        else product
      | none => product
    match Product.save db product with
    | none => (db, .next)
    | some db' =>
      (db', .successResponse (some product) (some "Product updated successfully") none)

/-- The controller `deleteProduct`: a soft delete. -/
def deleteProduct (db : Db) (id : Nat) : Db × ProductOutcome :=
  match Product.findById db.products id with
  | none => (db, .errorResponse (.str "Product not found") 404)
  | some product =>
    match Product.save db { product with isActive := false } with
    | none => (db, .next)
    | some db' => (db', .successResponse none (some "Product deleted successfully") none)

/-- The chain `productUpdateValidation`: a name that is present is not empty once trimmed, a
price that is present is at least 0; the names reach the controller trimmed. `none` is the
400 answer `Validation failed`. -/
def productUpdateValidation (body : ProductUpdate) : Option ProductUpdate :=
  let nameEn := body.nameEn.map jsTrim
  let nameFr := body.nameFr.map jsTrim
  let nameOk (name : Option String) : Bool :=
    match name with
    | some v => !v.isEmpty
    | none => true
  let priceOk : Bool :=
    match body.price with
    | some price => decide (0 ≤ price)
    | none => true
  if nameOk nameEn && nameOk nameFr && priceOk then
    some { body with nameEn := nameEn, nameFr := nameFr }
  else none

/-- A product handler mounted behind `router.use(adminOnly)`. -/
def productBehindAdminOnly (db : Db) (user : User) (handler : Db × ProductOutcome) :
    Db × ProductOutcome :=
  match adminOnly user with
  | some refusal => (db, refusal.toProductOutcome)
  | none => handler

/-- A request to one of the catalog routes of `routes/adminRoutes.js` that change a product:
`PUT /products/:id`, `PUT /products/reference/:ref`, `DELETE /products/:id`. -/
inductive CatalogRequest where
  | updateProduct (user : User) (id : Nat) (body : ProductUpdate)
  | updateProductByReference (user : User) (ref : String) (body : ProductUpdate)
  | deleteProduct (user : User) (id : Nat)
deriving DecidableEq, Repr

/-- One catalog request served: `adminOnly`, then `productUpdateValidation` on the update
routes, then the controller. -/
def catalogStep (db : Db) : CatalogRequest → Db × ProductOutcome
  | .updateProduct user id body =>
    productBehindAdminOnly db user
      (match productUpdateValidation body with
       | none => (db, .errorResponse (.str "Validation failed") 400)
       | some body => updateProduct db id body)
  | .updateProductByReference user ref body =>
    productBehindAdminOnly db user
      (match productUpdateValidation body with
       | none => (db, .errorResponse (.str "Validation failed") 400)
       | some body => updateProductByReference db ref body)
  | .deleteProduct user id => productBehindAdminOnly db user (deleteProduct db id)

/-- The database after a sequence of catalog requests. -/
def catalogRun (db : Db) : List CatalogRequest → Db
  | [] => db
  | request :: rest => catalogRun (catalogStep db request).1 rest

/-! ## Specification-side vocabulary -/

/-- The sum of the subtotals of a line sequence. -/
def subtotalSum (items : List OrderItem) : Number :=
  (items.map OrderItem.subtotal).sum

/-- The total invariant on one order: `total` is the sum of the subtotals of its lines. -/
def Order.TotalInv (order : Order) : Prop :=
  order.total = subtotalSum order.items

/-- The total invariant on a database: every stored order satisfies it. -/
def Db.TotalInv (db : Db) : Prop :=
  ∀ order ∈ db.orders, order.TotalInv

/-- The requester is an administrator. -/
def User.isAdmin (user : User) : Prop :=
  user.role = "admin"

/-- The requester owns the order. -/
def User.isOwner (user : User) (order : Order) : Prop :=
  order.user = user._id

/-- The rule of the authorization table for item removal and cancellation: an administrator
always, the owner while the order is pending. -/
def mayModify (user : User) (order : Order) : Prop :=
  user.isAdmin ∨ (user.isOwner order ∧ order.status = "pending")

/-- A cart item passes the three checks of the creation loop against a catalog: its product
exists, is active, and its allowed-quantities list is empty or contains the quantity. -/
def CartItem.Acceptable (products : List Product) (item : CartItem) : Prop :=
  ∃ product, Product.findById products item.productId = some product ∧
    product.isActive = true ∧
    (product.allowedQuantities = [] ∨ item.quantity ∈ product.allowedQuantities)

/-- The line that snapshots a product for a requested quantity. -/
def snapshotLine (product : Product) (quantity : Number) : OrderItem :=
  { product := product._id, reference := product.reference, name := product.nameEn,
    size := product.size, quantity := quantity, price := product.price,
    subtotal := product.price * quantity }

/-! ## Example data -/

/-- Product A of the specification: price 11.30, allowed quantities 10, 30, 50, 60. -/
def productA : Product :=
  { _id := 1, reference := "A-100", nameEn := "Paint A", nameFr := "Peinture A", size := "1L",
    price := 1130 / 100, color := none, allowedQuantities := [10, 30, 50, 60],
    relatedProducts := [], isActive := true }

/-- Product B of the specification: price 11.99, unrestricted. -/
def productB : Product :=
  { _id := 2, reference := "B-200", nameEn := "Paint B", nameFr := "Peinture B", size := "4L",
    price := 1199 / 100, color := some "white", allowedQuantities := [],
    relatedProducts := [], isActive := true }

/-- Product P of the specification: allowed quantities 5, 10, 15, 20. -/
def productP : Product :=
  { _id := 3, reference := "P-300", nameEn := "Primer P", nameFr := "Appret P", size := "1L",
    price := 8, color := none, allowedQuantities := [5, 10, 15, 20],
    relatedProducts := [], isActive := true }

/-- A product that has been soft-deleted. -/
def productOld : Product :=
  { _id := 4, reference := "O-400", nameEn := "Old paint", nameFr := "Vieille peinture",
    size := "1L", price := 5, color := none, allowedQuantities := [1, 5],
    relatedProducts := [], isActive := false }

/-- A customer. -/
def customer : User := { _id := 7, role := "user" }

/-- Another customer. -/
def stranger : User := { _id := 8, role := "user" }

/-- An administrator. -/
def administrator : User := { _id := 1, role := "admin" }

/-- The line of product A for quantity 10. -/
def lineA : OrderItem :=
  { product := 1, reference := "A-100", name := "Paint A", size := "1L", quantity := 10,
    price := 1130 / 100, subtotal := 113 }

/-- The line of product B for quantity 5. -/
def lineB : OrderItem :=
  { product := 2, reference := "B-200", name := "Paint B", size := "4L", quantity := 5,
    price := 1199 / 100, subtotal := 5995 / 100 }

/-- A pending order of the customer with two lines. -/
def orderTwoLines : Order :=
  { _id := 10, user := 7, items := [lineA, lineB], total := 17295 / 100, status := "pending",
    notes := none }

/-- A confirmed order of the customer with two lines. -/
def orderConfirmed : Order :=
  { _id := 11, user := 7, items := [lineB, lineA], total := 17295 / 100, status := "confirmed",
    notes := some "deliver on Monday" }

/-- A pending order of the customer with one line. -/
def orderOneLine : Order :=
  { _id := 12, user := 7, items := [lineA], total := 113, status := "pending", notes := none }

/-- A catalog and no order. -/
def emptyStore : Db :=
  { products := [productA, productB, productP, productOld], orders := [], nextId := 10 }

/-- A catalog and three orders. -/
def sampleStore : Db :=
  { products := [productA, productB, productP, productOld],
    orders := [orderTwoLines, orderConfirmed, orderOneLine], nextId := 13 }

/-- A sequence of requests: a creation, a removal, a cancellation and a status change. -/
def sampleRequests : List Request :=
  [.createOrder customer [⟨1, 10⟩, ⟨2, 5⟩] none,
   .removeOrderItem customer 10 "1",
   .cancelOrder customer 12,
   .adminUpdateOrderStatus administrator 11 (some "shipped")]

/-- The order a successful creation stores: fresh identifier, owner, the given lines, their
sum as total, status `pending`, trimmed notes. -/
def createdOrder (db : Db) (user : User) (lines : List OrderItem) (notes : Option String) :
    Order :=
  { _id := db.nextId, user := user._id, items := lines, total := subtotalSum lines,
    status := "pending", notes := notes.map jsTrim }

/-- The relation between a cart and the lines built from it: item by item, the line is the
snapshot of the product the catalog holds under the requested identifier. -/
def SnapshotOf (products : List Product) (items : List CartItem) (lines : List OrderItem) :
    Prop :=
  List.Forall₂ (fun (item : CartItem) (line : OrderItem) =>
    ∃ product, Product.findById products item.productId = some product ∧
      line = snapshotLine product item.quantity) items lines

/-- The cart of the specification: 10 of product A, then 5 of product B. -/
def cartAB : List CartItem := [⟨1, 10⟩, ⟨2, 5⟩]

/-- The cart of the specification that asks for 7 of product P. -/
def cartP7 : List CartItem := [⟨3, 7⟩]

/-- A cart that asks for 0 of product B, whose allowed-quantities list is empty. -/
def cartZero : List CartItem := [⟨2, 0⟩]

/-- A cart whose second item names a soft-deleted product (and a quantity outside its allowed
list) and whose third item names no product at all. -/
def cartBroken : List CartItem := [⟨1, 10⟩, ⟨4, 7⟩, ⟨9, 1⟩]

/-- The two answers with which `removeOrderItem` refuses a requester. -/
def removeRefusals : List Outcome :=
  [.errorResponse (.str "Not authorized to modify this order") 403,
   .errorResponse (.str "Cannot modify order that is not pending") 400]

/-- The two answers with which `cancelOrder` refuses a requester. -/
def cancelRefusals : List Outcome :=
  [.errorResponse (.str "Not authorized to cancel this order") 403,
   .errorResponse (.str "Cannot cancel order that is not pending") 400]

/-- A stored order is well formed when it passes the schema validators and none of its
subtotals is negative. -/
def Order.WellFormed (order : Order) : Prop :=
  order.validate = true ∧ ∀ item ∈ order.items, 0 ≤ item.subtotal

/-- A database is well formed when its products pass the product schema, its orders are well
formed, and the order identifiers are pairwise distinct and below the next identifier. -/
def Db.WellFormed (db : Db) : Prop :=
  (∀ product ∈ db.products, product.validate = true) ∧
  (∀ order ∈ db.orders, order.WellFormed) ∧
  (db.orders.map Order._id).Nodup ∧
  (∀ order ∈ db.orders, order._id < db.nextId)

instance (user : User) (order : Order) : Decidable (mayModify user order) := by
  unfold mayModify User.isAdmin User.isOwner
  exact inferInstance

instance (order : Order) : Decidable order.TotalInv := by
  unfold Order.TotalInv
  exact inferInstance

instance (db : Db) : Decidable db.TotalInv := by
  unfold Db.TotalInv
  exact inferInstance

instance (order : Order) : Decidable order.WellFormed := by
  unfold Order.WellFormed
  exact inferInstance

instance (db : Db) : Decidable db.WellFormed := by
  unfold Db.WellFormed
  exact inferInstance

/-- A direct call of one of the five order controllers that write, with arbitrary
arguments (no route middleware in front). -/
inductive Call where
  | createOrder (user : User) (items : List CartItem) (notes : Option String)
  | removeOrderItem (user : User) (id : Nat) (itemIndex : String)
  | cancelOrder (user : User) (id : Nat)
  | updateOrderStatus (id : Nat) (status : Option String)
  | deleteOrder (id : Nat)
deriving DecidableEq, Repr

/-- One controller call: the database afterwards and the outcome. -/
def call (db : Db) : Call → Db × Outcome
  | .createOrder user items notes => createOrder db user items notes
  | .removeOrderItem user id itemIndex => removeOrderItem db user id itemIndex
  | .cancelOrder user id => cancelOrder db user id
  | .updateOrderStatus id status => updateOrderStatus db id status
  | .deleteOrder id => deleteOrder db id

/-- The database after a sequence of controller calls. -/
def calls (db : Db) : List Call → Db
  | [] => db
  | c :: rest => calls (call db c).1 rest

/-- No stored order is without lines. -/
def Db.NoEmptyOrder (db : Db) : Prop :=
  ∀ order ∈ db.orders, order.items ≠ []

/-- Every stored order has one of the six statuses of the schema. -/
def Db.StatusInv (db : Db) : Prop :=
  ∀ order ∈ db.orders, order.status ∈ statusEnum

instance (db : Db) : Decidable db.NoEmptyOrder := by
  unfold Db.NoEmptyOrder
  exact inferInstance

instance (db : Db) : Decidable db.StatusInv := by
  unfold Db.StatusInv
  exact inferInstance

/-- A sequence of controller calls: a rejected creation, a creation, a removal that empties
order 12, a cancellation, a status change with an invalid and one with a valid value, and a
deletion. -/
def sampleCalls : List Call :=
  [.createOrder customer [] none,
   .createOrder customer [⟨1, 10⟩, ⟨2, 5⟩] none,
   .removeOrderItem customer 12 "0",
   .cancelOrder customer 10,
   .updateOrderStatus 11 (some "Shipped"),
   .updateOrderStatus 11 (some "delivered"),
   .deleteOrder 10]

/-- An update body without any field. -/
def noUpdate : ProductUpdate :=
  { nameEn := none, nameFr := none, price := none, size := none, color := none,
    allowedQuantities := none, relatedProducts := none, isActive := none,
    newReference := none }

/-- Catalog changes by the administrator: product A gets a new price, name, size and allowed
quantities, product B is soft-deleted, and product P is renamed and deactivated through its
reference. -/
def sampleCatalogRequests : List CatalogRequest :=
  [.updateProduct administrator 1
     { noUpdate with price := some 99, nameEn := some "Paint A+", size := some "5L",
                     allowedQuantities := some [1, 2] },
   .deleteProduct administrator 2,
   .updateProductByReference administrator "p-300"
     { noUpdate with nameFr := some "Appret", isActive := some false,
                     newReference := some "p-301" }]

/-- The order `createOrder` builds in the empty sample store for the cart of 10 A and 5 B. -/
def orderAB : Order :=
  { _id := 10, user := 7, items := [lineA, lineB], total := 17295 / 100, status := "pending",
    notes := none }

/-- The non-negativity of an order: every line has a quantity of at least 1 and a subtotal
that is not negative, and the total is not negative. -/
def Order.NonNegative (order : Order) : Prop :=
  (∀ line ∈ order.items, 1 ≤ line.quantity ∧ 0 ≤ line.subtotal) ∧ 0 ≤ order.total

instance (order : Order) : Decidable order.NonNegative := by
  unfold Order.NonNegative
  exact inferInstance

/-- The requester of a request to the order routes. -/
def Request.user : Request → User
  | .createOrder user _ _ => user
  | .getOrderById user _ => user
  | .removeOrderItem user _ _ => user
  | .cancelOrder user _ => user
  | .adminUpdateOrderStatus user _ _ => user
  | .adminDeleteOrder user _ => user
  | .adminRemoveOrderItem user _ _ => user

/-- The order with its status set to `cancelled`, as `cancelOrder` stores it. -/
def Order.cancelled (order : Order) : Order :=
  { order with status := "cancelled" }

/-- The owner cancels the one-line sample order and the administrator sets it back to
`pending`. -/
def reopenRequests : List Request :=
  [.cancelOrder customer 12, .adminUpdateOrderStatus administrator 12 (some "pending")]

/-- Requests by requesters who are not administrators, aimed at order 12: the owner cancels
and removes, another customer cancels, removes and creates an order, and the owner tries the
three admin routes. -/
def nonAdminRequests : List Request :=
  [.cancelOrder customer 12, .removeOrderItem customer 12 "0", .cancelOrder stranger 12,
   .removeOrderItem stranger 12 "abc", .createOrder stranger [⟨2, 5⟩] none,
   .adminUpdateOrderStatus customer 12 (some "pending"), .adminDeleteOrder customer 12,
   .adminRemoveOrderItem customer 12 "0"]

/-! ## The arithmetic of creation and removal in binary64

The controllers above compute with exact rationals. JavaScript computes with IEEE 754
binary64 values: the result of `+`, `-` and `*` is the exact result rounded to the nearest
value with a 53-bit significand, ties to the even significand. This section embeds the two
controllers that compute subtotals and totals, `createOrder` and `removeOrderItem`, a second
time with that rounding, together with the model functions they call. A binary64 value is
represented by the rational it denotes. Overflow is not represented: a result of magnitude
`2 ^ 1024` or more, which binary64 turns into `Infinity`, stays the rounded finite value; nor
are `NaN` and the sign of zero, which no operation on finite values that are not negative
produces or observes. -/

/-- The integer nearest to `q`; of the two nearest integers of a half-way `q`, the even one. -/
def roundHalfEven (q : ℚ) : ℤ :=
  if q - ⌊q⌋ < 1 / 2 then ⌊q⌋
  else if 1 / 2 < q - ⌊q⌋ then ⌊q⌋ + 1
  else if ⌊q⌋ % 2 = 0 then ⌊q⌋ else ⌊q⌋ + 1

/-- The spacing of the binary64 values in the binade of `q`: `2 ^ (e - 52)` where
`2 ^ e ≤ |q| < 2 ^ (e + 1)`, and `2 ^ (-1074)` below the normal range (`e < -1022`). -/
def ulp (q : ℚ) : ℚ :=
  (2 : ℚ) ^ (max (Int.log 2 |q|) (-1022) - 52)

/-- The binary64 value nearest to `q`, ties to even: the rounding every arithmetic operation
of JavaScript applies to its exact result, and the reading of a decimal literal. -/
def roundDouble (q : ℚ) : ℚ :=
  (roundHalfEven (q / ulp q) : ℚ) * ulp q

/-- The operator `+` on numbers. -/
def jsAdd (a b : Number) : Number :=
  roundDouble (a + b)

/-- The operator `*` on numbers. -/
def jsMul (a b : Number) : Number :=
  roundDouble (a * b)

/-- The operator `-` on numbers. -/
def jsSub (a b : Number) : Number :=
  roundDouble (a - b)

/-- The call `array.reduce((sum, item) => sum + item.subtotal, 0)`, in binary64. -/
def reduceSubtotalsDouble (items : List OrderItem) : Number :=
  items.foldl (fun sum item => jsAdd sum item.subtotal) 0

/-- The hook `orderSchema.pre('save')`, in binary64. -/
def preSaveDouble (order : Order) : Order :=
  if order.items.length > 0 then { order with total := reduceSubtotalsDouble order.items }
  else order

/-- The call `order.save()` on a loaded document, in binary64: validation, hook, write. -/
def Order.saveDouble (db : Db) (order : Order) : Option (Db × Order) :=
  if order.validate then
    let saved := preSaveDouble order
    some ({ db with orders := Order.replace db.orders saved }, saved)
  else none

/-- The call `Order.create({ user, items, total, notes })`, in binary64. -/
def Order.createDouble (db : Db) (user : Nat) (items : List OrderItem) (total : Number)
    (notes : Option String) : Option (Db × Order) :=
  let doc : Order :=
    { _id := db.nextId, user := user, items := items, total := total, status := "pending",
      notes := notes.map jsTrim }
  if doc.validate then
    let saved := preSaveDouble doc
    some ({ db with orders := db.orders ++ [saved], nextId := db.nextId + 1 }, saved)
  else none

/-- The body of the `for (const item of items)` loop of `createOrder`, in binary64:
`subtotal = product.price * item.quantity` and `total += subtotal` round. -/
def createOrderLoopDouble (products : List Product) :
    List CartItem → List OrderItem → Number → Except Outcome (List OrderItem × Number)
  | [], orderItems, total => .ok (orderItems, total)
  | item :: rest, orderItems, total =>
    match Product.findById products item.productId with
    | none =>
      .error (.errorResponse (.str ("Product not found: " ++ toString item.productId)) 404)
    | some product =>
      if !product.isActive then
        .error (.errorResponse
          (.str ("Product is no longer available: " ++ product.reference)) 400)
      else if product.allowedQuantities.length > 0 &&
          !product.allowedQuantities.contains item.quantity then
        .error (.errorResponse
          (.invalidQuantity product.reference product.allowedQuantities) 400)
      else
        let subtotal := jsMul product.price item.quantity
        createOrderLoopDouble products rest
          (orderItems ++ [{ product := product._id, reference := product.reference,
                            name := product.nameEn, size := product.size,
                            quantity := item.quantity, price := product.price,
                            subtotal := subtotal }])
          (jsAdd total subtotal)

/-- The controller `createOrder`, in binary64. -/
def createOrderDouble (db : Db) (user : User) (items : List CartItem)
    (notes : Option String) : Db × Outcome :=
  if items.length = 0 then (db, .errorResponse (.str "No items in order") 400)
  else
    match createOrderLoopDouble db.products items [] 0 with
    | .error response => (db, response)
    | .ok (orderItems, total) =>
      match Order.createDouble db user._id orderItems total notes with
      | none => (db, .next)
      | some (db', order) =>
        (db', .successResponse (some order) (some "Order created successfully") (some 201))

/-- The controller `removeOrderItem`, in binary64. -/
def removeOrderItemDouble (db : Db) (user : User) (id : Nat) (itemIndex : String) :
    Db × Outcome :=
  match Order.findById db.orders id with
  | none => (db, .errorResponse (.str "Order not found") 404)
  | some order =>
    let isOwner := order.user == user._id
    let isAdmin := user.role == "admin"
    if !isOwner && !isAdmin then
      (db, .errorResponse (.str "Not authorized to modify this order") 403)
    else if !isAdmin && order.status != "pending" then
      (db, .errorResponse (.str "Cannot modify order that is not pending") 400)
    else
      let index := parseInt itemIndex
      let outOfRange : Bool :=
        match index with
        | none => false
        | some i => decide (i < 0) || decide (i ≥ (order.items.length : Int))
      if outOfRange then (db, .errorResponse (.str "Invalid item index") 400)
      else
        let items := splice order.items index 1
        if items.length = 0 then
          ({ db with orders := Order.findByIdAndDelete db.orders id },
            .successResponse none (some "Order deleted (no items remaining)") none)
        else
          match Order.saveDouble db
              { order with items := items, total := reduceSubtotalsDouble items } with
          | none => (db, .next)
          | some (db', saved) =>
            (db', .successResponse (some saved) (some "Item removed from order") none)

/-- Product A as the code holds it: the price is the binary64 value of the literal `11.30`. -/
def productADouble : Product :=
  { productA with price := roundDouble (1130 / 100) }

/-- Product B as the code holds it: the price is the binary64 value of the literal `11.99`. -/
def productBDouble : Product :=
  { productB with price := roundDouble (1199 / 100) }

/-- The catalog of products A and B with binary64 prices, and no order. -/
def doubleStore : Db :=
  { products := [productADouble, productBDouble], orders := [], nextId := 10 }

/-- The line of product A for quantity 10, in binary64: `11.3 * 10` is `113`. -/
def lineADouble : OrderItem :=
  { product := 1, reference := "A-100", name := "Paint A", size := "1L", quantity := 10,
    price := 3180667236830413 / 281474976710656, subtotal := 113 }

/-- The line of product B for quantity 5, in binary64: `11.99 * 5` is the binary64 value that
prints as `59.95`. -/
def lineBDouble : OrderItem :=
  { product := 2, reference := "B-200", name := "Paint B", size := "4L", quantity := 5,
    price := 6749769941521531 / 562949953421312,
    subtotal := 4218606213450957 / 70368744177664 }

/-- The order the binary64 `createOrder` builds for 10 A and 5 B: its total `113 + 59.95` is
the binary64 value that prints as `172.95`. -/
def orderABDouble : Order :=
  { _id := 10, user := 7, items := [lineADouble, lineBDouble],
    total := 3042568576381747 / 17592186044416, status := "pending", notes := none }

/-- The order after the removal of its line 1: the total is recomputed from line 0. -/
def orderADouble : Order :=
  { orderABDouble with items := [lineADouble], total := 113 }

/-! ## Lemmas on the library functions -/

theorem foldl_subtotal (items : List OrderItem) (start : Number) :
    items.foldl (fun sum item => sum + item.subtotal) start = start + subtotalSum items := by
  induction items generalizing start with
  | nil => simp [subtotalSum]
  | cons item rest ih =>
    simp only [List.foldl_cons, ih, subtotalSum, List.map_cons, List.sum_cons]
    ring

theorem reduceSubtotals_eq (items : List OrderItem) :
    reduceSubtotals items = subtotalSum items := by
  simp [reduceSubtotals, foldl_subtotal]

theorem preSave_totalInv (order : Order) (h : order.items ≠ [] ∨ order.TotalInv) :
    (preSave order).TotalInv := by
  unfold preSave
  split
  · simp [Order.TotalInv, reduceSubtotals_eq]
  · rename_i hlen
    rcases h with h | h
    · exact absurd (List.length_pos.mpr h) hlen
    · exact h

theorem preSave_items (order : Order) : (preSave order).items = order.items := by
  unfold preSave; split <;> rfl

theorem preSave_id (order : Order) : (preSave order)._id = order._id := by
  unfold preSave; split <;> rfl

theorem preSave_user (order : Order) : (preSave order).user = order.user := by
  unfold preSave; split <;> rfl

theorem preSave_status (order : Order) : (preSave order).status = order.status := by
  unfold preSave; split <;> rfl

theorem preSave_notes (order : Order) : (preSave order).notes = order.notes := by
  unfold preSave; split <;> rfl

theorem preSave_total (order : Order) (h : order.total = reduceSubtotals order.items) :
    preSave order = order := by
  unfold preSave
  split
  · cases order; simp_all
  · rfl

theorem mem_replace {orders : List Order} {order x : Order} (h : x ∈ Order.replace orders order) :
    x = order ∨ x ∈ orders := by
  induction orders with
  | nil => simp [Order.replace] at h
  | cons o rest ih =>
    unfold Order.replace at h
    split at h
    · rcases List.mem_cons.mp h with h | h
      · exact Or.inl h
      · exact Or.inr (List.mem_cons_of_mem _ h)
    · rcases List.mem_cons.mp h with h | h
      · exact Or.inr (h ▸ List.mem_cons_self _ _)
      · rcases ih h with h | h
        · exact Or.inl h
        · exact Or.inr (List.mem_cons_of_mem _ h)

theorem findById_mem {orders : List Order} {id : Nat} {order : Order}
    (h : Order.findById orders id = some order) : order ∈ orders :=
  List.mem_of_find?_eq_some h

theorem findById_id {orders : List Order} {id : Nat} {order : Order}
    (h : Order.findById orders id = some order) : order._id = id := by
  have := List.find?_some h
  simpa using this

/-! ## The total invariant -/

theorem save_totalInv {db db' : Db} {order saved : Order}
    (h : Order.save db order = some (db', saved)) (hdb : db.TotalInv)
    (ho : order.items ≠ [] ∨ order.TotalInv) : db'.TotalInv ∧ saved.TotalInv := by
  unfold Order.save at h
  split at h
  · simp only [Option.some.injEq, Prod.mk.injEq] at h
    obtain ⟨rfl, rfl⟩ := h
    refine ⟨?_, preSave_totalInv order ho⟩
    intro x hx
    rcases mem_replace hx with hx | hx
    · exact hx ▸ preSave_totalInv order ho
    · exact hdb x hx
  · simp at h

theorem create_totalInv {db db' : Db} {user : Nat} {items : List OrderItem} {total : Number}
    {notes : Option String} {saved : Order}
    (h : Order.create db user items total notes = some (db', saved)) (hdb : db.TotalInv)
    (ho : items ≠ [] ∨ total = subtotalSum items) : db'.TotalInv := by
  unfold Order.create at h
  simp only at h
  split at h
  · simp only [Option.some.injEq, Prod.mk.injEq] at h
    obtain ⟨rfl, rfl⟩ := h
    intro x hx
    simp only [List.mem_append, List.mem_singleton] at hx
    rcases hx with hx | hx
    · exact hdb x hx
    · exact hx ▸ preSave_totalInv _ ho
  · simp at h

theorem delete_totalInv {db : Db} (id : Nat) (hdb : db.TotalInv) :
    Db.TotalInv { db with orders := Order.findByIdAndDelete db.orders id } := by
  intro x hx
  exact hdb x (List.mem_of_mem_eraseP hx)

/-! ## The creation loop -/

/-- The loop on one acceptable item: it appends the snapshot line and adds its subtotal. -/
theorem createOrderLoop_cons_ok (products : List Product) (item : CartItem)
    (rest : List CartItem) (orderItems : List OrderItem) (total : Number) (product : Product)
    (hfind : Product.findById products item.productId = some product)
    (hactive : product.isActive = true)
    (hqty : product.allowedQuantities = [] ∨ item.quantity ∈ product.allowedQuantities) :
    createOrderLoop products (item :: rest) orderItems total =
      createOrderLoop products rest (orderItems ++ [snapshotLine product item.quantity])
        (total + product.price * item.quantity) := by
  have hguard : (decide (product.allowedQuantities.length > 0) &&
      !product.allowedQuantities.contains item.quantity) = false := by
    rcases hqty with h | h
    · simp [h]
    · simp [h]
  simp only [createOrderLoop, hfind, hactive, hguard, snapshotLine]
  simp

/-- The loop succeeds on acceptable items, appending one snapshot line per item, in order. -/
theorem createOrderLoop_ok (products : List Product) (items : List CartItem)
    (orderItems : List OrderItem) (total : Number)
    (h : ∀ item ∈ items, item.Acceptable products) :
    ∃ lines, createOrderLoop products items orderItems total =
        .ok (orderItems ++ lines, total + subtotalSum lines) ∧
      SnapshotOf products items lines := by
  induction items generalizing orderItems total with
  | nil => exact ⟨[], by simp [createOrderLoop, subtotalSum], List.Forall₂.nil⟩
  | cons item rest ih =>
    obtain ⟨product, hfind, hactive, hqty⟩ := h item (List.mem_cons_self _ _)
    obtain ⟨lines, hloop, hlines⟩ :=
      ih (orderItems ++ [snapshotLine product item.quantity])
        (total + product.price * item.quantity)
        (fun x hx => h x (List.mem_cons_of_mem _ hx))
    refine ⟨snapshotLine product item.quantity :: lines, ?_, ?_⟩
    · rw [createOrderLoop_cons_ok products item rest orderItems total product hfind hactive hqty,
        hloop]
      simp [subtotalSum, snapshotLine, add_assoc]
    · exact List.Forall₂.cons ⟨product, hfind, rfl⟩ hlines

/-- The loop only succeeds on acceptable items. -/
theorem createOrderLoop_acceptable (products : List Product) (items : List CartItem)
    (orderItems : List OrderItem) (total : Number) (result : List OrderItem × Number)
    (h : createOrderLoop products items orderItems total = .ok result) :
    ∀ item ∈ items, item.Acceptable products := by
  induction items generalizing orderItems total with
  | nil => simp
  | cons item rest ih =>
    unfold createOrderLoop at h
    split at h
    · simp at h
    · rename_i product hfind
      split at h
      · simp at h
      · rename_i hactive
        split at h
        · simp at h
        · rename_i hguard
          intro x hx
          rcases List.mem_cons.mp hx with hx | hx
          · subst hx
            refine ⟨product, hfind, by simpa using hactive, ?_⟩
            by_cases hnil : product.allowedQuantities = []
            · exact Or.inl hnil
            · right
              have hpos : 0 < product.allowedQuantities.length := List.length_pos.mpr hnil
              simpa [hpos] using hguard
          · exact ih _ _ h x hx

/-- What the loop returns from the empty accumulators: the lines match the cart item by item
and the running total is the sum of their subtotals. -/
theorem createOrderLoop_result (products : List Product) (items : List CartItem)
    (orderItems : List OrderItem) (total : Number)
    (h : createOrderLoop products items [] 0 = .ok (orderItems, total)) :
    total = subtotalSum orderItems ∧
      SnapshotOf products items orderItems := by
  obtain ⟨lines, hloop, hlines⟩ := createOrderLoop_ok products items [] 0
    (createOrderLoop_acceptable products items [] 0 _ h)
  rw [hloop] at h
  simp only [List.nil_append, zero_add, Except.ok.injEq, Prod.mk.injEq] at h
  obtain ⟨rfl, rfl⟩ := h
  exact ⟨rfl, hlines⟩

/-- The loop runs through a prefix of acceptable items. -/
theorem createOrderLoop_append (products : List Product) (pre rest : List CartItem)
    (orderItems : List OrderItem) (total : Number)
    (h : ∀ item ∈ pre, item.Acceptable products) :
    ∃ lines subtotal, createOrderLoop products (pre ++ rest) orderItems total =
      createOrderLoop products rest (orderItems ++ lines) (total + subtotal) := by
  induction pre generalizing orderItems total with
  | nil => exact ⟨[], 0, by simp⟩
  | cons item pre ih =>
    obtain ⟨product, hfind, hactive, hqty⟩ := h item (List.mem_cons_self _ _)
    obtain ⟨lines, subtotal, hloop⟩ :=
      ih (orderItems ++ [snapshotLine product item.quantity])
        (total + product.price * item.quantity)
        (fun x hx => h x (List.mem_cons_of_mem _ hx))
    refine ⟨snapshotLine product item.quantity :: lines, product.price * item.quantity + subtotal, ?_⟩
    rw [List.cons_append,
      createOrderLoop_cons_ok products item _ orderItems total product hfind hactive hqty, hloop]
    simp [add_assoc]

theorem createOrder_totalInv (db : Db) (user : User) (items : List CartItem)
    (notes : Option String) (hdb : db.TotalInv) : (createOrder db user items notes).1.TotalInv := by
  unfold createOrder
  split
  · exact hdb
  · split
    · exact hdb
    · rename_i orderItems total hloop
      split
      · exact hdb
      · rename_i db' order hcreate
        exact create_totalInv hcreate hdb
          (Or.inr (createOrderLoop_result db.products items orderItems total hloop).1)

theorem removeOrderItem_totalInv (db : Db) (user : User) (id : Nat) (itemIndex : String)
    (hdb : db.TotalInv) : (removeOrderItem db user id itemIndex).1.TotalInv := by
  unfold removeOrderItem
  split
  · exact hdb
  · simp only
    split
    · exact hdb
    · split
      · exact hdb
      · split
        · exact hdb
        · split
          · exact delete_totalInv id hdb
          · split
            · exact hdb
            · rename_i db' saved hsave
              exact (save_totalInv hsave hdb
                (Or.inr (by simp [Order.TotalInv, reduceSubtotals_eq]))).1

theorem cancelOrder_totalInv (db : Db) (user : User) (id : Nat) (hdb : db.TotalInv) :
    (cancelOrder db user id).1.TotalInv := by
  unfold cancelOrder
  split
  · exact hdb
  · rename_i order hfind
    simp only
    split
    · exact hdb
    · split
      · exact hdb
      · split
        · exact hdb
        · rename_i db' saved hsave
          exact (save_totalInv hsave hdb (Or.inr (hdb order (findById_mem hfind)))).1

theorem updateOrderStatus_totalInv (db : Db) (id : Nat) (status : Option String)
    (hdb : db.TotalInv) : (updateOrderStatus db id status).1.TotalInv := by
  unfold updateOrderStatus
  simp only
  split
  · exact hdb
  · split
    · exact hdb
    · rename_i order hfind
      split
      · exact hdb
      · rename_i db' saved hsave
        exact (save_totalInv hsave hdb (Or.inr (hdb order (findById_mem hfind)))).1

theorem deleteOrder_totalInv (db : Db) (id : Nat) (hdb : db.TotalInv) :
    (deleteOrder db id).1.TotalInv := by
  unfold deleteOrder
  split
  · exact hdb
  · exact delete_totalInv id hdb

theorem behindAdminOnly_totalInv (db : Db) (user : User) (handler : Db × Outcome)
    (hdb : db.TotalInv) (hh : handler.1.TotalInv) :
    (behindAdminOnly db user handler).1.TotalInv := by
  unfold behindAdminOnly
  split
  · exact hdb
  · exact hh

theorem step_totalInv (db : Db) (request : Request) (hdb : db.TotalInv) :
    (step db request).1.TotalInv := by
  cases request with
  | createOrder user items notes =>
    simp only [step]
    split
    · exact createOrder_totalInv db user items notes hdb
    · exact hdb
  | getOrderById user id => exact hdb
  | removeOrderItem user id itemIndex => exact removeOrderItem_totalInv db user id itemIndex hdb
  | cancelOrder user id => exact cancelOrder_totalInv db user id hdb
  | adminUpdateOrderStatus user id status =>
    exact behindAdminOnly_totalInv db user _ hdb (updateOrderStatus_totalInv db id status hdb)
  | adminDeleteOrder user id =>
    exact behindAdminOnly_totalInv db user _ hdb (deleteOrder_totalInv db id hdb)
  | adminRemoveOrderItem user id itemIndex =>
    exact behindAdminOnly_totalInv db user _ hdb
      (removeOrderItem_totalInv db user id itemIndex hdb)

theorem run_totalInv (db : Db) (requests : List Request) (hdb : db.TotalInv) :
    (run db requests).TotalInv := by
  induction requests generalizing db with
  | nil => exact hdb
  | cons request rest ih => exact ih _ (step_totalInv db request hdb)

theorem sampleStore_totalInv : sampleStore.TotalInv := by
  intro order horder
  simp only [sampleStore, List.mem_cons, List.mem_singleton, List.not_mem_nil, or_false] at horder
  rcases horder with rfl | rfl | rfl <;>
    norm_num [Order.TotalInv, subtotalSum, orderTwoLines, orderConfirmed, orderOneLine, lineA,
      lineB]

/-- C1 (total invariant): from a store in which every order has `total` equal to the sum of
the subtotals of its lines, every sequence of requests to the order routes leads to such a
store again, and so does each single call of the controllers `createOrder`,
`removeOrderItem` (cascading or not), `cancelOrder` and `updateOrderStatus`, successful or
not. -/
theorem C1_total_invariant (db : Db) (hdb : db.TotalInv) :
    (∀ requests : List Request, (run db requests).TotalInv) ∧
    (∀ user items notes, (createOrder db user items notes).1.TotalInv) ∧
    (∀ user id itemIndex, (removeOrderItem db user id itemIndex).1.TotalInv) ∧
    (∀ user id, (cancelOrder db user id).1.TotalInv) ∧
    (∀ id status, (updateOrderStatus db id status).1.TotalInv) :=
  ⟨fun requests => run_totalInv db requests hdb,
   fun user items notes => createOrder_totalInv db user items notes hdb,
   fun user id itemIndex => removeOrderItem_totalInv db user id itemIndex hdb,
   fun user id => cancelOrder_totalInv db user id hdb,
   fun id status => updateOrderStatus_totalInv db id status hdb⟩

/-- The total invariant holds in the sample store and after the sample requests. -/
theorem C1_total_invariant_witness :
    sampleStore.TotalInv ∧ (run sampleStore sampleRequests).TotalInv :=
  ⟨sampleStore_totalInv, (C1_total_invariant sampleStore sampleStore_totalInv).1 sampleRequests⟩

/-! ## Creation -/

theorem productFindById_mem {products : List Product} {id : Nat} {product : Product}
    (h : Product.findById products id = some product) : product ∈ products :=
  List.mem_of_find?_eq_some h

theorem productFindById_id {products : List Product} {id : Nat} {product : Product}
    (h : Product.findById products id = some product) : product._id = id := by
  have := List.find?_some h
  simpa using this

theorem subtotalSum_nonneg (items : List OrderItem) (h : ∀ item ∈ items, 0 ≤ item.subtotal) :
    0 ≤ subtotalSum items := by
  apply List.sum_nonneg
  intro x hx
  obtain ⟨item, hitem, rfl⟩ := List.mem_map.mp hx
  exact h item hitem

/-- A snapshot of a schema-valid product for a quantity of at least 1 passes the validators of
the order-item schema and has a non-negative subtotal. -/
theorem snapshotLine_valid (product : Product) (quantity : Number)
    (hproduct : product.validate = true) (hquantity : 1 ≤ quantity) :
    (snapshotLine product quantity).validate = true ∧
      0 ≤ (snapshotLine product quantity).subtotal := by
  simp only [Product.validate, Bool.and_eq_true, Bool.not_eq_true', decide_eq_true_eq]
    at hproduct
  obtain ⟨⟨⟨href, hname⟩, _⟩, hprice⟩ := hproduct
  refine ⟨?_, ?_⟩
  · simp [OrderItem.validate, snapshotLine, href, hname, hquantity]
  · exact mul_nonneg hprice (le_trans zero_le_one hquantity)

theorem snapshotLines_valid (products : List Product) (items : List CartItem)
    (lines : List OrderItem) (hlines : SnapshotOf products items lines)
    (hcat : ∀ product ∈ products, product.validate = true)
    (hqty : ∀ item ∈ items, 1 ≤ item.quantity) :
    ∀ line ∈ lines, line.validate = true ∧ 0 ≤ line.subtotal := by
  unfold SnapshotOf at hlines
  induction hlines with
  | nil => simp
  | @cons item line items lines hhead _ ih =>
    obtain ⟨product, hfind, rfl⟩ := hhead
    intro x hx
    rcases List.mem_cons.mp hx with hx | hx
    · subst hx
      exact snapshotLine_valid product item.quantity (hcat product (productFindById_mem hfind))
        (hqty item (List.mem_cons_self _ _))
    · exact ih (fun y hy => hqty y (List.mem_cons_of_mem _ hy)) x hx

/-- The order that `createOrder` stores for a requester, the built lines and the notes. -/
theorem createOrder_ok (db : Db) (user : User) (items : List CartItem) (notes : Option String)
    (hne : items ≠ [])
    (hacc : ∀ item ∈ items, item.Acceptable db.products)
    (hcat : ∀ product ∈ db.products, product.validate = true)
    (hqty : ∀ item ∈ items, 1 ≤ item.quantity) :
    ∃ lines : List OrderItem, SnapshotOf db.products items lines ∧
      createOrder db user items notes =
        ({ db with orders := db.orders ++ [createdOrder db user lines notes],
                   nextId := db.nextId + 1 },
          .successResponse (some (createdOrder db user lines notes))
            (some "Order created successfully") (some 201)) := by
  obtain ⟨lines, hloop, hlines⟩ := createOrderLoop_ok db.products items [] 0 hacc
  refine ⟨lines, hlines, ?_⟩
  have hlen : items.length ≠ 0 := fun h => hne (List.length_eq_zero.mp h)
  have hvalid := snapshotLines_valid db.products items lines hlines hcat hqty
  have hall : lines.all OrderItem.validate = true :=
    List.all_eq_true.mpr (fun x hx => (hvalid x hx).1)
  have hsum : 0 ≤ subtotalSum lines := subtotalSum_nonneg lines (fun x hx => (hvalid x hx).2)
  have hdoc : Order.validate (createdOrder db user lines notes) = true := by
    simp [Order.validate, createdOrder, hall, hsum, statusEnum]
  have hpre : preSave (createdOrder db user lines notes) = createdOrder db user lines notes :=
    preSave_total _ (by simp [createdOrder, reduceSubtotals_eq])
  have hcreate : Order.create db user._id lines (subtotalSum lines) notes =
      some ({ db with orders := db.orders ++ [createdOrder db user lines notes],
                      nextId := db.nextId + 1 }, createdOrder db user lines notes) := by
    have hdoc' := hdoc
    have hpre' := hpre
    unfold createdOrder at hdoc' hpre'
    simp only [Order.create, hdoc', if_true, hpre', createdOrder]
  simp only [createOrder, hlen, if_false, hloop, List.nil_append, zero_add, hcreate]

theorem SnapshotOf.line {products : List Product} {items : List CartItem}
    {lines : List OrderItem} (h : SnapshotOf products items lines) (k : Nat)
    (hk : k < items.length) :
    ∃ product, Product.findById products (items[k]).productId = some product ∧
      lines[k]? = some (snapshotLine product (items[k]).quantity) := by
  have hlen : items.length = lines.length := List.Forall₂.length_eq h
  have hk' : k < lines.length := hlen ▸ hk
  obtain ⟨product, hfind, hline⟩ := List.Forall₂.get h hk hk'
  refine ⟨product, hfind, ?_⟩
  rw [List.getElem?_eq_getElem hk']
  exact congrArg some hline

theorem cartAB_acceptable : ∀ item ∈ cartAB, item.Acceptable emptyStore.products := by
  intro item hitem
  simp only [cartAB, List.mem_cons, List.mem_singleton, List.not_mem_nil, or_false] at hitem
  rcases hitem with rfl | rfl
  · exact ⟨productA, rfl, rfl, Or.inr (by decide)⟩
  · exact ⟨productB, rfl, rfl, Or.inl rfl⟩

/-- C2 (creation): for a non-empty cart whose items all pass the checks of the loop (with
quantities of at least 1 and a schema-valid catalog, as the route and the product schema
guarantee), `createOrder` appends exactly one order to the store and returns it: status
`pending`, owner the requester, as many lines as the cart has items, line `k` carrying the
identifier, reference, English name, size and price of the product found for item `k`, the
requested quantity and subtotal price × quantity, and total the sum of the subtotals. -/
theorem C2_createOrder_persists (db : Db) (user : User) (items : List CartItem)
    (notes : Option String) (hne : items ≠ [])
    (hacc : ∀ item ∈ items, item.Acceptable db.products)
    (hcat : ∀ product ∈ db.products, product.validate = true)
    (hqty : ∀ item ∈ items, 1 ≤ item.quantity) :
    ∃ order : Order,
      createOrder db user items notes =
        ({ db with orders := db.orders ++ [order], nextId := db.nextId + 1 },
          .successResponse (some order) (some "Order created successfully") (some 201)) ∧
      order.status = "pending" ∧ order.user = user._id ∧
      order.items.length = items.length ∧
      (∀ k (hk : k < items.length), ∃ product line,
        Product.findById db.products (items[k]).productId = some product ∧
        product._id = (items[k]).productId ∧
        order.items[k]? = some line ∧
        line.product = product._id ∧ line.reference = product.reference ∧
        line.name = product.nameEn ∧ line.size = product.size ∧
        line.price = product.price ∧ line.quantity = (items[k]).quantity ∧
        line.subtotal = product.price * (items[k]).quantity) ∧
      order.total = (order.items.map OrderItem.subtotal).sum := by
  obtain ⟨lines, hlines, hcreate⟩ := createOrder_ok db user items notes hne hacc hcat hqty
  refine ⟨createdOrder db user lines notes, hcreate, rfl, rfl, ?_, ?_, rfl⟩
  · exact (List.Forall₂.length_eq hlines).symm
  · intro k hk
    obtain ⟨product, hfind, hline⟩ := hlines.line k hk
    exact ⟨product, snapshotLine product (items[k]).quantity, hfind,
      productFindById_id hfind, hline, rfl, rfl, rfl, rfl, rfl, rfl, rfl⟩

/-- The cart of the specification, 10 of A at 11.30 and 5 of B at 11.99, gives one order with
the two lines in that order and total 172.95. -/
theorem C2_createOrder_persists_witness :
    (createOrder emptyStore customer cartAB none).1.orders =
      [{ _id := 10, user := 7, items := [lineA, lineB], total := 17295 / 100,
         status := "pending", notes := none }] ∧
    ∃ order : Order,
      createOrder emptyStore customer cartAB none =
        ({ emptyStore with orders := emptyStore.orders ++ [order],
                           nextId := emptyStore.nextId + 1 },
          .successResponse (some order) (some "Order created successfully") (some 201)) ∧
      order.status = "pending" ∧ order.user = customer._id ∧
      order.items.length = cartAB.length ∧
      (∀ k (hk : k < cartAB.length), ∃ product line,
        Product.findById emptyStore.products (cartAB[k]).productId = some product ∧
        product._id = (cartAB[k]).productId ∧
        order.items[k]? = some line ∧
        line.product = product._id ∧ line.reference = product.reference ∧
        line.name = product.nameEn ∧ line.size = product.size ∧
        line.price = product.price ∧ line.quantity = (cartAB[k]).quantity ∧
        line.subtotal = product.price * (cartAB[k]).quantity) ∧
      order.total = (order.items.map OrderItem.subtotal).sum :=
  ⟨by decide!,
   C2_createOrder_persists emptyStore customer cartAB none (by decide) cartAB_acceptable
    (by decide!) (by decide!)⟩

/-- The four ways `createOrder` ends, by the branch taken. -/
theorem createOrder_cases (db : Db) (user : User) (items : List CartItem)
    (notes : Option String) :
    (items = [] ∧ createOrder db user items notes =
      (db, .errorResponse (.str "No items in order") 400)) ∨
    (∃ response, items ≠ [] ∧ createOrderLoop db.products items [] 0 = .error response ∧
      createOrder db user items notes = (db, response)) ∨
    (∃ orderItems total, items ≠ [] ∧
      createOrderLoop db.products items [] 0 = .ok (orderItems, total) ∧
      Order.create db user._id orderItems total notes = none ∧
      createOrder db user items notes = (db, .next)) ∨
    (∃ orderItems total db' order, items ≠ [] ∧
      createOrderLoop db.products items [] 0 = .ok (orderItems, total) ∧
      Order.create db user._id orderItems total notes = some (db', order) ∧
      createOrder db user items notes =
        (db', .successResponse (some order) (some "Order created successfully") (some 201))) := by
  by_cases hnil : items = []
  · left
    exact ⟨hnil, by simp [createOrder, hnil]⟩
  · right
    have hlen : items.length ≠ 0 := fun h => hnil (List.length_eq_zero.mp h)
    cases hloop : createOrderLoop db.products items [] 0 with
    | error response =>
      left
      exact ⟨response, hnil, rfl, by simp [createOrder, hlen, hloop]⟩
    | ok result =>
      right
      obtain ⟨orderItems, total⟩ := result
      cases hcreate : Order.create db user._id orderItems total notes with
      | none =>
        left
        exact ⟨orderItems, total, hnil, rfl, hcreate, by simp [createOrder, hlen, hloop, hcreate]⟩
      | some created =>
        right
        obtain ⟨db', order⟩ := created
        exact ⟨orderItems, total, db', order, hnil, rfl, hcreate,
          by simp [createOrder, hlen, hloop, hcreate]⟩

/-- A call of `createOrder` that does not end in a success response leaves the database as it
was. -/
theorem createOrder_unchanged (db : Db) (user : User) (items : List CartItem)
    (notes : Option String) (h : (createOrder db user items notes).2.isSuccess = false) :
    (createOrder db user items notes).1 = db := by
  rcases createOrder_cases db user items notes with ⟨_, heq⟩ | ⟨_, _, _, heq⟩ |
    ⟨_, _, _, _, _, heq⟩ | ⟨_, _, _, _, _, _, _, heq⟩
  · rw [heq]
  · rw [heq]
  · rw [heq]
  · rw [heq] at h
    simp [Outcome.isSuccess] at h

/-- An early return of the loop is never a success response. -/
theorem createOrderLoop_error (products : List Product) (items : List CartItem)
    (orderItems : List OrderItem) (total : Number) (response : Outcome)
    (h : createOrderLoop products items orderItems total = .error response) :
    response.isSuccess = false := by
  induction items generalizing orderItems total with
  | nil => simp [createOrderLoop] at h
  | cons item rest ih =>
    unfold createOrderLoop at h
    split at h
    · simp only [Except.error.injEq] at h
      subst h
      rfl
    · split at h
      · simp only [Except.error.injEq] at h
        subst h
        rfl
      · split at h
        · simp only [Except.error.injEq] at h
          subst h
          rfl
        · exact ih _ _ h

theorem createOrder_success_acceptable (db : Db) (user : User) (items : List CartItem)
    (notes : Option String) (h : (createOrder db user items notes).2.isSuccess = true) :
    items ≠ [] ∧ ∀ item ∈ items, item.Acceptable db.products := by
  rcases createOrder_cases db user items notes with ⟨_, heq⟩ | ⟨response, _, herr, heq⟩ |
    ⟨_, _, _, _, _, heq⟩ | ⟨orderItems, total, _, _, hne, hloop, _, heq⟩
  · rw [heq] at h; simp [Outcome.isSuccess] at h
  · rw [heq] at h
    have := createOrderLoop_error db.products items [] 0 response herr
    simp only at h
    rw [this] at h
    cases h
  · rw [heq] at h; simp [Outcome.isSuccess] at h
  · exact ⟨hne, createOrderLoop_acceptable db.products items [] 0 _ hloop⟩

theorem emptyStore_catalog_valid : ∀ product ∈ emptyStore.products, product.validate = true := by
  decide!

/-- A call of `createOrder` that ends in success was given quantities of at least 1: the
validator `min: 1` of the order-item schema has passed on every line, and line `k` carries
the quantity of item `k`. -/
theorem createOrder_success_quantities (db : Db) (user : User) (items : List CartItem)
    (notes : Option String) (h : (createOrder db user items notes).2.isSuccess = true) :
    ∀ item ∈ items, 1 ≤ item.quantity := by
  rcases createOrder_cases db user items notes with ⟨_, heq⟩ | ⟨response, _, herr, heq⟩ |
    ⟨_, _, _, _, _, heq⟩ | ⟨orderItems, total, db', order, _, hloop, hcreate, _⟩
  · rw [heq] at h; simp [Outcome.isSuccess] at h
  · rw [heq] at h
    have := createOrderLoop_error db.products items [] 0 response herr
    simp only at h
    rw [this] at h
    cases h
  · rw [heq] at h; simp [Outcome.isSuccess] at h
  · obtain ⟨_, hlines⟩ := createOrderLoop_result db.products items orderItems total hloop
    have hvalid : ∀ line ∈ orderItems, line.validate = true := by
      unfold Order.create at hcreate
      simp only at hcreate
      split at hcreate
      · rename_i hdoc
        simp only [Order.validate, Bool.and_eq_true, List.all_eq_true] at hdoc
        exact hdoc.1.1
      · simp at hcreate
    intro item hitem
    obtain ⟨k, hk, hget⟩ := List.getElem_of_mem hitem
    have hk' : k < orderItems.length := by
      rw [← List.Forall₂.length_eq hlines]; exact hk
    obtain ⟨product, _, hline⟩ := List.Forall₂.get hlines hk hk'
    have hq := hvalid _ (List.get_mem orderItems k hk')
    rw [hline] at hq
    simp only [OrderItem.validate, snapshotLine, Bool.and_eq_true, decide_eq_true_eq] at hq
    have hitem' : items.get ⟨k, hk⟩ = item := hget
    rw [hitem'] at hq
    exact hq.2

/-- C3, counterexample: the cart that asks for 0 of product B is not empty, and its one item
names a product that exists, is active and has an empty allowed-quantities list, yet
`createOrder` does not succeed: the line built for it fails the validator `min: 1` of the
order-item schema, `Order.create` throws, the call ends in `next(error)` and nothing is
stored. Through the route `POST /api/orders` the cart does not succeed either:
`orderValidation` answers 400. -/
theorem C3_counterexample :
    cartZero ≠ [] ∧
    (∀ item ∈ cartZero, ∃ product,
      Product.findById emptyStore.products item.productId = some product ∧
      product.isActive = true ∧
      (product.allowedQuantities = [] ∨ item.quantity ∈ product.allowedQuantities)) ∧
    createOrder emptyStore customer cartZero none = (emptyStore, .next) ∧
    (createOrder emptyStore customer cartZero none).2.isSuccess = false ∧
    step emptyStore (.createOrder customer cartZero none) =
      (emptyStore, .errorResponse (.str "Validation failed") 400) := by
  refine ⟨by decide, ?_, by decide!, by decide!, by decide!⟩
  intro item hitem
  simp only [cartZero, List.mem_singleton] at hitem
  subst hitem
  exact ⟨productB, rfl, rfl, Or.inl rfl⟩

/-- C3, amended (acceptance): over a catalog whose products pass the product schema,
`createOrder` ends in success exactly when the cart is non-empty and every item has a
quantity of at least 1 and names a product that exists, is active, and whose
allowed-quantities list is empty or contains the requested quantity; through the route
`POST /api/orders` the same holds with quantities that are moreover integers; an item whose
quantity is outside a non-empty allowed list makes the call fail and stores nothing. -/
theorem C3_createOrder_succeeds_iff (db : Db) (user : User) (items : List CartItem)
    (notes : Option String)
    (hcat : ∀ product ∈ db.products, product.validate = true) :
    ((createOrder db user items notes).2.isSuccess = true ↔
      items ≠ [] ∧ ∀ item ∈ items, 1 ≤ item.quantity ∧ ∃ product,
        Product.findById db.products item.productId = some product ∧
        product.isActive = true ∧
        (product.allowedQuantities = [] ∨ item.quantity ∈ product.allowedQuantities)) ∧
    ((step db (.createOrder user items notes)).2.isSuccess = true ↔
      items ≠ [] ∧ ∀ item ∈ items,
        (item.quantity.isInt = true ∧ 1 ≤ item.quantity) ∧ ∃ product,
          Product.findById db.products item.productId = some product ∧
          product.isActive = true ∧
          (product.allowedQuantities = [] ∨ item.quantity ∈ product.allowedQuantities)) ∧
    (∀ item ∈ items, ∀ product,
      Product.findById db.products item.productId = some product →
      product.allowedQuantities ≠ [] → item.quantity ∉ product.allowedQuantities →
      (createOrder db user items notes).2.isSuccess = false ∧
        (createOrder db user items notes).1 = db) := by
  have hiff : (createOrder db user items notes).2.isSuccess = true ↔
      items ≠ [] ∧ ∀ item ∈ items, 1 ≤ item.quantity ∧ item.Acceptable db.products := by
    constructor
    · intro h
      obtain ⟨hne, hacc⟩ := createOrder_success_acceptable db user items notes h
      have hq := createOrder_success_quantities db user items notes h
      exact ⟨hne, fun item hitem => ⟨hq item hitem, hacc item hitem⟩⟩
    · rintro ⟨hne, hall⟩
      obtain ⟨lines, _, hcreate⟩ := createOrder_ok db user items notes hne
        (fun item hitem => (hall item hitem).2) hcat (fun item hitem => (hall item hitem).1)
      rw [hcreate]
      rfl
  refine ⟨hiff, ?_, ?_⟩
  · by_cases hv : orderValidation items = true
    · have hstep : step db (.createOrder user items notes) =
          createOrder db user items notes := by
        simp only [step, hv, if_true]
      have hint : ∀ item ∈ items, item.quantity.isInt = true := by
        simp only [orderValidation, Bool.and_eq_true, List.all_eq_true,
          decide_eq_true_eq] at hv
        exact fun item hitem => (hv.2 item hitem).1
      rw [hstep]
      constructor
      · intro h
        obtain ⟨hne, hall⟩ := hiff.mp h
        exact ⟨hne, fun item hitem =>
          ⟨⟨hint item hitem, (hall item hitem).1⟩, (hall item hitem).2⟩⟩
      · rintro ⟨hne, hall⟩
        exact hiff.mpr ⟨hne, fun item hitem => ⟨(hall item hitem).1.2, (hall item hitem).2⟩⟩
    · have hstep : step db (.createOrder user items notes) =
          (db, .errorResponse (.str "Validation failed") 400) := by
        simp only [step, hv, Bool.false_eq_true, if_false]
      rw [hstep]
      constructor
      · intro h
        simp [Outcome.isSuccess] at h
      · rintro ⟨hne, hall⟩
        exfalso
        apply hv
        simp only [orderValidation, Bool.and_eq_true, List.all_eq_true, decide_eq_true_eq]
        exact ⟨Nat.succ_le_of_lt (List.length_pos.mpr hne),
          fun item hitem => (hall item hitem).1⟩
  · intro item hitem product hfind hnonempty hnotin
    have hfail : (createOrder db user items notes).2.isSuccess = false := by
      cases hs : (createOrder db user items notes).2.isSuccess with
      | false => rfl
      | true =>
        obtain ⟨_, product', hfind', _, hallowed⟩ := (hiff.mp hs).2 item hitem
        rw [hfind] at hfind'
        cases hfind'
        rcases hallowed with h | h
        · exact absurd h hnonempty
        · exact absurd h hnotin
    exact ⟨hfail, createOrder_unchanged db user items notes hfail⟩

/-- In the sample catalog the cart of 10 A and 5 B is accepted by the controller and through
the route, the cart asking for 7 of product P (allowed 5, 10, 15, 20) is not, and nothing is
stored for it. -/
theorem C3_createOrder_succeeds_iff_witness :
    (createOrder emptyStore customer cartAB none).2.isSuccess = true ∧
    (step emptyStore (.createOrder customer cartAB none)).2.isSuccess = true ∧
    ((createOrder emptyStore customer cartP7 none).2.isSuccess = false ∧
      (createOrder emptyStore customer cartP7 none).1 = emptyStore) :=
  ⟨(C3_createOrder_succeeds_iff emptyStore customer cartAB none emptyStore_catalog_valid).1.mpr
      ⟨by decide, fun item hitem => ⟨by revert item; decide!, cartAB_acceptable item hitem⟩⟩,
   (C3_createOrder_succeeds_iff emptyStore customer cartAB none emptyStore_catalog_valid).2.1.mpr
      ⟨by decide, fun item hitem =>
        ⟨by revert item; decide!, cartAB_acceptable item hitem⟩⟩,
   (C3_createOrder_succeeds_iff emptyStore customer cartP7 none emptyStore_catalog_valid).2.2
      ⟨3, 7⟩ (by decide) productP rfl (by decide) (by decide)⟩

/-! ## The first failing item -/

theorem createOrder_of_loop_error (db : Db) (user : User) (items : List CartItem)
    (notes : Option String) (response : Outcome) (hne : items ≠ [])
    (hloop : createOrderLoop db.products items [] 0 = .error response) :
    createOrder db user items notes = (db, response) := by
  have hlen : items.length ≠ 0 := fun h => hne (List.length_eq_zero.mp h)
  simp [createOrder, hlen, hloop]

theorem unavailable_ne_invalid_index (reference : String) :
    "Product is no longer available: " ++ reference ≠ "Invalid item index" := by
  intro h
  have := congrArg String.data h
  simp at this

theorem cartBroken_prefix_acceptable :
    ∀ item ∈ [(⟨1, 10⟩ : CartItem)], item.Acceptable emptyStore.products := by
  intro item hitem
  simp only [List.mem_singleton] at hitem
  subst hitem
  exact ⟨productA, rfl, rfl, Or.inr (by decide)⟩

/-- C4 (first failure): in a cart `pre ++ item :: post` whose items before `item` all pass the
checks, the answer of `createOrder` is decided by `item` alone, whatever `post` holds: 404
(`NotFound`) with the product identifier when no product is found; 400 (`ValidationError`)
naming the product when it is inactive, also when the quantity is not allowed either; 400
(`ValidationError`) with the allowed quantities when the product is active and the quantity
is outside its non-empty allowed list. -/
theorem C4_first_failing_item (db : Db) (user : User) (pre post : List CartItem)
    (item : CartItem) (notes : Option String)
    (hpre : ∀ x ∈ pre, x.Acceptable db.products) :
    (Product.findById db.products item.productId = none →
      createOrder db user (pre ++ item :: post) notes =
          (db, .errorResponse (.str ("Product not found: " ++ toString item.productId)) 404) ∧
        (createOrder db user (pre ++ item :: post) notes).2.kind = some .NotFound) ∧
    (∀ product, Product.findById db.products item.productId = some product →
      product.isActive = false →
      createOrder db user (pre ++ item :: post) notes =
          (db, .errorResponse
            (.str ("Product is no longer available: " ++ product.reference)) 400) ∧
        (createOrder db user (pre ++ item :: post) notes).2.kind = some .ValidationError) ∧
    (∀ product, Product.findById db.products item.productId = some product →
      product.isActive = true → product.allowedQuantities ≠ [] →
      item.quantity ∉ product.allowedQuantities →
      createOrder db user (pre ++ item :: post) notes =
          (db, .errorResponse
            (.invalidQuantity product.reference product.allowedQuantities) 400) ∧
        (createOrder db user (pre ++ item :: post) notes).2.kind = some .ValidationError) := by
  obtain ⟨lines, subtotal, hrun⟩ :=
    createOrderLoop_append db.products pre (item :: post) [] 0 hpre
  have hne : pre ++ item :: post ≠ [] := by simp
  refine ⟨?_, ?_, ?_⟩
  · intro hfind
    have hloop : createOrderLoop db.products (pre ++ item :: post) [] 0 =
        .error (.errorResponse (.str ("Product not found: " ++ toString item.productId)) 404) := by
      rw [hrun]
      simp [createOrderLoop, hfind]
    have heq := createOrder_of_loop_error db user _ notes _ hne hloop
    exact ⟨heq, by rw [heq]; rfl⟩
  · intro product hfind hactive
    have hloop : createOrderLoop db.products (pre ++ item :: post) [] 0 =
        .error (.errorResponse
          (.str ("Product is no longer available: " ++ product.reference)) 400) := by
      rw [hrun]
      simp [createOrderLoop, hfind, hactive]
    have heq := createOrder_of_loop_error db user _ notes _ hne hloop
    exact ⟨heq, by rw [heq]; simp [Outcome.kind, unavailable_ne_invalid_index]⟩
  · intro product hfind hactive hnonempty hnotin
    have hpos : 0 < product.allowedQuantities.length := List.length_pos.mpr hnonempty
    have hloop : createOrderLoop db.products (pre ++ item :: post) [] 0 =
        .error (.errorResponse
          (.invalidQuantity product.reference product.allowedQuantities) 400) := by
      rw [hrun]
      simp [createOrderLoop, hfind, hactive, hpos, hnotin]
    have heq := createOrder_of_loop_error db user _ notes _ hne hloop
    exact ⟨heq, by rw [heq]; simp [Outcome.kind]⟩

/-- In the broken cart the second item (soft-deleted product, quantity 7 outside its allowed
list 1, 5) decides the answer: 400 for the inactive product, not the quantity error, and not
the 404 of the third item. -/
theorem C4_first_failing_item_witness :
    createOrder emptyStore customer cartBroken none =
        (emptyStore, .errorResponse (.str "Product is no longer available: O-400") 400) ∧
      (createOrder emptyStore customer cartBroken none).2.kind = some .ValidationError :=
  (C4_first_failing_item emptyStore customer [⟨1, 10⟩] [⟨9, 1⟩] ⟨4, 7⟩ none
    cartBroken_prefix_acceptable).2.1 productOld rfl rfl

/-! ## All or nothing -/

theorem cartP7_not_acceptable : ∃ item ∈ cartP7, ¬ item.Acceptable emptyStore.products := by
  refine ⟨⟨3, 7⟩, by decide, ?_⟩
  rintro ⟨product, hfind, _, hallowed⟩
  have hP : Product.findById emptyStore.products 3 = some productP := rfl
  have hproduct : product = productP := by
    have h := hfind.symm.trans hP
    exact Option.some.inj h
  subst hproduct
  rcases hallowed with h | h
  · exact absurd h (by decide)
  · exact absurd h (by decide)

/-- C5 (all or nothing): whenever `createOrder` does not end in success it returns the
database it was given, orders, catalog and identifier generator alike; and it does not end in
success when the cart is empty or some item, at any position, fails a check of the loop. -/
theorem C5_createOrder_all_or_nothing (db : Db) (user : User) (items : List CartItem)
    (notes : Option String) :
    ((createOrder db user items notes).2.isSuccess = false →
      (createOrder db user items notes).1 = db) ∧
    ((items = [] ∨ ∃ item ∈ items, ¬ item.Acceptable db.products) →
      (createOrder db user items notes).2.isSuccess = false ∧
        (createOrder db user items notes).1 = db) := by
  have hfail : ∀ response : Db × Outcome, createOrder db user items notes = response →
      response.2.isSuccess = false → response.1 = db := by
    intro response hresponse hnot
    rcases createOrder_cases db user items notes with ⟨_, heq⟩ | ⟨_, _, _, heq⟩ |
      ⟨_, _, _, _, _, heq⟩ | ⟨_, _, _, _, _, _, _, heq⟩
    · rw [← hresponse, heq]
    · rw [← hresponse, heq]
    · rw [← hresponse, heq]
    · rw [← hresponse, heq] at hnot
      simp [Outcome.isSuccess] at hnot
  refine ⟨hfail _ rfl, ?_⟩
  intro hbad
  have hnot : (createOrder db user items notes).2.isSuccess = false := by
    cases hs : (createOrder db user items notes).2.isSuccess with
    | false => rfl
    | true =>
      obtain ⟨hne, hacc⟩ := createOrder_success_acceptable db user items notes hs
      rcases hbad with hnil | ⟨item, hitem, hrej⟩
      · exact absurd hnil hne
      · exact absurd (hacc item hitem) hrej
  exact ⟨hnot, hfail _ rfl hnot⟩

/-- For product P with allowed quantities 5, 10, 15, 20 the cart asking for 7 fails with a
400 (`ValidationError`) and the store, empty before, is the same afterwards. -/
theorem C5_createOrder_all_or_nothing_witness :
    (createOrder emptyStore customer cartP7 none).2.kind = some .ValidationError ∧
    ((createOrder emptyStore customer cartP7 none).2.isSuccess = false ∧
      (createOrder emptyStore customer cartP7 none).1 = emptyStore) :=
  ⟨by decide!,
   (C5_createOrder_all_or_nothing emptyStore customer cartP7 none).2
    (Or.inr cartP7_not_acceptable)⟩

/-! ## Missing orders -/

/-- C6, counterexample: no order 99 is stored, yet a status change to the invalid value
`bogus` is answered 400 (`ValidationError`), by the controller and on the admin route for an
administrator, and on the admin route a non-administrator is answered 403 (`Forbidden`) even
for a valid status: none of the three is `NotFound`. -/
theorem C6_counterexample :
    Order.findById sampleStore.orders 99 = none ∧
    (updateOrderStatus sampleStore 99 (some "bogus")).2.kind = some .ValidationError ∧
    (adminUpdateOrderStatus sampleStore administrator 99 (some "bogus")).2.kind =
      some .ValidationError ∧
    (adminUpdateOrderStatus sampleStore customer 99 (some "shipped")).2.kind =
      some .Forbidden := by
  decide

/-- C6, amended (missing order): when no order has the given identifier, `getOrderById`,
`removeOrderItem` (for every index text) and `cancelOrder` answer 404 (`NotFound`) for every
requester and leave the database unchanged; `updateOrderStatus` answers 404 when the status
value is one of the six valid ones (on the admin route: and the requester is an
administrator), whereas an invalid or absent status value is answered 400 and, on the admin
routes of the status change and of the removal, a non-administrator 403, before the order is
looked up. -/
theorem C6_missing_order (db : Db) (user : User) (id : Nat)
    (h : Order.findById db.orders id = none) :
    (getOrderById db user id = .errorResponse (.str "Order not found") 404 ∧
      (getOrderById db user id).kind = some .NotFound) ∧
    (∀ itemIndex, removeOrderItem db user id itemIndex =
        (db, .errorResponse (.str "Order not found") 404) ∧
      (removeOrderItem db user id itemIndex).2.kind = some .NotFound) ∧
    (cancelOrder db user id = (db, .errorResponse (.str "Order not found") 404) ∧
      (cancelOrder db user id).2.kind = some .NotFound) ∧
    (∀ status, status ∈ validStatuses →
      updateOrderStatus db id (some status) =
          (db, .errorResponse (.str "Order not found") 404) ∧
        (updateOrderStatus db id (some status)).2.kind = some .NotFound ∧
        (user.role = "admin" →
          adminUpdateOrderStatus db user id (some status) =
            (db, .errorResponse (.str "Order not found") 404))) ∧
    (∀ status : Option String, (∀ s, status = some s → s ∉ validStatuses) →
      (updateOrderStatus db id status).1 = db ∧
        (updateOrderStatus db id status).2.kind = some .ValidationError) ∧
    (user.role ≠ "admin" → ∀ status,
      (adminUpdateOrderStatus db user id status).1 = db ∧
        (adminUpdateOrderStatus db user id status).2.kind = some .Forbidden) ∧
    (∀ itemIndex,
      (user.role = "admin" → adminRemoveOrderItem db user id itemIndex =
        (db, .errorResponse (.str "Order not found") 404)) ∧
      (user.role ≠ "admin" → (adminRemoveOrderItem db user id itemIndex).1 = db ∧
        (adminRemoveOrderItem db user id itemIndex).2.kind = some .Forbidden)) := by
  refine ⟨?_, ?_, ?_, ?_, ?_, ?_, ?_⟩
  · have heq : getOrderById db user id = .errorResponse (.str "Order not found") 404 := by
      simp [getOrderById, h]
    exact ⟨heq, by rw [heq]; rfl⟩
  · intro itemIndex
    have heq : removeOrderItem db user id itemIndex =
        (db, .errorResponse (.str "Order not found") 404) := by
      simp [removeOrderItem, h]
    exact ⟨heq, by rw [heq]; rfl⟩
  · have heq : cancelOrder db user id = (db, .errorResponse (.str "Order not found") 404) := by
      simp [cancelOrder, h]
    exact ⟨heq, by rw [heq]; rfl⟩
  · intro status hstatus
    have hcontains : validStatuses.contains status = true := List.elem_iff.mpr hstatus
    have heq : updateOrderStatus db id (some status) =
        (db, .errorResponse (.str "Order not found") 404) := by
      simp only [updateOrderStatus, hcontains, h]
      rfl
    refine ⟨heq, by rw [heq]; rfl, ?_⟩
    intro hadmin
    simp [adminUpdateOrderStatus, behindAdminOnly, adminOnly, authorize, hadmin, heq]
  · intro status hstatus
    cases status with
    | none => exact ⟨rfl, rfl⟩
    | some s =>
      have hcontains : validStatuses.contains s = false := by
        simpa using hstatus s rfl
      simp only [updateOrderStatus, hcontains]
      exact ⟨rfl, rfl⟩
  · intro hrole status
    have hcontains : (["admin"].contains user.role) = false := by simpa using hrole
    simp only [adminUpdateOrderStatus, behindAdminOnly, adminOnly, authorize, hcontains]
    exact ⟨rfl, rfl⟩
  · intro itemIndex
    constructor
    · intro hadmin
      simp [adminRemoveOrderItem, behindAdminOnly, adminOnly, authorize, hadmin,
        removeOrderItem, h]
    · intro hrole
      have hcontains : (["admin"].contains user.role) = false := by simpa using hrole
      simp only [adminRemoveOrderItem, behindAdminOnly, adminOnly, authorize, hcontains]
      exact ⟨rfl, rfl⟩

/-- In the sample store order 99 is missing: the customer's attempt to cancel it is answered
404. -/
theorem C6_missing_order_witness :
    Order.findById sampleStore.orders 99 = none ∧
    (cancelOrder sampleStore customer 99 =
        (sampleStore, .errorResponse (.str "Order not found") 404) ∧
      (cancelOrder sampleStore customer 99).2.kind = some .NotFound) :=
  ⟨by decide, (C6_missing_order sampleStore customer 99 (by decide)).2.2.1⟩

/-! ## Authorization of removal and cancellation -/

/-- Both guards of `removeOrderItem` and `cancelOrder` let an authorized requester through. -/
theorem guards_of_mayModify (user : User) (order : Order) (h : mayModify user order) :
    (!(order.user == user._id) && !(user.role == "admin")) = false ∧
    (!(user.role == "admin") && (order.status != "pending")) = false := by
  rcases h with hadmin | ⟨howner, hpending⟩
  · have hadmin' : user.role = "admin" := hadmin
    simp [hadmin']
  · have howner' : order.user = user._id := howner
    simp [howner', hpending]

/-- A requester who may not modify the order is stopped by the first or the second guard. -/
theorem guards_of_not_mayModify (user : User) (order : Order) (h : ¬ mayModify user order) :
    (!(order.user == user._id) && !(user.role == "admin")) = true ∨
    ((!(order.user == user._id) && !(user.role == "admin")) = false ∧
      (!(user.role == "admin") && (order.status != "pending")) = true) := by
  have hadmin : user.role ≠ "admin" := fun hrole => h (Or.inl hrole)
  by_cases howner : order.user = user._id
  · right
    have hpending : order.status ≠ "pending" := fun hp => h (Or.inr ⟨howner, hp⟩)
    simp [howner, hadmin, hpending]
  · left
    simp [howner, hadmin]

theorem removeOrderItem_refused (db : Db) (user : User) (id : Nat) (itemIndex : String)
    (order : Order) (h : Order.findById db.orders id = some order)
    (hauth : ¬ mayModify user order) :
    (removeOrderItem db user id itemIndex).1 = db ∧
      (removeOrderItem db user id itemIndex).2 ∈ removeRefusals := by
  rcases guards_of_not_mayModify user order hauth with h1 | ⟨h1, h2⟩
  · simp [removeOrderItem, h, h1, removeRefusals]
  · simp [removeOrderItem, h, h1, h2, removeRefusals]

theorem cancelOrder_refused (db : Db) (user : User) (id : Nat)
    (order : Order) (h : Order.findById db.orders id = some order)
    (hauth : ¬ mayModify user order) :
    (cancelOrder db user id).1 = db ∧ (cancelOrder db user id).2 ∈ cancelRefusals := by
  rcases guards_of_not_mayModify user order hauth with h1 | ⟨h1, h2⟩
  · simp [cancelOrder, h, h1, cancelRefusals]
  · simp [cancelOrder, h, h1, h2, cancelRefusals]

theorem removeOrderItem_passed (db : Db) (user : User) (id : Nat) (itemIndex : String)
    (order : Order) (h : Order.findById db.orders id = some order)
    (hauth : mayModify user order) :
    (removeOrderItem db user id itemIndex).2 ∉ removeRefusals := by
  obtain ⟨h1, h2⟩ := guards_of_mayModify user order hauth
  simp only [removeOrderItem, h, h1, h2, Bool.false_eq_true, if_false]
  split
  · simp [removeRefusals]
  · split
    · simp [removeRefusals]
    · split <;> simp [removeRefusals]

theorem cancelOrder_passed (db : Db) (user : User) (id : Nat)
    (order : Order) (h : Order.findById db.orders id = some order)
    (hauth : mayModify user order) :
    (cancelOrder db user id).2 ∉ cancelRefusals := by
  obtain ⟨h1, h2⟩ := guards_of_mayModify user order hauth
  simp only [cancelOrder, h, h1, h2, Bool.false_eq_true, if_false]
  split <;> simp [cancelRefusals]

/-- C7 (authorization decision): for an existing order, `removeOrderItem` (for every index
text) and `cancelOrder` get past their two guards, that is, do not answer with one of their
two refusals, exactly when the requester is an administrator or is the owner of an order
whose status is `pending`; and when they refuse, the database is returned unchanged. -/
theorem C7_authorization_decision (db : Db) (user : User) (id : Nat) (order : Order)
    (h : Order.findById db.orders id = some order) :
    (∀ itemIndex,
      ((removeOrderItem db user id itemIndex).2 ∉ removeRefusals ↔
        (user.role = "admin" ∨ (order.user = user._id ∧ order.status = "pending"))) ∧
      ((removeOrderItem db user id itemIndex).2 ∈ removeRefusals →
        (removeOrderItem db user id itemIndex).1 = db)) ∧
    (((cancelOrder db user id).2 ∉ cancelRefusals ↔
        (user.role = "admin" ∨ (order.user = user._id ∧ order.status = "pending"))) ∧
      ((cancelOrder db user id).2 ∈ cancelRefusals → (cancelOrder db user id).1 = db)) := by
  have hremove : ∀ itemIndex, (removeOrderItem db user id itemIndex).2 ∉ removeRefusals ↔
      mayModify user order := by
    intro itemIndex
    constructor
    · intro hpass
      by_contra hauth
      exact hpass (removeOrderItem_refused db user id itemIndex order h hauth).2
    · exact removeOrderItem_passed db user id itemIndex order h
  have hcancel : (cancelOrder db user id).2 ∉ cancelRefusals ↔ mayModify user order := by
    constructor
    · intro hpass
      by_contra hauth
      exact hpass (cancelOrder_refused db user id order h hauth).2
    · exact cancelOrder_passed db user id order h
  refine ⟨fun itemIndex => ⟨hremove itemIndex, ?_⟩, hcancel, ?_⟩
  · intro href
    have hauth : ¬ mayModify user order := fun hm => (hremove itemIndex).mpr hm href
    exact (removeOrderItem_refused db user id itemIndex order h hauth).1
  · intro href
    have hauth : ¬ mayModify user order := fun hm => hcancel.mpr hm href
    exact (cancelOrder_refused db user id order h hauth).1

/-- On the confirmed sample order the owner is refused by both operations and the store is
left as it was, while the administrator gets past the guards. -/
theorem C7_authorization_decision_witness :
    Order.findById sampleStore.orders 11 = some orderConfirmed ∧
    (removeOrderItem sampleStore customer 11 "0").2 ∈ removeRefusals ∧
    (removeOrderItem sampleStore customer 11 "0").1 = sampleStore ∧
    (removeOrderItem sampleStore administrator 11 "0").2 ∉ removeRefusals ∧
    (cancelOrder sampleStore administrator 11).2 ∉ cancelRefusals :=
  ⟨rfl, by decide,
   ((C7_authorization_decision sampleStore customer 11 orderConfirmed rfl).1 "0").2 (by decide),
   ((C7_authorization_decision sampleStore administrator 11 orderConfirmed rfl).1 "0").1.mpr
     (Or.inl rfl),
   (C7_authorization_decision sampleStore administrator 11 orderConfirmed rfl).2.1.mpr
     (Or.inl rfl)⟩

/-! ## The kind of a refusal -/

/-- C8, counterexample: on the confirmed sample order the non-administrator owner is refused
by `removeOrderItem` and by `cancelOrder` with status 400, which is `ValidationError` and not
`Forbidden`. -/
theorem C8_counterexample :
    Order.findById sampleStore.orders 11 = some orderConfirmed ∧
    orderConfirmed.user = customer._id ∧ customer.role ≠ "admin" ∧
    orderConfirmed.status ≠ "pending" ∧
    removeOrderItem sampleStore customer 11 "0" =
      (sampleStore, .errorResponse (.str "Cannot modify order that is not pending") 400) ∧
    (removeOrderItem sampleStore customer 11 "0").2.kind ≠ some .Forbidden ∧
    cancelOrder sampleStore customer 11 =
      (sampleStore, .errorResponse (.str "Cannot cancel order that is not pending") 400) ∧
    (cancelOrder sampleStore customer 11).2.kind ≠ some .Forbidden := by
  refine ⟨rfl, rfl, by decide, by decide, rfl, by decide, rfl, by decide⟩

/-- C8, amended (kind of a refusal): for an existing order and a requester who is not an
administrator, `removeOrderItem` and `cancelOrder` answer 403 (`Forbidden`) when the
requester is not the owner, and 400 (`ValidationError`), with a message saying that the order
is not pending, when the requester is the owner and the status is not `pending`; the
database is unchanged in both cases. -/
theorem C8_refusal_kinds (db : Db) (user : User) (id : Nat) (order : Order)
    (h : Order.findById db.orders id = some order) (hrole : user.role ≠ "admin") :
    (order.user ≠ user._id →
      (∀ itemIndex, removeOrderItem db user id itemIndex =
          (db, .errorResponse (.str "Not authorized to modify this order") 403) ∧
        (removeOrderItem db user id itemIndex).2.kind = some .Forbidden) ∧
      cancelOrder db user id =
        (db, .errorResponse (.str "Not authorized to cancel this order") 403) ∧
      (cancelOrder db user id).2.kind = some .Forbidden) ∧
    (order.user = user._id → order.status ≠ "pending" →
      (∀ itemIndex, removeOrderItem db user id itemIndex =
          (db, .errorResponse (.str "Cannot modify order that is not pending") 400) ∧
        (removeOrderItem db user id itemIndex).2.kind = some .ValidationError) ∧
      cancelOrder db user id =
        (db, .errorResponse (.str "Cannot cancel order that is not pending") 400) ∧
      (cancelOrder db user id).2.kind = some .ValidationError) := by
  constructor
  · intro howner
    have hremove : ∀ itemIndex, removeOrderItem db user id itemIndex =
        (db, .errorResponse (.str "Not authorized to modify this order") 403) := by
      intro itemIndex
      simp [removeOrderItem, h, howner, hrole]
    have hcancel : cancelOrder db user id =
        (db, .errorResponse (.str "Not authorized to cancel this order") 403) := by
      simp [cancelOrder, h, howner, hrole]
    exact ⟨fun itemIndex => ⟨hremove itemIndex, by rw [hremove itemIndex]; rfl⟩, hcancel,
      by rw [hcancel]; rfl⟩
  · intro howner hstatus
    have hremove : ∀ itemIndex, removeOrderItem db user id itemIndex =
        (db, .errorResponse (.str "Cannot modify order that is not pending") 400) := by
      intro itemIndex
      simp [removeOrderItem, h, howner, hrole, hstatus]
    have hcancel : cancelOrder db user id =
        (db, .errorResponse (.str "Cannot cancel order that is not pending") 400) := by
      simp [cancelOrder, h, howner, hrole, hstatus]
    exact ⟨fun itemIndex => ⟨hremove itemIndex, by rw [hremove itemIndex]; rfl⟩, hcancel,
      by rw [hcancel]; rfl⟩

/-- On the confirmed sample order the owner's removal is answered 400, a stranger's 403, and
the identical call by the administrator succeeds. -/
theorem C8_refusal_kinds_witness :
    (removeOrderItem sampleStore customer 11 "0" =
        (sampleStore, .errorResponse (.str "Cannot modify order that is not pending") 400) ∧
      (removeOrderItem sampleStore customer 11 "0").2.kind = some .ValidationError) ∧
    (removeOrderItem sampleStore stranger 11 "0" =
        (sampleStore, .errorResponse (.str "Not authorized to modify this order") 403) ∧
      (removeOrderItem sampleStore stranger 11 "0").2.kind = some .Forbidden) ∧
    (removeOrderItem sampleStore administrator 11 "0").2.isSuccess = true :=
  ⟨((C8_refusal_kinds sampleStore customer 11 orderConfirmed rfl (by decide)).2 rfl
      (by decide)).1 "0",
   ((C8_refusal_kinds sampleStore stranger 11 orderConfirmed rfl (by decide)).1
      (by decide)).1 "0",
   by decide!⟩

/-! ## Removal of one line -/

/-- On a valid position `splice(index, 1)` erases exactly the element at that position. -/
theorem splice_valid {α : Type} (items : List α) (i : Nat) (hi : i < items.length) :
    splice items (some (i : Int)) 1 = items.eraseIdx i := by
  have hstart : ¬ ((i : Int) < 0) := by omega
  have hmin : (min (i : Int) (items.length : Int)).toNat = i := by omega
  have hcount : min 1 (items.length - i) = 1 := by omega
  simp only [splice, Option.getD_some, hstart, if_false, hmin, hcount]
  exact (List.eraseIdx_eq_take_drop_succ items i).symm

/-- A valid position is not out of range for the check of `removeOrderItem`. -/
theorem inRange_valid (length i : Nat) (hi : i < length) :
    (decide ((i : Int) < 0) || decide ((i : Int) ≥ (length : Int))) = false := by
  have h1 : ¬ ((i : Int) < 0) := by omega
  have h2 : ¬ ((i : Int) ≥ (length : Int)) := by omega
  simp [h1, h2]

theorem findById_replace {orders : List Order} {id : Nat} {order saved : Order}
    (h : Order.findById orders id = some order) (hid : saved._id = order._id) :
    Order.findById (Order.replace orders saved) id = some saved := by
  have hsaved : saved._id = id := hid.trans (findById_id h)
  induction orders with
  | nil => simp [Order.findById] at h
  | cons o rest ih =>
    unfold Order.replace
    by_cases ho : o._id = id
    · simp [Order.findById, ho, hsaved]
    · have hne : ¬ o._id = saved._id := by rw [hsaved]; exact ho
      have hrest : Order.findById rest id = some order := by
        simpa [Order.findById, List.find?_cons, ho] using h
      simpa [Order.findById, List.find?_cons, ho, hne] using ih hrest

theorem findById_replace_ne {orders : List Order} {id : Nat} {saved : Order}
    (hne : saved._id ≠ id) :
    Order.findById (Order.replace orders saved) id = Order.findById orders id := by
  induction orders with
  | nil => simp [Order.replace]
  | cons o rest ih =>
    unfold Order.replace
    by_cases ho : o._id = saved._id
    · have ho' : ¬ o._id = id := by rw [ho]; exact hne
      simp [Order.findById, List.find?_cons, ho, ho', hne]
    · by_cases hid : o._id = id
      · have hs : ¬ id = saved._id := fun e => hne e.symm
        simp [Order.findById, List.find?_cons, hid, hs]
      · simpa [Order.findById, List.find?_cons, ho, hid] using ih

/-- Saving a loaded order whose total is already the reduce of its lines and which passes
validation writes it unchanged. -/
theorem save_valid (db : Db) (order : Order) (hvalid : order.validate = true)
    (htotal : order.total = reduceSubtotals order.items) :
    Order.save db order = some ({ db with orders := Order.replace db.orders order }, order) := by
  simp [Order.save, hvalid, preSave_total order htotal]

/-- The order `removeOrderItem` saves after erasing a line passes validation when the loaded
order did and no subtotal is negative. -/
theorem erased_valid (order : Order) (i : Nat) (hvalid : order.validate = true)
    (hsub : ∀ item ∈ order.items, 0 ≤ item.subtotal) :
    Order.validate { order with items := order.items.eraseIdx i,
                                total := reduceSubtotals (order.items.eraseIdx i) } = true := by
  simp only [Order.validate, Bool.and_eq_true, decide_eq_true_eq] at hvalid ⊢
  obtain ⟨⟨hitems, _⟩, hstatus⟩ := hvalid
  refine ⟨⟨?_, ?_⟩, hstatus⟩
  · rw [List.all_eq_true] at hitems ⊢
    exact fun x hx => hitems x (List.mem_of_mem_eraseIdx hx)
  · rw [reduceSubtotals_eq]
    exact subtotalSum_nonneg _ (fun x hx => hsub x (List.mem_of_mem_eraseIdx hx))

/-- C9 (positional removal): for an existing order with at least two lines, a requester who
is an administrator or the owner of the pending order, and an index text that `parseInt` reads
as a valid position `i`, `removeOrderItem` saves and returns the order with exactly the line
at position `i` erased (the lines before `i` keep their positions, those after move up by
one), total the sum of the remaining subtotals, and identifier, owner, status and notes as
before; the other orders are as before. The stored order is assumed to pass the schema
validators and to have no negative subtotal, as every order built by `createOrder` does. -/
theorem C9_removeOrderItem_erases (db : Db) (user : User) (id : Nat) (order : Order)
    (itemIndex : String) (i : Nat)
    (h : Order.findById db.orders id = some order)
    (hauth : user.role = "admin" ∨ (order.user = user._id ∧ order.status = "pending"))
    (hindex : parseInt itemIndex = some (i : Int)) (hi : i < order.items.length)
    (htwo : 2 ≤ order.items.length)
    (hvalid : order.validate = true) (hsub : ∀ item ∈ order.items, 0 ≤ item.subtotal) :
    ∃ saved : Order,
      removeOrderItem db user id itemIndex =
        ({ db with orders := Order.replace db.orders saved },
          .successResponse (some saved) (some "Item removed from order") none) ∧
      Order.findById (Order.replace db.orders saved) id = some saved ∧
      (∀ other, other ≠ id →
        Order.findById (Order.replace db.orders saved) other = Order.findById db.orders other) ∧
      saved.items = order.items.eraseIdx i ∧
      saved.items.length + 1 = order.items.length ∧
      (∀ k, saved.items[k]? = if k < i then order.items[k]? else order.items[k + 1]?) ∧
      saved.total = (saved.items.map OrderItem.subtotal).sum ∧
      saved._id = order._id ∧ saved.user = order.user ∧ saved.status = order.status ∧
      saved.notes = order.notes := by
  obtain ⟨h1, h2⟩ := guards_of_mayModify user order hauth
  have hrange := inRange_valid order.items.length i hi
  have hsplice := splice_valid order.items i hi
  have hlen : (order.items.eraseIdx i).length = order.items.length - 1 :=
    List.length_eraseIdx_of_lt hi
  have hnonempty : ¬ (order.items.eraseIdx i).length = 0 := by omega
  have hsave := save_valid db
    { order with items := order.items.eraseIdx i,
                 total := reduceSubtotals (order.items.eraseIdx i) }
    (erased_valid order i hvalid hsub) rfl
  refine ⟨{ order with items := order.items.eraseIdx i,
                       total := reduceSubtotals (order.items.eraseIdx i) }, ?_, ?_, ?_, rfl, ?_,
    ?_, ?_, rfl, rfl, rfl, rfl⟩
  · simp only [removeOrderItem, h, h1, h2, Bool.false_eq_true, if_false, hindex, hrange,
      hsplice, hnonempty, hsave]
  · exact findById_replace h rfl
  · intro other hother
    apply findById_replace_ne
    show order._id ≠ other
    rw [findById_id h]
    exact fun e => hother e.symm
  · show (order.items.eraseIdx i).length + 1 = order.items.length
    omega
  · intro k
    exact List.getElem?_eraseIdx order.items i k
  · exact reduceSubtotals_eq _

/-- The owner removes line 1 of the pending two-line sample order: line A stays, the total
drops to 113, the other two orders are untouched. -/
theorem C9_removeOrderItem_erases_witness :
    (removeOrderItem sampleStore customer 10 "1").1.orders =
      [{ orderTwoLines with items := [lineA], total := 113 }, orderConfirmed, orderOneLine] ∧
    ∃ saved : Order,
      removeOrderItem sampleStore customer 10 "1" =
        ({ sampleStore with orders := Order.replace sampleStore.orders saved },
          .successResponse (some saved) (some "Item removed from order") none) ∧
      Order.findById (Order.replace sampleStore.orders saved) 10 = some saved ∧
      (∀ other, other ≠ 10 →
        Order.findById (Order.replace sampleStore.orders saved) other =
          Order.findById sampleStore.orders other) ∧
      saved.items = orderTwoLines.items.eraseIdx 1 ∧
      saved.items.length + 1 = orderTwoLines.items.length ∧
      (∀ k, saved.items[k]? =
        if k < 1 then orderTwoLines.items[k]? else orderTwoLines.items[k + 1]?) ∧
      saved.total = (saved.items.map OrderItem.subtotal).sum ∧
      saved._id = orderTwoLines._id ∧ saved.user = orderTwoLines.user ∧
      saved.status = orderTwoLines.status ∧ saved.notes = orderTwoLines.notes :=
  ⟨by decide!,
   C9_removeOrderItem_erases sampleStore customer 10 orderTwoLines "1" 1 rfl
    (Or.inr ⟨rfl, rfl⟩) (by decide) (by decide) (by decide) (by decide!) (by decide!)⟩

/-! ## Cascading delete -/

theorem findById_delete_self {orders : List Order} {id : Nat}
    (hunique : (orders.map Order._id).Nodup) :
    Order.findById (Order.findByIdAndDelete orders id) id = none := by
  induction orders with
  | nil => rfl
  | cons o rest ih =>
    rw [List.map_cons, List.nodup_cons] at hunique
    obtain ⟨hnotin, hrest⟩ := hunique
    by_cases ho : o._id = id
    · have hnone : ∀ x ∈ rest, ¬ (x._id == id) = true := by
        intro x hx hxid
        have hxid' : x._id = id := by simpa using hxid
        exact hnotin (List.mem_map.mpr ⟨x, hx, hxid'.trans ho.symm⟩)
      simpa [Order.findByIdAndDelete, Order.findById, List.eraseP_cons, ho] using
        List.find?_eq_none.mpr hnone
    · simpa [Order.findByIdAndDelete, Order.findById, List.eraseP_cons, List.find?_cons, ho]
        using ih hrest

theorem findById_delete_ne {orders : List Order} {id other : Nat} (hne : other ≠ id) :
    Order.findById (Order.findByIdAndDelete orders id) other = Order.findById orders other := by
  induction orders with
  | nil => rfl
  | cons o rest ih =>
    by_cases ho : o._id = id
    · have hne' : ¬ id = other := fun e => hne e.symm
      simp [Order.findByIdAndDelete, Order.findById, List.eraseP_cons, List.find?_cons, ho, hne']
    · by_cases hother : o._id = other
      · simp [Order.findByIdAndDelete, Order.findById, List.eraseP_cons, List.find?_cons,
          hother, hne]
      · simpa [Order.findByIdAndDelete, Order.findById, List.eraseP_cons, List.find?_cons, ho,
          hother] using ih

theorem splice_single {α : Type} (items : List α) (hone : items.length = 1) :
    splice items (some 0) 1 = [] := by
  match items, hone with
  | [a], _ => rfl

/-- C10 (cascading delete): for an existing order with exactly one line, a requester who is an
administrator or the owner of the pending order, and an index text that `parseInt` reads as
0, `removeOrderItem` answers with the deletion message and no order object and deletes the
order: in a store with unique identifiers the order can no longer be found, `getOrderById`
answers 404 (`NotFound`) to every requester, every other identifier resolves as before and
the catalog is unchanged. -/
theorem C10_cascading_delete (db : Db) (user : User) (id : Nat) (order : Order)
    (itemIndex : String)
    (h : Order.findById db.orders id = some order)
    (hauth : user.role = "admin" ∨ (order.user = user._id ∧ order.status = "pending"))
    (hone : order.items.length = 1)
    (hindex : parseInt itemIndex = some 0)
    (hunique : (db.orders.map Order._id).Nodup) :
    removeOrderItem db user id itemIndex =
      ({ db with orders := Order.findByIdAndDelete db.orders id },
        .successResponse none (some "Order deleted (no items remaining)") none) ∧
    Order.findById (removeOrderItem db user id itemIndex).1.orders id = none ∧
    (∀ requester, getOrderById (removeOrderItem db user id itemIndex).1 requester id =
        .errorResponse (.str "Order not found") 404 ∧
      (getOrderById (removeOrderItem db user id itemIndex).1 requester id).kind =
        some .NotFound) ∧
    (∀ other, other ≠ id →
      Order.findById (removeOrderItem db user id itemIndex).1.orders other =
        Order.findById db.orders other) ∧
    (removeOrderItem db user id itemIndex).1.products = db.products := by
  obtain ⟨h1, h2⟩ := guards_of_mayModify user order hauth
  have hrange : (decide ((0 : Int) < 0) || decide ((0 : Int) ≥ (order.items.length : Int))) =
      false := by
    have := inRange_valid order.items.length 0 (by omega)
    simpa using this
  have hsplice := splice_single order.items hone
  have heq : removeOrderItem db user id itemIndex =
      ({ db with orders := Order.findByIdAndDelete db.orders id },
        .successResponse none (some "Order deleted (no items remaining)") none) := by
    simp only [removeOrderItem, h, h1, h2, Bool.false_eq_true, if_false, hindex, hrange,
      hsplice, List.length_nil, if_true]
  have hgone : Order.findById (Order.findByIdAndDelete db.orders id) id = none :=
    findById_delete_self hunique
  refine ⟨heq, ?_, ?_, ?_, ?_⟩
  · rw [heq]
    exact hgone
  · intro requester
    have hget : getOrderById (removeOrderItem db user id itemIndex).1 requester id =
        .errorResponse (.str "Order not found") 404 := by
      rw [heq]
      simp only [getOrderById, hgone]
    exact ⟨hget, by rw [hget]; rfl⟩
  · intro other hother
    rw [heq]
    exact findById_delete_ne hother
  · rw [heq]

/-- The owner removes the only line of the pending one-line sample order: the order is gone
and the two other orders remain. -/
theorem C10_cascading_delete_witness :
    (removeOrderItem sampleStore customer 12 "0").1.orders = [orderTwoLines, orderConfirmed] ∧
    (removeOrderItem sampleStore customer 12 "0" =
      ({ sampleStore with orders := Order.findByIdAndDelete sampleStore.orders 12 },
        .successResponse none (some "Order deleted (no items remaining)") none) ∧
    Order.findById (removeOrderItem sampleStore customer 12 "0").1.orders 12 = none ∧
    (∀ requester, getOrderById (removeOrderItem sampleStore customer 12 "0").1 requester 12 =
        .errorResponse (.str "Order not found") 404 ∧
      (getOrderById (removeOrderItem sampleStore customer 12 "0").1 requester 12).kind =
        some .NotFound) ∧
    (∀ other, other ≠ 12 →
      Order.findById (removeOrderItem sampleStore customer 12 "0").1.orders other =
        Order.findById sampleStore.orders other) ∧
    (removeOrderItem sampleStore customer 12 "0").1.products = sampleStore.products) :=
  ⟨by decide!,
   C10_cascading_delete sampleStore customer 12 orderOneLine "0" rfl (Or.inr ⟨rfl, rfl⟩)
    (by decide) (by decide) (by decide)⟩

/-! ## Well-formed databases

The hypotheses on stored orders used above (schema validity, non-negative subtotals, distinct
identifiers) hold in every database reached from a well-formed one. -/

theorem preSave_wellFormed (order : Order) (hvalid : order.validate = true)
    (hsub : ∀ item ∈ order.items, 0 ≤ item.subtotal) : (preSave order).WellFormed := by
  refine ⟨?_, by rw [preSave_items]; exact hsub⟩
  unfold preSave
  split
  · simp only [Order.validate, Bool.and_eq_true, decide_eq_true_eq] at hvalid ⊢
    refine ⟨⟨hvalid.1.1, ?_⟩, hvalid.2⟩
    rw [reduceSubtotals_eq]
    exact subtotalSum_nonneg _ hsub
  · exact hvalid

theorem replace_ids (orders : List Order) (saved : Order) :
    (Order.replace orders saved).map Order._id = orders.map Order._id := by
  induction orders with
  | nil => rfl
  | cons o rest ih =>
    unfold Order.replace
    by_cases ho : o._id = saved._id
    · simp [ho]
    · simp [ho, ih]

theorem mem_replace_id {orders : List Order} {saved x : Order}
    (hx : x ∈ Order.replace orders saved) : x._id ∈ orders.map Order._id := by
  rw [← replace_ids orders saved]
  exact List.mem_map_of_mem _ hx

theorem splice_subset {α : Type} (items : List α) (start : Option Int) (deleteCount : Nat) :
    ∀ x ∈ splice items start deleteCount, x ∈ items := by
  intro x hx
  simp only [splice, List.mem_append] at hx
  rcases hx with hx | hx
  · exact List.mem_of_mem_take hx
  · exact List.mem_of_mem_drop hx

theorem save_wellFormed {db db' : Db} {order saved : Order}
    (h : Order.save db order = some (db', saved)) (hdb : db.WellFormed)
    (hsub : ∀ item ∈ order.items, 0 ≤ item.subtotal) : db'.WellFormed := by
  unfold Order.save at h
  split at h
  · rename_i hvalid
    simp only [Option.some.injEq, Prod.mk.injEq] at h
    obtain ⟨rfl, rfl⟩ := h
    obtain ⟨hcat, horders, hunique, hbound⟩ := hdb
    refine ⟨hcat, ?_, ?_, ?_⟩
    · intro x hx
      rcases mem_replace hx with hx | hx
      · exact hx ▸ preSave_wellFormed order hvalid hsub
      · exact horders x hx
    · show ((Order.replace db.orders (preSave order)).map Order._id).Nodup
      rw [replace_ids]
      exact hunique
    · intro x hx
      obtain ⟨y, hy, hyx⟩ := List.mem_map.mp (mem_replace_id hx)
      have := hbound y hy
      show x._id < db.nextId
      omega
  · simp at h

theorem delete_wellFormed {db : Db} (id : Nat) (hdb : db.WellFormed) :
    Db.WellFormed { db with orders := Order.findByIdAndDelete db.orders id } := by
  obtain ⟨hcat, horders, hunique, hbound⟩ := hdb
  refine ⟨hcat, fun x hx => horders x (List.mem_of_mem_eraseP hx), ?_,
    fun x hx => hbound x (List.mem_of_mem_eraseP hx)⟩
  exact List.Nodup.sublist (List.Sublist.map _ (List.eraseP_sublist _)) hunique

theorem createOrder_wellFormed (db : Db) (user : User) (items : List CartItem)
    (notes : Option String) (hdb : db.WellFormed) :
    (createOrder db user items notes).1.WellFormed := by
  rcases createOrder_cases db user items notes with ⟨_, heq⟩ | ⟨_, _, _, heq⟩ |
    ⟨_, _, _, _, _, heq⟩ | ⟨orderItems, total, db', order, _, hloop, hcreate, heq⟩
  · rw [heq]; exact hdb
  · rw [heq]; exact hdb
  · rw [heq]; exact hdb
  · rw [heq]
    obtain ⟨hcat, horders, hunique, hbound⟩ := hdb
    obtain ⟨_, hlines⟩ := createOrderLoop_result db.products items orderItems total hloop
    unfold Order.create at hcreate
    simp only at hcreate
    split at hcreate
    · rename_i hvalid
      simp only [Option.some.injEq, Prod.mk.injEq] at hcreate
      obtain ⟨rfl, rfl⟩ := hcreate
      have hitems : ∀ line ∈ orderItems, line.validate = true := by
        have hv := hvalid
        simp only [Order.validate, Bool.and_eq_true, List.all_eq_true] at hv
        exact hv.1.1
      have hsub : ∀ line ∈ orderItems, 0 ≤ line.subtotal := by
        intro line hline
        obtain ⟨k, hk, hget⟩ := List.getElem_of_mem hline
        have hk' : k < items.length := by
          rw [List.Forall₂.length_eq hlines]; exact hk
        obtain ⟨product, hfind, hsnap⟩ := List.Forall₂.get hlines hk' hk
        have hline' : line = snapshotLine product (items.get ⟨k, hk'⟩).quantity := by
          rw [← hget]; exact hsnap
        have hprice : 0 ≤ product.price := by
          have hp := hcat product (productFindById_mem hfind)
          simp only [Product.validate, Bool.and_eq_true, decide_eq_true_eq] at hp
          exact hp.2
        have hq : 1 ≤ line.quantity := by
          have hl := hitems line hline
          simp only [OrderItem.validate, Bool.and_eq_true, decide_eq_true_eq] at hl
          exact hl.2
        rw [hline'] at hq ⊢
        exact mul_nonneg hprice (le_trans zero_le_one hq)
      refine ⟨hcat, ?_, ?_, ?_⟩
      · intro x hx
        simp only [List.mem_append, List.mem_singleton] at hx
        rcases hx with hx | hx
        · exact horders x hx
        · exact hx ▸ preSave_wellFormed _ hvalid hsub
      · show ((db.orders ++ [preSave _]).map Order._id).Nodup
        rw [List.map_append, List.map_singleton, preSave_id]
        refine List.Nodup.append hunique (List.nodup_singleton _) ?_
        intro a ha hb
        rw [List.mem_singleton] at hb
        obtain ⟨y, hy, hya⟩ := List.mem_map.mp ha
        have := hbound y hy
        simp only at hb
        omega
      · intro x hx
        simp only [List.mem_append, List.mem_singleton] at hx
        show x._id < db.nextId + 1
        rcases hx with hx | hx
        · have := hbound x hx
          omega
        · rw [hx, preSave_id]
          simp
    · simp at hcreate

theorem removeOrderItem_wellFormed (db : Db) (user : User) (id : Nat) (itemIndex : String)
    (hdb : db.WellFormed) : (removeOrderItem db user id itemIndex).1.WellFormed := by
  unfold removeOrderItem
  split
  · exact hdb
  · rename_i order hfind
    simp only
    split
    · exact hdb
    · split
      · exact hdb
      · split
        · exact hdb
        · split
          · exact delete_wellFormed id hdb
          · split
            · exact hdb
            · rename_i db' saved hsave
              refine save_wellFormed hsave hdb ?_
              intro item hitem
              exact (hdb.2.1 order (findById_mem hfind)).2 item (splice_subset _ _ _ item hitem)

theorem cancelOrder_wellFormed (db : Db) (user : User) (id : Nat) (hdb : db.WellFormed) :
    (cancelOrder db user id).1.WellFormed := by
  unfold cancelOrder
  split
  · exact hdb
  · rename_i order hfind
    simp only
    split
    · exact hdb
    · split
      · exact hdb
      · split
        · exact hdb
        · rename_i db' saved hsave
          exact save_wellFormed hsave hdb (hdb.2.1 order (findById_mem hfind)).2

theorem updateOrderStatus_wellFormed (db : Db) (id : Nat) (status : Option String)
    (hdb : db.WellFormed) : (updateOrderStatus db id status).1.WellFormed := by
  unfold updateOrderStatus
  simp only
  split
  · exact hdb
  · split
    · exact hdb
    · rename_i order hfind
      split
      · exact hdb
      · rename_i db' saved hsave
        exact save_wellFormed hsave hdb (hdb.2.1 order (findById_mem hfind)).2

theorem deleteOrder_wellFormed (db : Db) (id : Nat) (hdb : db.WellFormed) :
    (deleteOrder db id).1.WellFormed := by
  unfold deleteOrder
  split
  · exact hdb
  · exact delete_wellFormed id hdb

theorem behindAdminOnly_wellFormed (db : Db) (user : User) (handler : Db × Outcome)
    (hdb : db.WellFormed) (hh : handler.1.WellFormed) :
    (behindAdminOnly db user handler).1.WellFormed := by
  unfold behindAdminOnly
  split
  · exact hdb
  · exact hh

theorem step_wellFormed (db : Db) (request : Request) (hdb : db.WellFormed) :
    (step db request).1.WellFormed := by
  cases request with
  | createOrder user items notes =>
    simp only [step]
    split
    · exact createOrder_wellFormed db user items notes hdb
    · exact hdb
  | getOrderById user id => exact hdb
  | removeOrderItem user id itemIndex => exact removeOrderItem_wellFormed db user id itemIndex hdb
  | cancelOrder user id => exact cancelOrder_wellFormed db user id hdb
  | adminUpdateOrderStatus user id status =>
    exact behindAdminOnly_wellFormed db user _ hdb (updateOrderStatus_wellFormed db id status hdb)
  | adminDeleteOrder user id =>
    exact behindAdminOnly_wellFormed db user _ hdb (deleteOrder_wellFormed db id hdb)
  | adminRemoveOrderItem user id itemIndex =>
    exact behindAdminOnly_wellFormed db user _ hdb
      (removeOrderItem_wellFormed db user id itemIndex hdb)

/-- Every database reached from a well-formed one is well formed. -/
theorem run_wellFormed (db : Db) (requests : List Request) (hdb : db.WellFormed) :
    (run db requests).WellFormed := by
  induction requests generalizing db with
  | nil => exact hdb
  | cons request rest ih => exact ih _ (step_wellFormed db request hdb)

/-- A store with a schema-valid catalog and no order is well formed. -/
theorem emptyStore_wellFormed : emptyStore.WellFormed :=
  ⟨emptyStore_catalog_valid, by simp [emptyStore], by simp [emptyStore], by simp [emptyStore]⟩

/-- In a well-formed database an order found by identifier meets the hypotheses of the
removal theorems: it passes the validators, has no negative subtotal, and identifiers are
distinct. -/
theorem wellFormed_found (db : Db) (id : Nat) (order : Order) (hdb : db.WellFormed)
    (h : Order.findById db.orders id = some order) :
    order.validate = true ∧ (∀ item ∈ order.items, 0 ≤ item.subtotal) ∧
      (db.orders.map Order._id).Nodup :=
  ⟨(hdb.2.1 order (findById_mem h)).1, (hdb.2.1 order (findById_mem h)).2, hdb.2.2.1⟩

/-! ## No order without lines -/

theorem save_noEmptyOrder {db db' : Db} {order saved : Order}
    (h : Order.save db order = some (db', saved)) (hdb : db.NoEmptyOrder)
    (ho : order.items ≠ []) : db'.NoEmptyOrder := by
  unfold Order.save at h
  split at h
  · simp only [Option.some.injEq, Prod.mk.injEq] at h
    obtain ⟨rfl, rfl⟩ := h
    intro x hx
    rcases mem_replace hx with hx | hx
    · rw [hx, preSave_items]
      exact ho
    · exact hdb x hx
  · simp at h

theorem delete_noEmptyOrder {db : Db} (id : Nat) (hdb : db.NoEmptyOrder) :
    Db.NoEmptyOrder { db with orders := Order.findByIdAndDelete db.orders id } :=
  fun x hx => hdb x (List.mem_of_mem_eraseP hx)

theorem createOrder_noEmptyOrder (db : Db) (user : User) (items : List CartItem)
    (notes : Option String) (hdb : db.NoEmptyOrder) :
    (createOrder db user items notes).1.NoEmptyOrder := by
  rcases createOrder_cases db user items notes with ⟨_, heq⟩ | ⟨_, _, _, heq⟩ |
    ⟨_, _, _, _, _, heq⟩ | ⟨orderItems, total, db', order, hne, hloop, hcreate, heq⟩
  · rw [heq]; exact hdb
  · rw [heq]; exact hdb
  · rw [heq]; exact hdb
  · rw [heq]
    obtain ⟨_, hlines⟩ := createOrderLoop_result db.products items orderItems total hloop
    have hlen : items.length = orderItems.length := List.Forall₂.length_eq hlines
    have hitems : orderItems ≠ [] := by
      intro hnil
      rw [hnil] at hlen
      exact hne (List.length_eq_zero.mp hlen)
    unfold Order.create at hcreate
    simp only at hcreate
    split at hcreate
    · simp only [Option.some.injEq, Prod.mk.injEq] at hcreate
      obtain ⟨rfl, rfl⟩ := hcreate
      intro x hx
      simp only [List.mem_append, List.mem_singleton] at hx
      rcases hx with hx | hx
      · exact hdb x hx
      · rw [hx, preSave_items]
        exact hitems
    · simp at hcreate

theorem removeOrderItem_noEmptyOrder (db : Db) (user : User) (id : Nat) (itemIndex : String)
    (hdb : db.NoEmptyOrder) : (removeOrderItem db user id itemIndex).1.NoEmptyOrder := by
  unfold removeOrderItem
  split
  · exact hdb
  · simp only
    split
    · exact hdb
    · split
      · exact hdb
      · split
        · exact hdb
        · split
          · exact delete_noEmptyOrder id hdb
          · rename_i hlen
            split
            · exact hdb
            · rename_i db' saved hsave
              exact save_noEmptyOrder hsave hdb (fun hnil => hlen (by
                have hnil' : splice _ (parseInt itemIndex) 1 = [] := hnil
                rw [hnil']; rfl))

theorem cancelOrder_noEmptyOrder (db : Db) (user : User) (id : Nat) (hdb : db.NoEmptyOrder) :
    (cancelOrder db user id).1.NoEmptyOrder := by
  unfold cancelOrder
  split
  · exact hdb
  · rename_i order hfind
    simp only
    split
    · exact hdb
    · split
      · exact hdb
      · split
        · exact hdb
        · rename_i db' saved hsave
          exact save_noEmptyOrder hsave hdb (hdb order (findById_mem hfind))

theorem updateOrderStatus_noEmptyOrder (db : Db) (id : Nat) (status : Option String)
    (hdb : db.NoEmptyOrder) : (updateOrderStatus db id status).1.NoEmptyOrder := by
  unfold updateOrderStatus
  simp only
  split
  · exact hdb
  · split
    · exact hdb
    · rename_i order hfind
      split
      · exact hdb
      · rename_i db' saved hsave
        exact save_noEmptyOrder hsave hdb (hdb order (findById_mem hfind))

theorem deleteOrder_noEmptyOrder (db : Db) (id : Nat) (hdb : db.NoEmptyOrder) :
    (deleteOrder db id).1.NoEmptyOrder := by
  unfold deleteOrder
  split
  · exact hdb
  · exact delete_noEmptyOrder id hdb

theorem call_noEmptyOrder (db : Db) (c : Call) (hdb : db.NoEmptyOrder) :
    (call db c).1.NoEmptyOrder := by
  cases c with
  | createOrder user items notes => exact createOrder_noEmptyOrder db user items notes hdb
  | removeOrderItem user id itemIndex =>
    exact removeOrderItem_noEmptyOrder db user id itemIndex hdb
  | cancelOrder user id => exact cancelOrder_noEmptyOrder db user id hdb
  | updateOrderStatus id status => exact updateOrderStatus_noEmptyOrder db id status hdb
  | deleteOrder id => exact deleteOrder_noEmptyOrder db id hdb

theorem behindAdminOnly_cases (db : Db) (user : User) (handler : Db × Outcome) :
    (behindAdminOnly db user handler).1 = db ∨ behindAdminOnly db user handler = handler := by
  unfold behindAdminOnly
  split
  · exact Or.inl rfl
  · exact Or.inr rfl

theorem step_noEmptyOrder (db : Db) (request : Request) (hdb : db.NoEmptyOrder) :
    (step db request).1.NoEmptyOrder := by
  cases request with
  | createOrder user items notes =>
    simp only [step]
    split
    · exact createOrder_noEmptyOrder db user items notes hdb
    · exact hdb
  | getOrderById user id => exact hdb
  | removeOrderItem user id itemIndex =>
    exact removeOrderItem_noEmptyOrder db user id itemIndex hdb
  | cancelOrder user id => exact cancelOrder_noEmptyOrder db user id hdb
  | adminUpdateOrderStatus user id status =>
    rcases behindAdminOnly_cases db user (updateOrderStatus db id status) with h | h
    · simp only [step, adminUpdateOrderStatus, h]; exact hdb
    · simp only [step, adminUpdateOrderStatus, h]
      exact updateOrderStatus_noEmptyOrder db id status hdb
  | adminDeleteOrder user id =>
    rcases behindAdminOnly_cases db user (deleteOrder db id) with h | h
    · simp only [step, adminDeleteOrder, h]; exact hdb
    · simp only [step, adminDeleteOrder, h]
      exact deleteOrder_noEmptyOrder db id hdb
  | adminRemoveOrderItem user id itemIndex =>
    rcases behindAdminOnly_cases db user (removeOrderItem db user id itemIndex) with h | h
    · simp only [step, adminRemoveOrderItem, h]; exact hdb
    · simp only [step, adminRemoveOrderItem, h]
      exact removeOrderItem_noEmptyOrder db user id itemIndex hdb

/-- C11 (no empty order): from a store in which every order has at least one line, every
sequence of direct calls of `createOrder`, `removeOrderItem`, `cancelOrder`,
`updateOrderStatus` and `deleteOrder` with arbitrary arguments, successful or not, and every
sequence of requests to the order routes, leads to a store in which every order has at least
one line. -/
theorem C11_no_empty_order (db : Db) (hdb : ∀ order ∈ db.orders, 1 ≤ order.items.length) :
    (∀ cs : List Call, ∀ order ∈ (calls db cs).orders, 1 ≤ order.items.length) ∧
    (∀ requests : List Request, ∀ order ∈ (run db requests).orders,
      1 ≤ order.items.length) := by
  have hinv : db.NoEmptyOrder := by
    intro order horder hnil
    have := hdb order horder
    rw [hnil] at this
    simp at this
  have hcalls : ∀ (cs : List Call) (d : Db), d.NoEmptyOrder → (calls d cs).NoEmptyOrder := by
    intro cs
    induction cs with
    | nil => exact fun d hd => hd
    | cons c rest ih => exact fun d hd => ih _ (call_noEmptyOrder d c hd)
  have hrun : ∀ (requests : List Request) (d : Db), d.NoEmptyOrder →
      (run d requests).NoEmptyOrder := by
    intro requests
    induction requests with
    | nil => exact fun d hd => hd
    | cons request rest ih => exact fun d hd => ih _ (step_noEmptyOrder d request hd)
  constructor
  · intro cs order horder
    exact List.length_pos.mpr (hcalls cs db hinv order horder)
  · intro requests order horder
    exact List.length_pos.mpr (hrun requests db hinv order horder)

/-- In the sample store every order has a line; after the sample calls, which empty order 12,
the stored orders are 11 and the new order 13, each with lines. -/
theorem C11_no_empty_order_witness :
    ((calls sampleStore sampleCalls).orders.map Order._id = [11, 13]) ∧
    (∀ order ∈ (calls sampleStore sampleCalls).orders, 1 ≤ order.items.length) :=
  ⟨by decide!, (C11_no_empty_order sampleStore (by decide)).1 sampleCalls⟩

/-! ## The index check -/

/-- An authorized removal with an index that `parseInt` reads as an integer outside the
positions of the lines is answered 400 `Invalid item index` and writes nothing. -/
theorem removeOrderItem_out_of_range (db : Db) (user : User) (id : Nat) (order : Order)
    (itemIndex : String) (i : Int)
    (h : Order.findById db.orders id = some order) (hauth : mayModify user order)
    (hindex : parseInt itemIndex = some i)
    (hout : i < 0 ∨ i ≥ (order.items.length : Int)) :
    removeOrderItem db user id itemIndex =
      (db, .errorResponse (.str "Invalid item index") 400) := by
  obtain ⟨h1, h2⟩ := guards_of_mayModify user order hauth
  have hrange : (decide (i < 0) || decide (i ≥ (order.items.length : Int))) = true := by
    rcases hout with hlt | hge
    · simp [hlt]
    · simp [hge]
  simp only [removeOrderItem, h, h1, h2, Bool.false_eq_true, if_false, hindex, hrange, if_true]

/-- An authorized removal with an index that `parseInt` reads as a position of a line gets
past the index check: it ends in a success response or in an exception, never in an error
response. -/
theorem removeOrderItem_in_range (db : Db) (user : User) (id : Nat) (order : Order)
    (itemIndex : String) (i : Int)
    (h : Order.findById db.orders id = some order) (hauth : mayModify user order)
    (hindex : parseInt itemIndex = some i)
    (hin : ¬ (i < 0 ∨ i ≥ (order.items.length : Int))) :
    (removeOrderItem db user id itemIndex).2.kind = none := by
  obtain ⟨h1, h2⟩ := guards_of_mayModify user order hauth
  have hrange : (decide (i < 0) || decide (i ≥ (order.items.length : Int))) = false := by
    have hlt : ¬ i < 0 := fun hlt => hin (Or.inl hlt)
    have hge : ¬ i ≥ (order.items.length : Int) := fun hge => hin (Or.inr hge)
    simp [hlt, hge]
  simp only [removeOrderItem, h, h1, h2, Bool.false_eq_true, if_false, hindex, hrange]
  split
  · rfl
  · split <;> rfl

/-- C12 (index out of range): for an existing order, a requester who is an administrator or
the owner of the pending order, and an index text that `parseInt` reads as the integer `i`,
`removeOrderItem` answers with the index-out-of-range error (400 `Invalid item index`)
exactly when `i < 0` or `i` is at least the number of lines; on that answer the database, and
with it the stored order, is unchanged. -/
theorem C12_index_out_of_range (db : Db) (user : User) (id : Nat) (order : Order)
    (itemIndex : String) (i : Int)
    (h : Order.findById db.orders id = some order)
    (hauth : user.role = "admin" ∨ (order.user = user._id ∧ order.status = "pending"))
    (hindex : parseInt itemIndex = some i) :
    ((removeOrderItem db user id itemIndex).2.kind = some .IndexOutOfRange ↔
      (i < 0 ∨ i ≥ (order.items.length : Int))) ∧
    ((i < 0 ∨ i ≥ (order.items.length : Int)) →
      removeOrderItem db user id itemIndex =
          (db, .errorResponse (.str "Invalid item index") 400) ∧
        Order.findById (removeOrderItem db user id itemIndex).1.orders id = some order) := by
  have hout : (i < 0 ∨ i ≥ (order.items.length : Int)) →
      removeOrderItem db user id itemIndex =
        (db, .errorResponse (.str "Invalid item index") 400) :=
    removeOrderItem_out_of_range db user id order itemIndex i h hauth hindex
  refine ⟨⟨?_, ?_⟩, ?_⟩
  · intro hkind
    by_contra hin
    rw [removeOrderItem_in_range db user id order itemIndex i h hauth hindex hin] at hkind
    cases hkind
  · intro hrange
    rw [hout hrange]
    rfl
  · intro hrange
    refine ⟨hout hrange, ?_⟩
    rw [hout hrange]
    exact h

/-- On the two-line pending sample order the owner's indices 2 and -1 are refused and the
order is still stored as it was, while index 1 is not refused. -/
theorem C12_index_out_of_range_witness :
    (removeOrderItem sampleStore customer 10 "2" =
        (sampleStore, .errorResponse (.str "Invalid item index") 400) ∧
      Order.findById (removeOrderItem sampleStore customer 10 "2").1.orders 10 =
        some orderTwoLines) ∧
    (removeOrderItem sampleStore customer 10 "-1").2.kind = some .IndexOutOfRange ∧
    (removeOrderItem sampleStore customer 10 "1").2.kind ≠ some .IndexOutOfRange :=
  ⟨(C12_index_out_of_range sampleStore customer 10 orderTwoLines "2" 2 rfl
      (Or.inr ⟨rfl, rfl⟩) (by decide)).2 (Or.inr (by decide)),
   (C12_index_out_of_range sampleStore customer 10 orderTwoLines "-1" (-1) rfl
      (Or.inr ⟨rfl, rfl⟩) (by decide)).1.mpr (Or.inl (by decide)),
   fun hkind => absurd
     ((C12_index_out_of_range sampleStore customer 10 orderTwoLines "1" 1 rfl
        (Or.inr ⟨rfl, rfl⟩) (by decide)).1.mp hkind) (by decide)⟩

/-! ## Index texts that are not positions -/

/-- C13, counterexample: on the two-line pending sample order the owner's index text `1abc`,
which `parseInt` reads as 1, is not rejected and removes line 1; the text `abc`, for which
`parseInt` gives `NaN`, is not rejected either and removes line 0. -/
theorem C13_counterexample :
    parseInt "1abc" = some 1 ∧
    removeOrderItem sampleStore customer 10 "1abc" =
      ({ sampleStore with
          orders := [{ orderTwoLines with items := [lineA], total := 113 }, orderConfirmed,
                     orderOneLine] },
        .successResponse (some { orderTwoLines with items := [lineA], total := 113 })
          (some "Item removed from order") none) ∧
    parseInt "abc" = none ∧
    removeOrderItem sampleStore customer 10 "abc" =
      ({ sampleStore with
          orders := [{ orderTwoLines with items := [lineB], total := 5995 / 100 },
                     orderConfirmed, orderOneLine] },
        .successResponse (some { orderTwoLines with items := [lineB], total := 5995 / 100 })
          (some "Item removed from order") none) := by
  refine ⟨by decide, by decide!, by decide, by decide!⟩

/-- C13, amended (the index text is read by `parseInt`): for an existing order and a
requester who is an administrator or the owner of the pending order, `removeOrderItem`
depends on the index text only through its `parseInt` value, so that `1abc`, ` 1`, `+1` and
`1.9` act as `1`; and when that value is an integer outside the positions of the lines the
request is answered 400 `Invalid item index` (`IndexOutOfRange`) and the database is
unchanged. -/
theorem C13_index_text_is_parsed (db : Db) (user : User) (id : Nat) (order : Order)
    (h : Order.findById db.orders id = some order)
    (hauth : user.role = "admin" ∨ (order.user = user._id ∧ order.status = "pending")) :
    (∀ itemIndex other : String, parseInt itemIndex = parseInt other →
      removeOrderItem db user id itemIndex = removeOrderItem db user id other) ∧
    (parseInt "1abc" = parseInt "1" ∧ parseInt " 1" = parseInt "1" ∧
      parseInt "+1" = parseInt "1" ∧ parseInt "1.9" = parseInt "1") ∧
    (∀ (itemIndex : String) (i : Int), parseInt itemIndex = some i →
      (i < 0 ∨ i ≥ (order.items.length : Int)) →
      (removeOrderItem db user id itemIndex).1 = db ∧
        (removeOrderItem db user id itemIndex).2.kind = some .IndexOutOfRange ∧
        Order.findById (removeOrderItem db user id itemIndex).1.orders id = some order) := by
  refine ⟨?_, ⟨by decide, by decide, by decide, by decide⟩, ?_⟩
  · intro itemIndex other hparse
    simp only [removeOrderItem, hparse]
  · intro itemIndex i hindex hout
    have heq := removeOrderItem_out_of_range db user id order itemIndex i h hauth hindex hout
    rw [heq]
    exact ⟨rfl, rfl, h⟩

/-- On the two-line pending sample order the owner's index text `1abc` does what `1` does,
and `7abc`, read as 7, is rejected and leaves the order as it was. -/
theorem C13_index_text_is_parsed_witness :
    removeOrderItem sampleStore customer 10 "1abc" =
      removeOrderItem sampleStore customer 10 "1" ∧
    ((removeOrderItem sampleStore customer 10 "7abc").1 = sampleStore ∧
      (removeOrderItem sampleStore customer 10 "7abc").2.kind = some .IndexOutOfRange ∧
      Order.findById (removeOrderItem sampleStore customer 10 "7abc").1.orders 10 =
        some orderTwoLines) :=
  ⟨(C13_index_text_is_parsed sampleStore customer 10 orderTwoLines rfl
      (Or.inr ⟨rfl, rfl⟩)).1 "1abc" "1" (by decide),
   (C13_index_text_is_parsed sampleStore customer 10 orderTwoLines rfl
      (Or.inr ⟨rfl, rfl⟩)).2.2 "7abc" 7 (by decide) (Or.inr (by decide))⟩

/-! ## Cancellation and status change -/

/-- The part of the validators of `orderSchema` that does not look at the status: every item
is valid and the total is not negative. -/
theorem validate_parts (order : Order) (hvalid : order.validate = true) :
    order.items.all OrderItem.validate = true ∧ 0 ≤ order.total := by
  simp only [Order.validate, Bool.and_eq_true, decide_eq_true_eq] at hvalid
  exact hvalid.1

theorem validate_with_status (order : Order) (status : String)
    (hitems : order.items.all OrderItem.validate = true) (hnonneg : 0 ≤ order.total)
    (hstatus : status ∈ statusEnum) :
    Order.validate { order with status := status } = true := by
  simp only [Order.validate, Bool.and_eq_true, decide_eq_true_eq]
  exact ⟨⟨hitems, hnonneg⟩, List.elem_iff.mpr hstatus⟩

theorem replace_self {orders : List Order} {order : Order}
    (h : Order.findById orders order._id = some order) : Order.replace orders order = orders := by
  induction orders with
  | nil => rfl
  | cons o rest ih =>
    unfold Order.replace
    by_cases ho : o._id = order._id
    · have hfound : Order.findById (o :: rest) order._id = some o := by
        simp [Order.findById, List.find?_cons, ho]
      have heq : o = order := Option.some.inj (hfound.symm.trans h)
      simp [heq]
    · have hrest : Order.findById rest order._id = some order := by
        simpa [Order.findById, List.find?_cons, ho] using h
      simp [ho, ih hrest]

/-- Saving a loaded order with only its status changed, to a status of the enumeration:
the order is written with that status and nothing else changed, provided the loaded order
passes validation and its total is the sum of its subtotals. -/
theorem save_with_status (db : Db) (order : Order) (status : String)
    (hitems : order.items.all OrderItem.validate = true) (hnonneg : 0 ≤ order.total)
    (htotal : order.total = subtotalSum order.items) (hstatus : status ∈ statusEnum) :
    Order.save db { order with status := status } =
      some ({ db with orders := Order.replace db.orders { order with status := status } },
        { order with status := status }) :=
  save_valid db { order with status := status }
    (validate_with_status order status hitems hnonneg hstatus)
    (by rw [reduceSubtotals_eq]; exact htotal)

theorem cancelOrder_authorized (db : Db) (user : User) (id : Nat) (order : Order)
    (h : Order.findById db.orders id = some order) (hauth : mayModify user order)
    (hvalid : order.validate = true) (htotal : order.total = subtotalSum order.items) :
    cancelOrder db user id =
      ({ db with orders := Order.replace db.orders { order with status := "cancelled" } },
        .successResponse (some { order with status := "cancelled" }) (some "Order cancelled")
          none) := by
  obtain ⟨h1, h2⟩ := guards_of_mayModify user order hauth
  have hsave := save_with_status db order "cancelled" (validate_parts order hvalid).1
    (validate_parts order hvalid).2 htotal (by decide)
  simp only [cancelOrder, h, h1, h2, Bool.false_eq_true, if_false, hsave]

/-- C14 (cancellation): for an existing order that passes the schema validators and whose
total is the sum of its subtotals, and a requester who is an administrator or the owner of
the pending order, `cancelOrder` succeeds, stores and returns the order with status
`cancelled` and with identifier, lines, total, owner and notes as before, and leaves the
other orders as they were; an administrator who cancels again gets the same answer and the
same database, and cancelling an order that is already cancelled leaves the database
unchanged. -/
theorem C14_cancel_frame (db : Db) (user : User) (id : Nat) (order : Order)
    (h : Order.findById db.orders id = some order)
    (hauth : user.role = "admin" ∨ (order.user = user._id ∧ order.status = "pending"))
    (hvalid : order.validate = true)
    (htotal : order.total = (order.items.map OrderItem.subtotal).sum) :
    (∃ saved : Order,
      cancelOrder db user id =
        ({ db with orders := Order.replace db.orders saved },
          .successResponse (some saved) (some "Order cancelled") none) ∧
      Order.findById (cancelOrder db user id).1.orders id = some saved ∧
      saved.status = "cancelled" ∧ saved.items = order.items ∧ saved.total = order.total ∧
      saved.user = order.user ∧ saved.notes = order.notes ∧ saved._id = order._id) ∧
    (∀ other, other ≠ id →
      Order.findById (cancelOrder db user id).1.orders other =
        Order.findById db.orders other) ∧
    (user.role = "admin" →
      cancelOrder (cancelOrder db user id).1 user id =
        ((cancelOrder db user id).1, (cancelOrder db user id).2)) ∧
    (user.role = "admin" → order.status = "cancelled" →
      cancelOrder db user id =
        (db, .successResponse (some order) (some "Order cancelled") none)) := by
  have heq := cancelOrder_authorized db user id order h hauth hvalid htotal
  have hfound : Order.findById
      (Order.replace db.orders { order with status := "cancelled" }) id =
      some { order with status := "cancelled" } := findById_replace h rfl
  refine ⟨⟨{ order with status := "cancelled" }, heq, ?_, rfl, rfl, rfl, rfl, rfl, rfl⟩,
    ?_, ?_, ?_⟩
  · rw [heq]
    exact hfound
  · intro other hother
    rw [heq]
    apply findById_replace_ne
    show order._id ≠ other
    rw [findById_id h]
    exact fun e => hother e.symm
  · intro hadmin
    rw [heq]
    have hagain := cancelOrder_authorized
      { db with orders := Order.replace db.orders { order with status := "cancelled" } }
      user id { order with status := "cancelled" } hfound (Or.inl hadmin)
      (validate_with_status order "cancelled" (validate_parts order hvalid).1
        (validate_parts order hvalid).2 (by decide)) htotal
    rw [hagain]
    have hself : Order.replace
        (Order.replace db.orders { order with status := "cancelled" })
        { order with status := "cancelled" } =
        Order.replace db.orders { order with status := "cancelled" } := by
      apply replace_self
      show Order.findById _ order._id = _
      simpa only [findById_id h] using hfound
    simp only [hself]
  · intro _ hcancelled
    rw [heq]
    have hsame : ({ order with status := "cancelled" } : Order) = order := by
      cases order
      simp only at hcancelled
      simp [hcancelled]
    rw [hsame]
    have hself : Order.replace db.orders order = db.orders := by
      apply replace_self
      rw [findById_id h]
      exact h
    rw [hself]

/-- The owner cancels the pending one-line sample order: only its status changes, the other
orders resolve as before; and the administrator's second cancellation of order 11 repeats the
first. -/
theorem C14_cancel_frame_witness :
    (cancelOrder sampleStore customer 12).1.orders =
      [orderTwoLines, orderConfirmed, { orderOneLine with status := "cancelled" }] ∧
    (∀ other, other ≠ 12 →
      Order.findById (cancelOrder sampleStore customer 12).1.orders other =
        Order.findById sampleStore.orders other) ∧
    cancelOrder (cancelOrder sampleStore administrator 11).1 administrator 11 =
      ((cancelOrder sampleStore administrator 11).1,
        (cancelOrder sampleStore administrator 11).2) :=
  ⟨by decide!,
   (C14_cancel_frame sampleStore customer 12 orderOneLine rfl (Or.inr ⟨rfl, rfl⟩)
      (by decide!) (by decide!)).2.1,
   (C14_cancel_frame sampleStore administrator 11 orderConfirmed rfl (Or.inl rfl)
      (by decide!) (by decide!)).2.2.1 rfl⟩

theorem updateOrderStatus_valid (db : Db) (id : Nat) (order : Order) (status : String)
    (h : Order.findById db.orders id = some order) (hstatus : status ∈ statusEnum)
    (hitems : order.items.all OrderItem.validate = true) (hnonneg : 0 ≤ order.total)
    (htotal : order.total = subtotalSum order.items) :
    updateOrderStatus db id (some status) =
      ({ db with orders := Order.replace db.orders { order with status := status } },
        .successResponse (some { order with status := status })
          (some ("Order status updated to " ++ status)) none) := by
  have hcontains : validStatuses.contains status = true := List.elem_iff.mpr hstatus
  have hsave := save_with_status db order status hitems hnonneg htotal hstatus
  simp only [updateOrderStatus, hcontains, Bool.not_true, Bool.false_eq_true, if_false, h,
    Option.getD_some, hsave]

theorem adminRoute_of_admin (db : Db) (user : User) (handler : Db × Outcome)
    (hadmin : user.role = "admin") : behindAdminOnly db user handler = handler := by
  simp [behindAdminOnly, adminOnly, authorize, hadmin]

/-- C15 (flat transition graph): for an existing order, whatever its current status, whose
items pass the item validators and whose total is not negative and equal to the sum of its
subtotals, and for each of the six statuses, `updateOrderStatus` succeeds, stores and returns
the order with the new status and with identifier, lines, total, owner and notes as before,
and leaves the other orders as they were; on the admin route an administrator gets the same
result. -/
theorem C15_flat_transitions (db : Db) (user : User) (id : Nat) (order : Order)
    (status : String)
    (h : Order.findById db.orders id = some order)
    (hstatus : status ∈
      ["pending", "confirmed", "processing", "shipped", "delivered", "cancelled"])
    (hitems : order.items.all OrderItem.validate = true) (hnonneg : 0 ≤ order.total)
    (htotal : order.total = (order.items.map OrderItem.subtotal).sum) :
    ∃ saved : Order,
      updateOrderStatus db id (some status) =
        ({ db with orders := Order.replace db.orders saved },
          .successResponse (some saved) (some ("Order status updated to " ++ status)) none) ∧
      (user.role = "admin" →
        adminUpdateOrderStatus db user id (some status) = updateOrderStatus db id (some status)) ∧
      Order.findById (updateOrderStatus db id (some status)).1.orders id = some saved ∧
      saved.status = status ∧ saved.items = order.items ∧ saved.total = order.total ∧
      saved.user = order.user ∧ saved.notes = order.notes ∧ saved._id = order._id ∧
      (∀ other, other ≠ id →
        Order.findById (updateOrderStatus db id (some status)).1.orders other =
          Order.findById db.orders other) := by
  have heq := updateOrderStatus_valid db id order status h hstatus hitems hnonneg htotal
  refine ⟨{ order with status := status }, heq, ?_, ?_, rfl, rfl, rfl, rfl, rfl, rfl, ?_⟩
  · intro hadmin
    exact adminRoute_of_admin db user _ hadmin
  · rw [heq]
    exact findById_replace h rfl
  · intro other hother
    rw [heq]
    apply findById_replace_ne
    show order._id ≠ other
    rw [findById_id h]
    exact fun e => hother e.symm

/-- The administrator moves the pending two-line sample order to `shipped` directly, to
`delivered` directly, and to `pending`, the status it has. -/
theorem C15_flat_transitions_witness :
    (adminUpdateOrderStatus sampleStore administrator 10 (some "shipped")).1.orders =
      [{ orderTwoLines with status := "shipped" }, orderConfirmed, orderOneLine] ∧
    (adminUpdateOrderStatus sampleStore administrator 10 (some "delivered")).2 =
      .successResponse (some { orderTwoLines with status := "delivered" })
        (some "Order status updated to delivered") none ∧
    (adminUpdateOrderStatus sampleStore administrator 10 (some "pending")).1 = sampleStore ∧
    (∃ saved : Order,
      updateOrderStatus sampleStore 10 (some "shipped") =
        ({ sampleStore with orders := Order.replace sampleStore.orders saved },
          .successResponse (some saved) (some ("Order status updated to " ++ "shipped"))
            none) ∧
      (administrator.role = "admin" →
        adminUpdateOrderStatus sampleStore administrator 10 (some "shipped") =
          updateOrderStatus sampleStore 10 (some "shipped")) ∧
      Order.findById (updateOrderStatus sampleStore 10 (some "shipped")).1.orders 10 =
        some saved ∧
      saved.status = "shipped" ∧ saved.items = orderTwoLines.items ∧
      saved.total = orderTwoLines.total ∧ saved.user = orderTwoLines.user ∧
      saved.notes = orderTwoLines.notes ∧ saved._id = orderTwoLines._id ∧
      (∀ other, other ≠ 10 →
        Order.findById (updateOrderStatus sampleStore 10 (some "shipped")).1.orders other =
          Order.findById sampleStore.orders other)) :=
  ⟨by decide!, by decide!, by decide!,
   C15_flat_transitions sampleStore administrator 10 orderTwoLines "shipped" rfl (by decide)
    (by decide!) (by decide!) (by decide!)⟩

/-! ## Invalid status values -/

/-- C16 (invalid status): for every status value that is absent or is not one of the six
enumerated strings, `updateOrderStatus` answers 400 (`ValidationError`) with the message that
lists the six valid statuses and returns the database unchanged, whether or not the order
exists; on the admin route an administrator gets this answer. -/
theorem C16_invalid_status (db : Db) (user : User) (id : Nat) (status : Option String)
    (hinvalid : ∀ s, status = some s →
      s ∉ ["pending", "confirmed", "processing", "shipped", "delivered", "cancelled"]) :
    updateOrderStatus db id status =
      (db, .errorResponse (.str ("Invalid status. Valid statuses: " ++
        "pending, confirmed, processing, shipped, delivered, cancelled")) 400) ∧
    (updateOrderStatus db id status).2.kind = some .ValidationError ∧
    (updateOrderStatus db id status).1 = db ∧
    (user.role = "admin" →
      adminUpdateOrderStatus db user id status = updateOrderStatus db id status) := by
  have heq : updateOrderStatus db id status =
      (db, .errorResponse (.str ("Invalid status. Valid statuses: " ++
        "pending, confirmed, processing, shipped, delivered, cancelled")) 400) := by
    cases status with
    | none => rfl
    | some s =>
      have hcontains : validStatuses.contains s = false := by
        have hs := hinvalid s rfl
        cases hc : validStatuses.contains s with
        | false => rfl
        | true => exact absurd (List.elem_iff.mp hc) hs
      simp only [updateOrderStatus, hcontains]
      rfl
  refine ⟨heq, ?_, ?_, ?_⟩
  · rw [heq]; rfl
  · rw [heq]
  · intro hadmin
    exact adminRoute_of_admin db user _ hadmin

/-- The administrator's status values `Shipped` (wrong case) and an absent value are both
refused for the sample order 10, which stays pending. -/
theorem C16_invalid_status_witness :
    (updateOrderStatus sampleStore 10 (some "Shipped")).2.kind = some .ValidationError ∧
    (updateOrderStatus sampleStore 10 (some "Shipped")).1 = sampleStore ∧
    (adminUpdateOrderStatus sampleStore administrator 10 none).2 =
      .errorResponse (.str ("Invalid status. Valid statuses: " ++
        "pending, confirmed, processing, shipped, delivered, cancelled")) 400 :=
  ⟨(C16_invalid_status sampleStore administrator 10 (some "Shipped")
      (fun s hs => by cases hs; decide)).2.1,
   (C16_invalid_status sampleStore administrator 10 (some "Shipped")
      (fun s hs => by cases hs; decide)).2.2.1,
   by
    rw [(C16_invalid_status sampleStore administrator 10 none (fun s hs => by cases hs)).2.2.2
      rfl]
    exact congrArg Prod.snd
      (C16_invalid_status sampleStore administrator 10 none (fun s hs => by cases hs)).1⟩

/-! ## The status invariant -/

theorem validate_status (order : Order) (hvalid : order.validate = true) :
    order.status ∈ statusEnum := by
  simp only [Order.validate, Bool.and_eq_true] at hvalid
  exact List.elem_iff.mp hvalid.2

theorem save_statusInv {db db' : Db} {order saved : Order}
    (h : Order.save db order = some (db', saved)) (hdb : db.StatusInv) : db'.StatusInv := by
  unfold Order.save at h
  split at h
  · rename_i hvalid
    simp only [Option.some.injEq, Prod.mk.injEq] at h
    obtain ⟨rfl, rfl⟩ := h
    intro x hx
    rcases mem_replace hx with hx | hx
    · rw [hx, preSave_status]
      exact validate_status order hvalid
    · exact hdb x hx
  · simp at h

theorem delete_statusInv {db : Db} (id : Nat) (hdb : db.StatusInv) :
    Db.StatusInv { db with orders := Order.findByIdAndDelete db.orders id } :=
  fun x hx => hdb x (List.mem_of_mem_eraseP hx)

theorem createOrder_statusInv (db : Db) (user : User) (items : List CartItem)
    (notes : Option String) (hdb : db.StatusInv) :
    (createOrder db user items notes).1.StatusInv := by
  rcases createOrder_cases db user items notes with ⟨_, heq⟩ | ⟨_, _, _, heq⟩ |
    ⟨_, _, _, _, _, heq⟩ | ⟨orderItems, total, db', order, _, _, hcreate, heq⟩
  · rw [heq]; exact hdb
  · rw [heq]; exact hdb
  · rw [heq]; exact hdb
  · rw [heq]
    unfold Order.create at hcreate
    simp only at hcreate
    split at hcreate
    · simp only [Option.some.injEq, Prod.mk.injEq] at hcreate
      obtain ⟨rfl, rfl⟩ := hcreate
      intro x hx
      simp only [List.mem_append, List.mem_singleton] at hx
      rcases hx with hx | hx
      · exact hdb x hx
      · rw [hx, preSave_status]
        show "pending" ∈ statusEnum
        decide
    · simp at hcreate

theorem removeOrderItem_statusInv (db : Db) (user : User) (id : Nat) (itemIndex : String)
    (hdb : db.StatusInv) : (removeOrderItem db user id itemIndex).1.StatusInv := by
  unfold removeOrderItem
  split
  · exact hdb
  · simp only
    split
    · exact hdb
    · split
      · exact hdb
      · split
        · exact hdb
        · split
          · exact delete_statusInv id hdb
          · split
            · exact hdb
            · rename_i db' saved hsave
              exact save_statusInv hsave hdb

theorem cancelOrder_statusInv (db : Db) (user : User) (id : Nat) (hdb : db.StatusInv) :
    (cancelOrder db user id).1.StatusInv := by
  unfold cancelOrder
  split
  · exact hdb
  · simp only
    split
    · exact hdb
    · split
      · exact hdb
      · split
        · exact hdb
        · rename_i db' saved hsave
          exact save_statusInv hsave hdb

theorem updateOrderStatus_statusInv (db : Db) (id : Nat) (status : Option String)
    (hdb : db.StatusInv) : (updateOrderStatus db id status).1.StatusInv := by
  unfold updateOrderStatus
  simp only
  split
  · exact hdb
  · split
    · exact hdb
    · split
      · exact hdb
      · rename_i db' saved hsave
        exact save_statusInv hsave hdb

theorem deleteOrder_statusInv (db : Db) (id : Nat) (hdb : db.StatusInv) :
    (deleteOrder db id).1.StatusInv := by
  unfold deleteOrder
  split
  · exact hdb
  · exact delete_statusInv id hdb

theorem call_statusInv (db : Db) (c : Call) (hdb : db.StatusInv) :
    (call db c).1.StatusInv := by
  cases c with
  | createOrder user items notes => exact createOrder_statusInv db user items notes hdb
  | removeOrderItem user id itemIndex => exact removeOrderItem_statusInv db user id itemIndex hdb
  | cancelOrder user id => exact cancelOrder_statusInv db user id hdb
  | updateOrderStatus id status => exact updateOrderStatus_statusInv db id status hdb
  | deleteOrder id => exact deleteOrder_statusInv db id hdb

theorem step_statusInv (db : Db) (request : Request) (hdb : db.StatusInv) :
    (step db request).1.StatusInv := by
  cases request with
  | createOrder user items notes =>
    simp only [step]
    split
    · exact createOrder_statusInv db user items notes hdb
    · exact hdb
  | getOrderById user id => exact hdb
  | removeOrderItem user id itemIndex => exact removeOrderItem_statusInv db user id itemIndex hdb
  | cancelOrder user id => exact cancelOrder_statusInv db user id hdb
  | adminUpdateOrderStatus user id status =>
    rcases behindAdminOnly_cases db user (updateOrderStatus db id status) with h | h
    · simp only [step, adminUpdateOrderStatus, h]; exact hdb
    · simp only [step, adminUpdateOrderStatus, h]
      exact updateOrderStatus_statusInv db id status hdb
  | adminDeleteOrder user id =>
    rcases behindAdminOnly_cases db user (deleteOrder db id) with h | h
    · simp only [step, adminDeleteOrder, h]; exact hdb
    · simp only [step, adminDeleteOrder, h]
      exact deleteOrder_statusInv db id hdb
  | adminRemoveOrderItem user id itemIndex =>
    rcases behindAdminOnly_cases db user (removeOrderItem db user id itemIndex) with h | h
    · simp only [step, adminRemoveOrderItem, h]; exact hdb
    · simp only [step, adminRemoveOrderItem, h]
      exact removeOrderItem_statusInv db user id itemIndex hdb

/-- With a valid status `updateOrderStatus` never gives the invalid-status answer. -/
theorem updateOrderStatus_accepts (db : Db) (id : Nat) (s : String)
    (hs : validStatuses.contains s = true) :
    (updateOrderStatus db id (some s)).2 ≠
      .errorResponse
        (.str ("Invalid status. Valid statuses: " ++ ", ".intercalate validStatuses)) 400 := by
  simp only [updateOrderStatus, hs, Bool.not_true, Bool.false_eq_true, if_false]
  split
  · simp
  · split <;> simp

/-- C17 (status invariant): from a store in which every order has one of the six statuses,
every sequence of direct calls of `createOrder`, `removeOrderItem`, `cancelOrder`,
`updateOrderStatus` and `deleteOrder` with arbitrary arguments, and every sequence of
requests to the order routes, leads to a store in which every order has one of the six
statuses; the list `updateOrderStatus` checks against is the enumeration of the schema, and
`updateOrderStatus` gives its invalid-status answer exactly for the values outside it. -/
theorem C17_status_invariant (db : Db)
    (hdb : ∀ order ∈ db.orders, order.status ∈
      ["pending", "confirmed", "processing", "shipped", "delivered", "cancelled"]) :
    (∀ cs : List Call, ∀ order ∈ (calls db cs).orders, order.status ∈
      ["pending", "confirmed", "processing", "shipped", "delivered", "cancelled"]) ∧
    (∀ requests : List Request, ∀ order ∈ (run db requests).orders, order.status ∈
      ["pending", "confirmed", "processing", "shipped", "delivered", "cancelled"]) ∧
    validStatuses = statusEnum ∧
    (∀ (d : Db) (id : Nat) (s : String),
      (updateOrderStatus d id (some s)).2 =
          .errorResponse
            (.str ("Invalid status. Valid statuses: " ++ ", ".intercalate validStatuses)) 400 ↔
        s ∉ statusEnum) := by
  have hinv : db.StatusInv := hdb
  have hcalls : ∀ (cs : List Call) (d : Db), d.StatusInv → (calls d cs).StatusInv := by
    intro cs
    induction cs with
    | nil => exact fun d hd => hd
    | cons c rest ih => exact fun d hd => ih _ (call_statusInv d c hd)
  have hrun : ∀ (requests : List Request) (d : Db), d.StatusInv →
      (run d requests).StatusInv := by
    intro requests
    induction requests with
    | nil => exact fun d hd => hd
    | cons request rest ih => exact fun d hd => ih _ (step_statusInv d request hd)
  refine ⟨fun cs => hcalls cs db hinv, fun requests => hrun requests db hinv, rfl, ?_⟩
  intro d id s
  constructor
  · intro herr hs
    exact updateOrderStatus_accepts d id s (List.elem_iff.mpr hs) herr
  · intro hs
    have hcontains : validStatuses.contains s = false := by
      cases hc : validStatuses.contains s with
      | false => rfl
      | true => exact absurd (List.elem_iff.mp hc) hs
    simp only [updateOrderStatus, hcontains]
    rfl

/-- The sample store has only enumerated statuses, and so has the store after the sample
calls, whose orders 11 and 13 are delivered and pending. -/
theorem C17_status_invariant_witness :
    ((calls sampleStore sampleCalls).orders.map Order.status = ["delivered", "pending"]) ∧
    (∀ order ∈ (calls sampleStore sampleCalls).orders, order.status ∈
      ["pending", "confirmed", "processing", "shipped", "delivered", "cancelled"]) :=
  ⟨by decide!, (C17_status_invariant sampleStore (by decide)).1 sampleCalls⟩

/-! ## Role gate and view authorization -/

/-- C18 (status change requires admin): on the route of the status change a requester whose
role is not `admin`, the owner of the order included, is answered 403 (`Forbidden`) for every
order identifier and every status value, and the database, and with it the order, is
unchanged; in general `authorize(roles)` calls `next()` exactly when the requester's role is
one of `roles`, and answers 403 otherwise. -/
theorem C18_status_change_requires_admin (db : Db) (user : User) (id : Nat)
    (status : Option String) (hrole : user.role ≠ "admin") :
    adminUpdateOrderStatus db user id status =
      (db, .errorResponse
        (.str ("Role '" ++ user.role ++ "' is not authorized to access this route")) 403) ∧
    (adminUpdateOrderStatus db user id status).2.kind = some .Forbidden ∧
    (∀ order, Order.findById db.orders id = some order →
      Order.findById (adminUpdateOrderStatus db user id status).1.orders id = some order) ∧
    (∀ (roles : List String) (requester : User),
      (authorize roles requester = none ↔ requester.role ∈ roles) ∧
      (requester.role ∉ roles → ∃ message, authorize roles requester =
        some (.errorResponse message 403))) := by
  have hcontains : (["admin"].contains user.role) = false := by simpa using hrole
  have heq : adminUpdateOrderStatus db user id status =
      (db, .errorResponse
        (.str ("Role '" ++ user.role ++ "' is not authorized to access this route")) 403) := by
    simp only [adminUpdateOrderStatus, behindAdminOnly, adminOnly, authorize, hcontains]
    rfl
  refine ⟨heq, ?_, ?_, ?_⟩
  · rw [heq]
    rfl
  · intro order horder
    rw [heq]
    exact horder
  · intro roles requester
    constructor
    · constructor
      · intro hnone
        cases hc : roles.contains requester.role with
        | true => exact List.elem_iff.mp hc
        | false =>
          simp only [authorize, hc, Bool.not_false, if_true] at hnone
          cases hnone
      · intro hmem
        have hc : roles.contains requester.role = true := List.elem_iff.mpr hmem
        simp only [authorize, hc, Bool.not_true, Bool.false_eq_true, if_false]
    · intro hnot
      have hc : roles.contains requester.role = false := by
        cases hc : roles.contains requester.role with
        | false => rfl
        | true => exact absurd (List.elem_iff.mp hc) hnot
      exact ⟨_, by simp only [authorize, hc]; rfl⟩

/-- The customer, owner of the pending sample order 10, may not change its status: the
answer is 403 and the order is still stored as it was. -/
theorem C18_status_change_requires_admin_witness :
    adminUpdateOrderStatus sampleStore customer 10 (some "shipped") =
      (sampleStore, .errorResponse
        (.str "Role 'user' is not authorized to access this route") 403) ∧
    (adminUpdateOrderStatus sampleStore customer 10 (some "shipped")).2.kind =
      some .Forbidden ∧
    Order.findById (adminUpdateOrderStatus sampleStore customer 10 (some "shipped")).1.orders
      10 = some orderTwoLines :=
  ⟨(C18_status_change_requires_admin sampleStore customer 10 (some "shipped") (by decide)).1,
   (C18_status_change_requires_admin sampleStore customer 10 (some "shipped") (by decide)).2.1,
   (C18_status_change_requires_admin sampleStore customer 10 (some "shipped")
      (by decide)).2.2.1 orderTwoLines rfl⟩

/-- C19 (view authorization): for an existing order, whatever its status, `getOrderById`
returns the stored order exactly when the requester is its owner or an administrator; every
other requester is answered 403 (`Forbidden`); serving the request leaves the database
unchanged. -/
theorem C19_view_authorization (db : Db) (user : User) (id : Nat) (order : Order)
    (h : Order.findById db.orders id = some order) :
    (getOrderById db user id = .successResponse (some order) none none ↔
      (order.user = user._id ∨ user.role = "admin")) ∧
    (¬ (order.user = user._id ∨ user.role = "admin") →
      getOrderById db user id =
          .errorResponse (.str "Not authorized to view this order") 403 ∧
        (getOrderById db user id).kind = some .Forbidden) ∧
    (step db (.getOrderById user id)).1 = db := by
  by_cases hallowed : order.user = user._id ∨ user.role = "admin"
  · have hguard : (order.user != user._id && user.role != "admin") = false := by
      rcases hallowed with howner | hadmin
      · simp [howner]
      · simp [hadmin]
    have heq : getOrderById db user id = .successResponse (some order) none none := by
      simp only [getOrderById, h, hguard, Bool.false_eq_true, if_false]
    exact ⟨⟨fun _ => hallowed, fun _ => heq⟩, fun hnot => absurd hallowed hnot, rfl⟩
  · have howner : order.user ≠ user._id := fun e => hallowed (Or.inl e)
    have hadmin : user.role ≠ "admin" := fun e => hallowed (Or.inr e)
    have hguard : (order.user != user._id && user.role != "admin") = true := by
      simp [howner, hadmin]
    have heq : getOrderById db user id =
        .errorResponse (.str "Not authorized to view this order") 403 := by
      simp only [getOrderById, h, hguard, if_true]
    refine ⟨⟨?_, fun hyes => absurd hyes hallowed⟩, fun _ => ⟨heq, by rw [heq]; rfl⟩, rfl⟩
    intro hsuccess
    rw [heq] at hsuccess
    cases hsuccess

/-- The confirmed sample order 11 is shown to its owner and to the administrator and refused
to another customer. -/
theorem C19_view_authorization_witness :
    getOrderById sampleStore customer 11 = .successResponse (some orderConfirmed) none none ∧
    getOrderById sampleStore administrator 11 =
      .successResponse (some orderConfirmed) none none ∧
    (getOrderById sampleStore stranger 11 =
        .errorResponse (.str "Not authorized to view this order") 403 ∧
      (getOrderById sampleStore stranger 11).kind = some .Forbidden) :=
  ⟨(C19_view_authorization sampleStore customer 11 orderConfirmed rfl).1.mpr (Or.inl rfl),
   (C19_view_authorization sampleStore administrator 11 orderConfirmed rfl).1.mpr (Or.inr rfl),
   (C19_view_authorization sampleStore stranger 11 orderConfirmed rfl).2.1 (by decide)⟩

/-! ## Snapshot immunity -/

theorem productSave_orders {db db' : Db} {product : Product}
    (h : Product.save db product = some db') :
    db'.orders = db.orders ∧ db'.nextId = db.nextId := by
  unfold Product.save at h
  split at h
  · simp only [Option.some.injEq] at h
    subst h
    exact ⟨rfl, rfl⟩
  · simp at h

theorem updateProduct_orders (db : Db) (id : Nat) (body : ProductUpdate) :
    (updateProduct db id body).1.orders = db.orders := by
  unfold updateProduct
  split
  · rfl
  · simp only
    split
    · rfl
    · rename_i hsave
      exact (productSave_orders hsave).1

theorem updateProductByReference_orders (db : Db) (ref : String) (body : ProductUpdate) :
    (updateProductByReference db ref body).1.orders = db.orders := by
  unfold updateProductByReference
  split
  · rfl
  · simp only
    split
    · rfl
    · rename_i hsave
      exact (productSave_orders hsave).1

theorem deleteProduct_orders (db : Db) (id : Nat) :
    (deleteProduct db id).1.orders = db.orders := by
  unfold deleteProduct
  split
  · rfl
  · split
    · rfl
    · rename_i hsave
      exact (productSave_orders hsave).1

theorem productBehindAdminOnly_cases (db : Db) (user : User) (handler : Db × ProductOutcome) :
    (productBehindAdminOnly db user handler).1 = db ∨
      productBehindAdminOnly db user handler = handler := by
  unfold productBehindAdminOnly
  split
  · exact Or.inl rfl
  · exact Or.inr rfl

theorem catalogStep_orders (db : Db) (request : CatalogRequest) :
    (catalogStep db request).1.orders = db.orders := by
  cases request with
  | updateProduct user id body =>
    simp only [catalogStep]
    rcases productBehindAdminOnly_cases db user
      (match productUpdateValidation body with
       | none => (db, .errorResponse (.str "Validation failed") 400)
       | some body => updateProduct db id body) with h | h
    · rw [h]
    · rw [h]
      split
      · rfl
      · exact updateProduct_orders db id _
  | updateProductByReference user ref body =>
    simp only [catalogStep]
    rcases productBehindAdminOnly_cases db user
      (match productUpdateValidation body with
       | none => (db, .errorResponse (.str "Validation failed") 400)
       | some body => updateProductByReference db ref body) with h | h
    · rw [h]
    · rw [h]
      split
      · rfl
      · exact updateProductByReference_orders db ref _
  | deleteProduct user id =>
    simp only [catalogStep]
    rcases productBehindAdminOnly_cases db user (deleteProduct db id) with h | h
    · rw [h]
    · rw [h]
      exact deleteProduct_orders db id

theorem catalogRun_orders (db : Db) (requests : List CatalogRequest) :
    (catalogRun db requests).orders = db.orders := by
  induction requests generalizing db with
  | nil => rfl
  | cons request rest ih =>
    show (catalogRun (catalogStep db request).1 rest).orders = db.orders
    rw [ih, catalogStep_orders]

theorem getOrderById_orders (db other : Db) (user : User) (id : Nat)
    (h : other.orders = db.orders) : getOrderById other user id = getOrderById db user id := by
  simp only [getOrderById, h]

/-- What a successful `createOrder` leaves: the returned order, with the fresh identifier and
the requester as owner, appended to the orders. -/
theorem createOrder_success_shape (db db' : Db) (user : User) (items : List CartItem)
    (notes : Option String) (order : Order) (message : Option String)
    (statusCode : Option Nat)
    (h : createOrder db user items notes =
      (db', .successResponse (some order) message statusCode)) :
    db'.orders = db.orders ++ [order] ∧ order._id = db.nextId ∧ order.user = user._id := by
  rcases createOrder_cases db user items notes with ⟨_, heq⟩ | ⟨response, _, herr, heq⟩ |
    ⟨_, _, _, _, _, heq⟩ | ⟨orderItems, total, db'', order', _, _, hcreate, heq⟩
  · rw [heq] at h
    simp at h
  · rw [heq] at h
    have hresp := createOrderLoop_error db.products items [] 0 response herr
    simp only [Prod.mk.injEq] at h
    rw [h.2] at hresp
    simp [Outcome.isSuccess] at hresp
  · rw [heq] at h
    simp at h
  · rw [heq] at h
    simp only [Prod.mk.injEq, Outcome.successResponse.injEq, Option.some.injEq] at h
    obtain ⟨rfl, rfl, _, _⟩ := h
    unfold Order.create at hcreate
    simp only at hcreate
    split at hcreate
    · simp only [Option.some.injEq, Prod.mk.injEq] at hcreate
      obtain ⟨rfl, rfl⟩ := hcreate
      exact ⟨rfl, preSave_id _, preSave_user _⟩
    · simp at hcreate

theorem findById_append_fresh (orders : List Order) (order : Order)
    (hfresh : ∀ o ∈ orders, o._id ≠ order._id) :
    Order.findById (orders ++ [order]) order._id = some order := by
  have hnone : List.find? (fun o => o._id == order._id) orders = none :=
    List.find?_eq_none.mpr (fun o ho => by simpa using hfresh o ho)
  simp [Order.findById, List.find?_append, hnone]

/-- C20 (snapshot immunity): after a successful `createOrder` in a store where the fresh
identifier is not in use, and after any sequence of requests to the catalog routes
(`updateProduct`, `updateProductByReference`, `deleteProduct`), the order store is the one
left by the creation, `getOrderById` returns to the owner the very order returned at creation,
with the same lines and total, and answers every requester and identifier as it did right
after the creation; no call of the three catalog controllers, whatever its arguments, changes
the orders. -/
theorem C20_snapshot_immunity (db db' : Db) (user : User) (items : List CartItem)
    (notes : Option String) (order : Order)
    (hcreate : createOrder db user items notes =
      (db', .successResponse (some order) (some "Order created successfully") (some 201)))
    (hfresh : ∀ o ∈ db.orders, o._id ≠ db.nextId) :
    (∀ requests : List CatalogRequest,
      (catalogRun db' requests).orders = db'.orders ∧
      getOrderById (catalogRun db' requests) user order._id =
        .successResponse (some order) none none ∧
      (∀ requester id, getOrderById (catalogRun db' requests) requester id =
        getOrderById db' requester id)) ∧
    (∀ (d : Db) (id : Nat) (body : ProductUpdate),
      (updateProduct d id body).1.orders = d.orders) ∧
    (∀ (d : Db) (ref : String) (body : ProductUpdate),
      (updateProductByReference d ref body).1.orders = d.orders) ∧
    (∀ (d : Db) (id : Nat), (deleteProduct d id).1.orders = d.orders) := by
  obtain ⟨horders, hid, howner⟩ :=
    createOrder_success_shape db db' user items notes order _ _ hcreate
  have hfound : Order.findById db'.orders order._id = some order := by
    rw [horders]
    exact findById_append_fresh db.orders order (fun o ho => by rw [hid]; exact hfresh o ho)
  have hview : getOrderById db' user order._id = .successResponse (some order) none none := by
    simp [getOrderById, hfound, howner]
  refine ⟨fun requests => ⟨catalogRun_orders db' requests, ?_, ?_⟩, updateProduct_orders,
    updateProductByReference_orders, deleteProduct_orders⟩
  · rw [getOrderById_orders db' _ user order._id (catalogRun_orders db' requests)]
    exact hview
  · intro requester id
    exact getOrderById_orders db' _ requester id (catalogRun_orders db' requests)

/-- The order for 10 A and 5 B is created in the empty sample store; then product A gets the
price 99, another name, size and allowed quantities, B is soft-deleted and P is renamed and
deactivated. The owner still reads the order with the lines of A at 11.30 and B at 11.99 and
the total 172.95. -/
theorem C20_snapshot_immunity_witness :
    createOrder emptyStore customer cartAB none =
      ({ emptyStore with orders := [orderAB], nextId := 11 },
        .successResponse (some orderAB) (some "Order created successfully") (some 201)) ∧
    (catalogRun { emptyStore with orders := [orderAB], nextId := 11 }
        sampleCatalogRequests).products.map
        (fun p => (p.reference, p.price, p.isActive)) =
      [("A-100", 99, true), ("B-200", 1199 / 100, false), ("P-301", 8, false),
       ("O-400", 5, false)] ∧
    ((catalogRun { emptyStore with orders := [orderAB], nextId := 11 }
        sampleCatalogRequests).orders = [orderAB] ∧
      getOrderById (catalogRun { emptyStore with orders := [orderAB], nextId := 11 }
        sampleCatalogRequests) customer orderAB._id =
        .successResponse (some orderAB) none none ∧
      (∀ requester id,
        getOrderById (catalogRun { emptyStore with orders := [orderAB], nextId := 11 }
          sampleCatalogRequests) requester id =
        getOrderById { emptyStore with orders := [orderAB], nextId := 11 } requester id)) :=
  ⟨by decide!, by decide!,
   (C20_snapshot_immunity emptyStore { emptyStore with orders := [orderAB], nextId := 11 }
      customer cartAB none orderAB (by decide!) (by decide)).1 sampleCatalogRequests⟩

/-! ## Non-negativity -/

theorem subtotalSum_eraseIdx (items : List OrderItem) (k : Nat) (hk : k < items.length) :
    subtotalSum (items.eraseIdx k) = subtotalSum items - (items[k]).subtotal := by
  induction items generalizing k with
  | nil => simp at hk
  | cons item rest ih =>
    cases k with
    | zero => simp [subtotalSum]
    | succ k =>
      have hk' : k < rest.length := by simpa using hk
      have hrest := ih k hk'
      simp only [subtotalSum, List.eraseIdx_cons_succ, List.map_cons, List.sum_cons,
        List.getElem_cons_succ] at hrest ⊢
      rw [hrest]
      ring

/-- What `splice(index, 1)` removes once the index check of `removeOrderItem` has let the
index through: the element at the position read, or the first element when the index is
`NaN`. -/
theorem splice_checked {α : Type} (items : List α) (index : Option Int)
    (hne : items ≠ [])
    (hcheck : (match index with
      | none => false
      | some i => decide (i < 0) || decide (i ≥ (items.length : Int))) = false) :
    ∃ k, k < items.length ∧ splice items index 1 = items.eraseIdx k := by
  have hpos : 0 < items.length := List.length_pos.mpr hne
  cases index with
  | none =>
    refine ⟨0, hpos, ?_⟩
    have h0 := splice_valid items 0 hpos
    simpa [splice] using h0
  | some i =>
    simp only [Bool.or_eq_false_iff, decide_eq_false_iff_not] at hcheck
    obtain ⟨hlt, hge⟩ := hcheck
    have hi : i.toNat < items.length := by omega
    refine ⟨i.toNat, hi, ?_⟩
    have hcast : ((i.toNat : Nat) : Int) = i := by omega
    have hs := splice_valid items i.toNat hi
    rw [hcast] at hs
    exact hs

/-- The lines and the total of the order a successful `createOrder` returns. -/
theorem createOrder_success_lines (db db' : Db) (user : User) (items : List CartItem)
    (notes : Option String) (order : Order) (message : Option String)
    (statusCode : Option Nat)
    (h : createOrder db user items notes =
      (db', .successResponse (some order) message statusCode)) :
    SnapshotOf db.products items order.items ∧ order.total = subtotalSum order.items := by
  rcases createOrder_cases db user items notes with ⟨_, heq⟩ | ⟨response, _, herr, heq⟩ |
    ⟨_, _, _, _, _, heq⟩ | ⟨orderItems, total, db'', order', _, hloop, hcreate, heq⟩
  · rw [heq] at h
    simp at h
  · rw [heq] at h
    have hresp := createOrderLoop_error db.products items [] 0 response herr
    simp only [Prod.mk.injEq] at h
    rw [h.2] at hresp
    simp [Outcome.isSuccess] at hresp
  · rw [heq] at h
    simp at h
  · rw [heq] at h
    simp only [Prod.mk.injEq, Outcome.successResponse.injEq, Option.some.injEq] at h
    obtain ⟨rfl, rfl, _, _⟩ := h
    obtain ⟨htotal, hlines⟩ := createOrderLoop_result db.products items orderItems total hloop
    unfold Order.create at hcreate
    simp only at hcreate
    split at hcreate
    · simp only [Option.some.injEq, Prod.mk.injEq] at hcreate
      obtain ⟨rfl, rfl⟩ := hcreate
      refine ⟨by rw [preSave_items]; exact hlines, ?_⟩
      exact preSave_totalInv _ (Or.inr htotal)
    · simp at hcreate

/-- The order a successful, non-cascading `removeOrderItem` returns: the loaded order with one
line erased and the total recomputed from the remaining lines. -/
theorem removeOrderItem_saved_shape (db db' : Db) (user : User) (id : Nat)
    (itemIndex : String) (order saved : Order) (message : Option String)
    (statusCode : Option Nat)
    (h : Order.findById db.orders id = some order)
    (hremove : removeOrderItem db user id itemIndex =
      (db', .successResponse (some saved) message statusCode)) :
    ∃ k, ∃ hk : k < order.items.length,
      saved.items = order.items.eraseIdx k ∧
      saved.total = subtotalSum order.items - (order.items[k]).subtotal ∧
      saved.total = subtotalSum saved.items := by
  unfold removeOrderItem at hremove
  simp only [h] at hremove
  split at hremove
  · simp at hremove
  · split at hremove
    · simp at hremove
    · split at hremove
      · simp at hremove
      · rename_i hcheck
        split at hremove
        · simp at hremove
        · rename_i hlen
          split at hremove
          · simp at hremove
          · rename_i db'' saved' hsave
            simp only [Prod.mk.injEq, Outcome.successResponse.injEq, Option.some.injEq]
              at hremove
            obtain ⟨_, rfl, _, _⟩ := hremove
            have hne : order.items ≠ [] := by
              intro hnil
              apply hlen
              simp [hnil, splice]
            have hcheck' : (match parseInt itemIndex with
                | none => false
                | some i => decide (i < 0) || decide (i ≥ (order.items.length : Int))) =
                false := by
              cases hc : (match parseInt itemIndex with
                | none => false
                | some i => decide (i < 0) || decide (i ≥ (order.items.length : Int))) with
              | false => rfl
              | true => exact absurd hc hcheck
            obtain ⟨k, hk, hsplice⟩ := splice_checked order.items (parseInt itemIndex) hne hcheck'
            unfold Order.save at hsave
            split at hsave
            · simp only [Option.some.injEq, Prod.mk.injEq] at hsave
              obtain ⟨_, rfl⟩ := hsave
              refine ⟨k, hk, ?_, ?_, ?_⟩
              · rw [preSave_items]
                exact hsplice
              · have hinv := preSave_totalInv
                  { order with items := splice order.items (parseInt itemIndex) 1,
                               total := reduceSubtotals
                                 (splice order.items (parseInt itemIndex) 1) }
                  (Or.inr (by simp [Order.TotalInv, reduceSubtotals_eq]))
                rw [hinv, preSave_items]
                show subtotalSum (splice order.items (parseInt itemIndex) 1) = _
                rw [hsplice]
                exact subtotalSum_eraseIdx order.items k hk
              · exact preSave_totalInv _
                  (Or.inr (by simp [Order.TotalInv, reduceSubtotals_eq]))
            · simp at hsave

theorem snapshotLines_nonneg (products : List Product) (items : List CartItem)
    (lines : List OrderItem) (hlines : SnapshotOf products items lines)
    (hprice : ∀ product ∈ products, 0 ≤ product.price)
    (hqty : ∀ item ∈ items, 1 ≤ item.quantity) :
    ∀ line ∈ lines, 1 ≤ line.quantity ∧ 0 ≤ line.subtotal := by
  unfold SnapshotOf at hlines
  induction hlines with
  | nil => simp
  | @cons item line items lines hhead _ ih =>
    obtain ⟨product, hfind, rfl⟩ := hhead
    intro x hx
    rcases List.mem_cons.mp hx with hx | hx
    · subst hx
      have hq : 1 ≤ item.quantity := hqty item (List.mem_cons_self _ _)
      exact ⟨hq, mul_nonneg (hprice product (productFindById_mem hfind))
        (le_trans zero_le_one hq)⟩
    · exact ih (fun y hy => hqty y (List.mem_cons_of_mem _ hy)) x hx

/-! ## Rounding to binary64 -/

theorem roundHalfEven_intCast (n : ℤ) : roundHalfEven (n : ℚ) = n := by
  simp [roundHalfEven]

theorem floor_le_roundHalfEven (q : ℚ) : ⌊q⌋ ≤ roundHalfEven q := by
  unfold roundHalfEven
  split_ifs <;> omega

theorem roundHalfEven_le_floor_succ (q : ℚ) : roundHalfEven q ≤ ⌊q⌋ + 1 := by
  unfold roundHalfEven
  split_ifs <;> omega

theorem roundHalfEven_mono {q r : ℚ} (h : q ≤ r) : roundHalfEven q ≤ roundHalfEven r := by
  have hfloor : ⌊q⌋ ≤ ⌊r⌋ := Int.floor_mono h
  rcases lt_or_eq_of_le hfloor with hlt | heq
  · calc roundHalfEven q ≤ ⌊q⌋ + 1 := roundHalfEven_le_floor_succ q
      _ ≤ ⌊r⌋ := hlt
      _ ≤ roundHalfEven r := floor_le_roundHalfEven r
  · have hfrac : q - ⌊q⌋ ≤ r - ⌊r⌋ := by
      rw [heq]; linarith
    unfold roundHalfEven
    rw [heq] at hfrac ⊢
    split_ifs <;> first | omega | (exfalso; linarith)

theorem roundHalfEven_nonneg {q : ℚ} (h : 0 ≤ q) : 0 ≤ roundHalfEven q := by
  have := roundHalfEven_mono h
  rwa [show ((0 : ℚ)) = ((0 : ℤ) : ℚ) by simp, roundHalfEven_intCast] at this

theorem ulp_pos (q : ℚ) : 0 < ulp q := by
  unfold ulp
  positivity

theorem roundDouble_zero : roundDouble 0 = 0 := by
  simp [roundDouble, roundHalfEven]

theorem roundDouble_nonneg {q : ℚ} (h : 0 ≤ q) : 0 ≤ roundDouble q := by
  unfold roundDouble
  have hu := ulp_pos q
  have : 0 ≤ roundHalfEven (q / ulp q) := roundHalfEven_nonneg (div_nonneg h hu.le)
  have : (0 : ℚ) ≤ (roundHalfEven (q / ulp q) : ℚ) := by exact_mod_cast this
  positivity
theorem ulp_eq (q : ℚ) : ulp q = (2 : ℚ) ^ (max (Int.log 2 |q|) (-1022) - 52) := rfl

theorem two_zpow_log_le {q : ℚ} (h : 0 < q) : (2 : ℚ) ^ Int.log 2 q ≤ q := by
  have := Int.zpow_log_le_self (b := 2) (by norm_num) h
  simpa using this

theorem lt_two_zpow_log_succ (q : ℚ) : q < (2 : ℚ) ^ (Int.log 2 q + 1) := by
  have := Int.lt_zpow_succ_log_self (b := 2) (by norm_num) q
  simpa using this

theorem log_eq_of_binade {q : ℚ} {k : ℤ} (h1 : (2 : ℚ) ^ k ≤ q) (h2 : q < (2 : ℚ) ^ (k + 1)) :
    Int.log 2 q = k := by
  have hq : 0 < q := lt_of_lt_of_le (by positivity) h1
  have ha : k ≤ Int.log 2 q := by
    rw [← Int.zpow_le_iff_le_log (by norm_num) hq]
    simpa using h1
  have hb : Int.log 2 q < k + 1 := by
    rw [← Int.lt_zpow_iff_log_lt (by norm_num) hq]
    simpa using h2
  omega

theorem log_lt_of_lt {q : ℚ} {k : ℤ} (hq : 0 < q) (h2 : q < (2 : ℚ) ^ k) :
    Int.log 2 q < k := by
  rw [← Int.lt_zpow_iff_log_lt (by norm_num) hq]
  simpa using h2

/-- A value `n * 2 ^ (k - 52)` with `k ≥ -1022` and `0 ≤ n ≤ 2 ^ 53`, where `2 ^ 52 ≤ n` unless
`k = -1022`, is a binary64 value: rounding leaves it as it is. -/
theorem roundDouble_of_double (n k : ℤ) (hk : -1022 ≤ k) (hn0 : 0 ≤ n) (hn : n ≤ 2 ^ 53)
    (hnorm : 2 ^ 52 ≤ n ∨ k = -1022) :
    roundDouble ((n : ℚ) * (2 : ℚ) ^ (k - 52)) = (n : ℚ) * (2 : ℚ) ^ (k - 52) := by
  rcases eq_or_lt_of_le hn0 with h0 | hpos
  · subst h0
    simp [roundDouble_zero]
  have hu : (0 : ℚ) < (2 : ℚ) ^ (k - 52) := by positivity
  have hnq : (0 : ℚ) < (n : ℚ) := by exact_mod_cast hpos
  have hv : (0 : ℚ) < (n : ℚ) * (2 : ℚ) ^ (k - 52) := mul_pos hnq hu
  rcases eq_or_lt_of_le hn with h53 | hlt
  · -- the value is the power `2 ^ (k + 1)`
    have hval : (n : ℚ) * (2 : ℚ) ^ (k - 52) = (2 : ℚ) ^ (k + 1) := by
      rw [h53]
      simp only [Int.cast_pow, Int.cast_ofNat]
      rw [← zpow_natCast (2 : ℚ) 53, ← zpow_add₀ (by norm_num : (2 : ℚ) ≠ 0)]
      congr 1
      push_cast
      ring
    rw [hval]
    have hlog : Int.log 2 |(2 : ℚ) ^ (k + 1)| = k + 1 := by
      rw [abs_of_pos (by positivity)]
      exact log_eq_of_binade le_rfl (zpow_lt_zpow_right₀ (by norm_num) (by omega))
    have hulp : ulp ((2 : ℚ) ^ (k + 1)) = (2 : ℚ) ^ (k + 1 - 52) := by
      rw [ulp_eq, hlog, max_eq_left (by omega)]
    unfold roundDouble
    rw [hulp]
    have hdiv : (2 : ℚ) ^ (k + 1) / (2 : ℚ) ^ (k + 1 - 52) = (((2 : ℤ) ^ 52 : ℤ) : ℚ) := by
      rw [← zpow_sub₀ (by norm_num : (2 : ℚ) ≠ 0)]
      have : k + 1 - (k + 1 - 52) = ((52 : ℕ) : ℤ) := by push_cast; ring
      rw [this, zpow_natCast]
      simp only [Int.cast_pow, Int.cast_ofNat]
    rw [hdiv, roundHalfEven_intCast]
    simp only [Int.cast_pow, Int.cast_ofNat]
    rw [← zpow_natCast (2 : ℚ) 52, ← zpow_add₀ (by norm_num : (2 : ℚ) ≠ 0)]
    congr 1
    push_cast
    ring
  · have hupper : (n : ℚ) * (2 : ℚ) ^ (k - 52) < (2 : ℚ) ^ (k + 1) := by
      have h1 : (n : ℚ) < (2 : ℚ) ^ (53 : ℤ) := by
        rw [show (53 : ℤ) = ((53 : ℕ) : ℤ) by rfl, zpow_natCast]
        exact_mod_cast hlt
      calc (n : ℚ) * (2 : ℚ) ^ (k - 52) < (2 : ℚ) ^ (53 : ℤ) * (2 : ℚ) ^ (k - 52) :=
            mul_lt_mul_of_pos_right h1 hu
        _ = (2 : ℚ) ^ (k + 1) := by
            rw [← zpow_add₀ (by norm_num : (2 : ℚ) ≠ 0)]
            congr 1
            ring
    have hlog_le : Int.log 2 ((n : ℚ) * (2 : ℚ) ^ (k - 52)) ≤ k := by
      have := log_lt_of_lt hv hupper
      omega
    have hmax : max (Int.log 2 |(n : ℚ) * (2 : ℚ) ^ (k - 52)|) (-1022) = k := by
      rw [abs_of_pos hv]
      rcases hnorm with h52 | hsub
      · have hlower : (2 : ℚ) ^ k ≤ (n : ℚ) * (2 : ℚ) ^ (k - 52) := by
          have h1 : (2 : ℚ) ^ (52 : ℤ) ≤ (n : ℚ) := by
            rw [show (52 : ℤ) = ((52 : ℕ) : ℤ) by rfl, zpow_natCast]
            exact_mod_cast h52
          calc (2 : ℚ) ^ k = (2 : ℚ) ^ (52 : ℤ) * (2 : ℚ) ^ (k - 52) := by
                rw [← zpow_add₀ (by norm_num : (2 : ℚ) ≠ 0)]
                congr 1
                ring
            _ ≤ (n : ℚ) * (2 : ℚ) ^ (k - 52) := mul_le_mul_of_nonneg_right h1 hu.le
        rw [log_eq_of_binade hlower hupper]
        exact max_eq_left hk
      · rw [hsub] at hlog_le ⊢
        exact max_eq_right hlog_le
    unfold roundDouble
    rw [ulp_eq, hmax, mul_div_assoc, div_self hu.ne.symm, mul_one, roundHalfEven_intCast]
theorem ulp_of_pos {q : ℚ} (hq : 0 < q) :
    ulp q = (2 : ℚ) ^ (max (Int.log 2 q) (-1022) - 52) := by
  rw [ulp_eq, abs_of_pos hq]

/-- The significand of a rounded positive number is at most `2 ^ 53`. -/
theorem significand_le {q : ℚ} (hq : 0 < q) : roundHalfEven (q / ulp q) ≤ 2 ^ 53 := by
  have hlt : q < (2 : ℚ) ^ (max (Int.log 2 q) (-1022) + 1) :=
    lt_of_lt_of_le (lt_two_zpow_log_succ q)
      (zpow_le_zpow_right₀ (by norm_num) (by have := le_max_left (Int.log 2 q) (-1022); omega))
  have hdiv : q / ulp q ≤ (((2 : ℤ) ^ 53 : ℤ) : ℚ) := by
    rw [ulp_of_pos hq, div_le_iff₀ (by positivity)]
    simp only [Int.cast_pow, Int.cast_ofNat]
    rw [← zpow_natCast (2 : ℚ) 53, ← zpow_add₀ (by norm_num : (2 : ℚ) ≠ 0)]
    have : ((53 : ℕ) : ℤ) + (max (Int.log 2 q) (-1022) - 52) =
        max (Int.log 2 q) (-1022) + 1 := by
      push_cast
      ring
    rw [this]
    exact hlt.le
  have := roundHalfEven_mono hdiv
  rwa [roundHalfEven_intCast] at this

/-- The significand of a rounded number in the normal range is at least `2 ^ 52`. -/
theorem le_significand {q : ℚ} (hq : 0 < q) (hnormal : -1022 ≤ Int.log 2 q) :
    2 ^ 52 ≤ roundHalfEven (q / ulp q) := by
  have hdiv : (((2 : ℤ) ^ 52 : ℤ) : ℚ) ≤ q / ulp q := by
    rw [ulp_of_pos hq, max_eq_left hnormal, le_div_iff₀ (by positivity)]
    simp only [Int.cast_pow, Int.cast_ofNat]
    rw [← zpow_natCast (2 : ℚ) 52, ← zpow_add₀ (by norm_num : (2 : ℚ) ≠ 0)]
    have : ((52 : ℕ) : ℤ) + (Int.log 2 q - 52) = Int.log 2 q := by
      push_cast
      ring
    rw [this]
    exact two_zpow_log_le hq
  have := roundHalfEven_mono hdiv
  rwa [roundHalfEven_intCast] at this

/-- Rounding a number that is not negative gives a binary64 value, which rounding leaves as
it is. -/
theorem roundDouble_idem {q : ℚ} (hq : 0 ≤ q) : roundDouble (roundDouble q) = roundDouble q := by
  rcases eq_or_lt_of_le hq with h0 | hpos
  · rw [← h0, roundDouble_zero, roundDouble_zero]
  · have hform : roundDouble q =
        (roundHalfEven (q / ulp q) : ℚ) * (2 : ℚ) ^ (max (Int.log 2 q) (-1022) - 52) := by
      unfold roundDouble
      rw [ulp_of_pos hpos]
    rw [hform]
    apply roundDouble_of_double _ _ (le_max_right _ _)
      (roundHalfEven_nonneg (div_nonneg hq (ulp_pos q).le)) (significand_le hpos)
    by_cases hnormal : -1022 ≤ Int.log 2 q
    · exact Or.inl (le_significand hpos hnormal)
    · exact Or.inr (max_eq_right (by omega))

/-- Rounding is monotone on the numbers that are not negative. -/
theorem roundDouble_mono {q r : ℚ} (hq : 0 ≤ q) (h : q ≤ r) : roundDouble q ≤ roundDouble r := by
  have hr : 0 ≤ r := le_trans hq h
  rcases eq_or_lt_of_le hq with h0 | hpos
  · rw [← h0, roundDouble_zero]
    exact roundDouble_nonneg hr
  have hrpos : 0 < r := lt_of_lt_of_le hpos h
  have hlog : Int.log 2 q ≤ Int.log 2 r := Int.log_mono_right hpos h
  rcases eq_or_lt_of_le (max_le_max_right (-1022) hlog) with heq | hlt
  · have hulp : ulp q = ulp r := by rw [ulp_of_pos hpos, ulp_of_pos hrpos, heq]
    unfold roundDouble
    rw [hulp]
    have hdiv : q / ulp r ≤ r / ulp r := div_le_div_of_nonneg_right h (ulp_pos r).le
    have := roundHalfEven_mono hdiv
    have hcast : (roundHalfEven (q / ulp r) : ℚ) ≤ (roundHalfEven (r / ulp r) : ℚ) := by
      exact_mod_cast this
    exact mul_le_mul_of_nonneg_right hcast (ulp_pos r).le
  · have hnormal : -1022 ≤ Int.log 2 r := by
      by_contra hc
      rw [max_eq_right (by omega : Int.log 2 r ≤ -1022)] at hlt
      have := le_max_right (Int.log 2 q) (-1022)
      omega
    rw [max_eq_left hnormal] at hlt
    have hupper : roundDouble q ≤ (2 : ℚ) ^ (max (Int.log 2 q) (-1022) + 1) := by
      unfold roundDouble
      rw [ulp_of_pos hpos]
      rw [← ulp_of_pos hpos]
      have hn : (roundHalfEven (q / ulp q) : ℚ) ≤ (2 : ℚ) ^ (53 : ℤ) := by
        have := significand_le hpos
        rw [show (53 : ℤ) = ((53 : ℕ) : ℤ) by rfl, zpow_natCast]
        exact_mod_cast this
      calc (roundHalfEven (q / ulp q) : ℚ) * ulp q ≤ (2 : ℚ) ^ (53 : ℤ) * ulp q :=
            mul_le_mul_of_nonneg_right hn (ulp_pos q).le
        _ = (2 : ℚ) ^ (max (Int.log 2 q) (-1022) + 1) := by
            rw [ulp_of_pos hpos, ← zpow_add₀ (by norm_num : (2 : ℚ) ≠ 0)]
            congr 1
            ring
    have hlower : (2 : ℚ) ^ Int.log 2 r ≤ roundDouble r := by
      unfold roundDouble
      have hn : (2 : ℚ) ^ (52 : ℤ) ≤ (roundHalfEven (r / ulp r) : ℚ) := by
        have := le_significand hrpos hnormal
        rw [show (52 : ℤ) = ((52 : ℕ) : ℤ) by rfl, zpow_natCast]
        exact_mod_cast this
      calc (2 : ℚ) ^ Int.log 2 r = (2 : ℚ) ^ (52 : ℤ) * ulp r := by
            rw [ulp_of_pos hrpos, max_eq_left hnormal,
              ← zpow_add₀ (by norm_num : (2 : ℚ) ≠ 0)]
            congr 1
            ring
        _ ≤ (roundHalfEven (r / ulp r) : ℚ) * ulp r :=
            mul_le_mul_of_nonneg_right hn (ulp_pos r).le
    calc roundDouble q ≤ (2 : ℚ) ^ (max (Int.log 2 q) (-1022) + 1) := hupper
      _ ≤ (2 : ℚ) ^ Int.log 2 r := zpow_le_zpow_right₀ (by norm_num) (by omega)
      _ ≤ roundDouble r := hlower

/-! ## Sums in binary64 -/

theorem jsAdd_nonneg {a x : Number} (ha : 0 ≤ a) (hx : 0 ≤ x) : 0 ≤ jsAdd a x :=
  roundDouble_nonneg (add_nonneg ha hx)

theorem jsMul_nonneg {a x : Number} (ha : 0 ≤ a) (hx : 0 ≤ x) : 0 ≤ jsMul a x :=
  roundDouble_nonneg (mul_nonneg ha hx)

theorem jsAdd_mono_left {a b x : Number} (ha : 0 ≤ a) (hab : a ≤ b) (hx : 0 ≤ x) :
    jsAdd a x ≤ jsAdd b x :=
  roundDouble_mono (add_nonneg ha hx) (by linarith)

/-- Adding a number that is not negative to a binary64 value does not make it smaller. -/
theorem le_jsAdd {a x : Number} (ha : 0 ≤ a) (hdouble : roundDouble a = a) (hx : 0 ≤ x) :
    a ≤ jsAdd a x := by
  have := roundDouble_mono ha (by linarith : a ≤ a + x)
  rwa [hdouble] at this

theorem jsAdd_double {a x : Number} (ha : 0 ≤ a) (hx : 0 ≤ x) :
    roundDouble (jsAdd a x) = jsAdd a x :=
  roundDouble_idem (add_nonneg ha hx)

theorem foldl_jsAdd_nonneg (items : List OrderItem) (start : Number) (hstart : 0 ≤ start)
    (h : ∀ item ∈ items, 0 ≤ item.subtotal) :
    0 ≤ items.foldl (fun sum item => jsAdd sum item.subtotal) start := by
  induction items generalizing start with
  | nil => exact hstart
  | cons item rest ih =>
    exact ih _ (jsAdd_nonneg hstart (h item (List.mem_cons_self _ _)))
      (fun x hx => h x (List.mem_cons_of_mem _ hx))

/-- The running sum is monotone in the value it starts from. -/
theorem foldl_jsAdd_mono (items : List OrderItem) (a b : Number) (ha : 0 ≤ a) (hab : a ≤ b)
    (h : ∀ item ∈ items, 0 ≤ item.subtotal) :
    items.foldl (fun sum item => jsAdd sum item.subtotal) a ≤
      items.foldl (fun sum item => jsAdd sum item.subtotal) b := by
  induction items generalizing a b with
  | nil => exact hab
  | cons item rest ih =>
    have hitem := h item (List.mem_cons_self _ _)
    exact ih _ _ (jsAdd_nonneg ha hitem) (jsAdd_mono_left ha hab hitem)
      (fun x hx => h x (List.mem_cons_of_mem _ hx))

/-- The running sum without one of the lines is at most the running sum of all lines, when no
subtotal is negative and the sum starts from a binary64 value that is not negative. -/
theorem foldl_jsAdd_eraseIdx (items : List OrderItem) (k : Nat) (start : Number)
    (hstart : 0 ≤ start) (hdouble : roundDouble start = start)
    (h : ∀ item ∈ items, 0 ≤ item.subtotal) :
    (items.eraseIdx k).foldl (fun sum item => jsAdd sum item.subtotal) start ≤
      items.foldl (fun sum item => jsAdd sum item.subtotal) start := by
  induction items generalizing k start with
  | nil => simp
  | cons item rest ih =>
    have hitem := h item (List.mem_cons_self _ _)
    have hrest : ∀ x ∈ rest, 0 ≤ x.subtotal := fun x hx => h x (List.mem_cons_of_mem _ hx)
    cases k with
    | zero =>
      simp only [List.eraseIdx_cons_zero, List.foldl_cons]
      exact foldl_jsAdd_mono rest _ _ hstart (le_jsAdd hstart hdouble hitem) hrest
    | succ k =>
      simp only [List.eraseIdx_cons_succ, List.foldl_cons]
      exact ih k _ (jsAdd_nonneg hstart hitem) (jsAdd_double hstart hitem) hrest

theorem reduceSubtotalsDouble_nonneg (items : List OrderItem)
    (h : ∀ item ∈ items, 0 ≤ item.subtotal) : 0 ≤ reduceSubtotalsDouble items :=
  foldl_jsAdd_nonneg items 0 le_rfl h

/-- Recomputing the total without one of the lines never gives more than the total of all
lines, in binary64 as well. -/
theorem reduceSubtotalsDouble_eraseIdx_le (items : List OrderItem) (k : Nat)
    (h : ∀ item ∈ items, 0 ≤ item.subtotal) :
    reduceSubtotalsDouble (items.eraseIdx k) ≤ reduceSubtotalsDouble items :=
  foldl_jsAdd_eraseIdx items k 0 le_rfl roundDouble_zero h

/-! ## Creation and removal in binary64 -/

/-- An early return of the binary64 loop is never a success response. -/
theorem createOrderLoopDouble_error (products : List Product) (items : List CartItem)
    (orderItems : List OrderItem) (total : Number) (response : Outcome)
    (h : createOrderLoopDouble products items orderItems total = .error response) :
    response.isSuccess = false := by
  induction items generalizing orderItems total with
  | nil => simp [createOrderLoopDouble] at h
  | cons item rest ih =>
    unfold createOrderLoopDouble at h
    split at h
    · simp only [Except.error.injEq] at h
      subst h
      rfl
    · split at h
      · simp only [Except.error.injEq] at h
        subst h
        rfl
      · split at h
        · simp only [Except.error.injEq] at h
          subst h
          rfl
        · exact ih _ _ h

/-- The lines the binary64 loop returns: one more per cart item, each with a quantity of at
least 1 and a subtotal that is not negative, when the prices are not negative and the
requested quantities are at least 1. -/
theorem createOrderLoopDouble_lines (products : List Product) (items : List CartItem)
    (orderItems : List OrderItem) (total : Number) (result : List OrderItem × Number)
    (hprice : ∀ product ∈ products, 0 ≤ product.price)
    (hqty : ∀ item ∈ items, 1 ≤ item.quantity)
    (hacc : ∀ line ∈ orderItems, 1 ≤ line.quantity ∧ 0 ≤ line.subtotal)
    (h : createOrderLoopDouble products items orderItems total = .ok result) :
    (∀ line ∈ result.1, 1 ≤ line.quantity ∧ 0 ≤ line.subtotal) ∧
      result.1.length = orderItems.length + items.length := by
  induction items generalizing orderItems total with
  | nil =>
    simp only [createOrderLoopDouble, Except.ok.injEq] at h
    subst h
    exact ⟨hacc, by simp⟩
  | cons item rest ih =>
    unfold createOrderLoopDouble at h
    split at h
    · simp at h
    · rename_i product hfind
      split at h
      · simp at h
      · split at h
        · simp at h
        · have hq : 1 ≤ item.quantity := hqty item (List.mem_cons_self _ _)
          have hp : 0 ≤ product.price := hprice product (productFindById_mem hfind)
          obtain ⟨hlines, hlen⟩ := ih _ _ (fun x hx => hqty x (List.mem_cons_of_mem _ hx))
            (by
              intro line hline
              simp only [List.mem_append, List.mem_singleton] at hline
              rcases hline with hline | hline
              · exact hacc line hline
              · subst hline
                exact ⟨hq, jsMul_nonneg hp (le_trans zero_le_one hq)⟩) h
          refine ⟨hlines, ?_⟩
          rw [hlen, List.length_append, List.length_singleton, List.length_cons]
          omega

/-- The order a successful binary64 `createOrder` returns: lines with quantities of at least 1
and subtotals that are not negative, and the total the hook computes from them. -/
theorem createOrderDouble_success_lines (db db' : Db) (user : User) (items : List CartItem)
    (notes : Option String) (order : Order) (message : Option String)
    (statusCode : Option Nat)
    (hprice : ∀ product ∈ db.products, 0 ≤ product.price)
    (hqty : ∀ item ∈ items, 1 ≤ item.quantity)
    (h : createOrderDouble db user items notes =
      (db', .successResponse (some order) message statusCode)) :
    (∀ line ∈ order.items, 1 ≤ line.quantity ∧ 0 ≤ line.subtotal) ∧
      order.total = reduceSubtotalsDouble order.items := by
  unfold createOrderDouble at h
  split at h
  · simp at h
  · rename_i hlen
    split at h
    · rename_i response hloop
      have hresp := createOrderLoopDouble_error db.products items [] 0 response hloop
      simp only [Prod.mk.injEq] at h
      rw [h.2] at hresp
      simp [Outcome.isSuccess] at hresp
    · rename_i orderItems total hloop
      obtain ⟨hlines, hcount⟩ := createOrderLoopDouble_lines db.products items [] 0
        (orderItems, total) hprice hqty (by simp) hloop
      split at h
      · simp at h
      · rename_i db'' order' hcreate
        simp only [Prod.mk.injEq, Outcome.successResponse.injEq, Option.some.injEq] at h
        obtain ⟨_, rfl, _, _⟩ := h
        unfold Order.createDouble at hcreate
        simp only at hcreate
        split at hcreate
        · simp only [Option.some.injEq, Prod.mk.injEq] at hcreate
          obtain ⟨_, rfl⟩ := hcreate
          have hpos : orderItems.length > 0 := by
            simp only [List.length_nil, zero_add] at hcount
            rw [hcount]
            omega
          refine ⟨?_, ?_⟩
          · simpa only [preSaveDouble, hpos, if_true] using hlines
          · simp only [preSaveDouble, hpos, if_true]
        · simp at hcreate

/-- The order a successful, non-cascading binary64 `removeOrderItem` returns: the loaded order
with one line erased and the total recomputed from the remaining lines. -/
theorem removeOrderItemDouble_saved_shape (db db' : Db) (user : User) (id : Nat)
    (itemIndex : String) (order saved : Order) (message : Option String)
    (statusCode : Option Nat)
    (h : Order.findById db.orders id = some order)
    (hremove : removeOrderItemDouble db user id itemIndex =
      (db', .successResponse (some saved) message statusCode)) :
    ∃ k, k < order.items.length ∧
      saved.items = order.items.eraseIdx k ∧
      saved.total = reduceSubtotalsDouble (order.items.eraseIdx k) := by
  unfold removeOrderItemDouble at hremove
  simp only [h] at hremove
  split at hremove
  · simp at hremove
  · split at hremove
    · simp at hremove
    · split at hremove
      · simp at hremove
      · rename_i hcheck
        split at hremove
        · simp at hremove
        · rename_i hlen
          split at hremove
          · simp at hremove
          · rename_i db'' saved' hsave
            simp only [Prod.mk.injEq, Outcome.successResponse.injEq, Option.some.injEq]
              at hremove
            obtain ⟨_, rfl, _, _⟩ := hremove
            have hne : order.items ≠ [] := by
              intro hnil
              apply hlen
              simp [hnil, splice]
            have hcheck' : (match parseInt itemIndex with
                | none => false
                | some i => decide (i < 0) || decide (i ≥ (order.items.length : Int))) =
                false := by
              cases hc : (match parseInt itemIndex with
                | none => false
                | some i => decide (i < 0) || decide (i ≥ (order.items.length : Int))) with
              | false => rfl
              | true => exact absurd hc hcheck
            obtain ⟨k, hk, hsplice⟩ := splice_checked order.items (parseInt itemIndex) hne hcheck'
            unfold Order.saveDouble at hsave
            split at hsave
            · simp only [Option.some.injEq, Prod.mk.injEq] at hsave
              obtain ⟨_, rfl⟩ := hsave
              have hpos : (splice order.items (parseInt itemIndex) 1).length > 0 :=
                Nat.pos_of_ne_zero hlen
              refine ⟨k, hk, ?_, ?_⟩
              · simp only [preSaveDouble, hpos, if_true]
                exact hsplice
              · simp only [preSaveDouble, hpos, if_true]
                rw [hsplice]
            · simp at hsave

/-- C21, counterexample: in binary64, with the prices 11.30 and 11.99 and the integer
quantities 10 and 5, `createOrder` stores an order with subtotals 113 and 59.95 and total
172.95, and `removeOrderItem` at index 1 stores it with the total recomputed from the
remaining line, 113. The old total minus the subtotal of the removed line is not 113, neither
as the exact difference of the two stored values nor as the result of JavaScript's `-`, which
prints as 112.99999999999999. -/
theorem C21_counterexample :
    (∀ product ∈ doubleStore.products, 0 ≤ product.price) ∧
    (∀ item ∈ cartAB, item.quantity.isInt = true ∧ 1 ≤ item.quantity) ∧
    createOrderDouble doubleStore customer cartAB none =
      ({ doubleStore with orders := [orderABDouble], nextId := 11 },
        .successResponse (some orderABDouble) (some "Order created successfully")
          (some 201)) ∧
    removeOrderItemDouble { doubleStore with orders := [orderABDouble], nextId := 11 }
        customer 10 "1" =
      ({ doubleStore with orders := [orderADouble], nextId := 11 },
        .successResponse (some orderADouble) (some "Item removed from order") none) ∧
    orderADouble.total = 113 ∧
    jsSub orderABDouble.total lineBDouble.subtotal = 7951668092076031 / 70368744177664 ∧
    orderABDouble.total - lineBDouble.subtotal = 7951668092076031 / 70368744177664 ∧
    orderADouble.total ≠ jsSub orderABDouble.total lineBDouble.subtotal ∧
    orderADouble.total ≠ orderABDouble.total - lineBDouble.subtotal := by
  refine ⟨by decide!, by decide!, by decide!, by decide!, rfl, by decide!, by decide!,
    by decide!, by decide!⟩

/-- C21, amended (non-negativity): with every catalog price at least 0 and every requested
quantity at least 1, the order a successful `createOrder` returns has every line quantity at
least 1, every subtotal at least 0, and a total that is at least 0 and is the sum of the
subtotals. On a stored order with such lines and such a total, the order a successful
`removeOrderItem` returns is the order with one line erased, has such lines again, and its
total is the sum of the remaining subtotals, recomputed from them, at least 0 and at most the
old total. Both hold in exact arithmetic (first two parts) and in binary64, where the sum is
the rounded running sum of `reduce` (last two parts). -/
theorem C21_non_negativity (db : Db) (user : User) :
    (∀ (items : List CartItem) (notes : Option String) (db' : Db) (order : Order)
        (message : Option String) (statusCode : Option Nat),
      (∀ product ∈ db.products, 0 ≤ product.price) →
      (∀ item ∈ items, 1 ≤ item.quantity) →
      createOrder db user items notes =
        (db', .successResponse (some order) message statusCode) →
      (∀ line ∈ order.items, 1 ≤ line.quantity ∧ 0 ≤ line.subtotal) ∧
        0 ≤ order.total ∧ order.total = (order.items.map OrderItem.subtotal).sum) ∧
    (∀ (id : Nat) (itemIndex : String) (db' : Db) (order saved : Order)
        (message : Option String) (statusCode : Option Nat),
      Order.findById db.orders id = some order →
      (∀ line ∈ order.items, 1 ≤ line.quantity ∧ 0 ≤ line.subtotal) →
      order.total = (order.items.map OrderItem.subtotal).sum →
      removeOrderItem db user id itemIndex =
        (db', .successResponse (some saved) message statusCode) →
      (∀ line ∈ saved.items, 1 ≤ line.quantity ∧ 0 ≤ line.subtotal) ∧
        0 ≤ saved.total ∧ saved.total = (saved.items.map OrderItem.subtotal).sum ∧
        saved.total ≤ order.total ∧
        ∃ k, k < order.items.length ∧ saved.items = order.items.eraseIdx k) ∧
    (∀ (items : List CartItem) (notes : Option String) (db' : Db) (order : Order)
        (message : Option String) (statusCode : Option Nat),
      (∀ product ∈ db.products, 0 ≤ product.price) →
      (∀ item ∈ items, 1 ≤ item.quantity) →
      createOrderDouble db user items notes =
        (db', .successResponse (some order) message statusCode) →
      (∀ line ∈ order.items, 1 ≤ line.quantity ∧ 0 ≤ line.subtotal) ∧
        0 ≤ order.total ∧ order.total = reduceSubtotalsDouble order.items) ∧
    (∀ (id : Nat) (itemIndex : String) (db' : Db) (order saved : Order)
        (message : Option String) (statusCode : Option Nat),
      Order.findById db.orders id = some order →
      (∀ line ∈ order.items, 1 ≤ line.quantity ∧ 0 ≤ line.subtotal) →
      order.total = reduceSubtotalsDouble order.items →
      removeOrderItemDouble db user id itemIndex =
        (db', .successResponse (some saved) message statusCode) →
      (∀ line ∈ saved.items, 1 ≤ line.quantity ∧ 0 ≤ line.subtotal) ∧
        0 ≤ saved.total ∧ saved.total = reduceSubtotalsDouble saved.items ∧
        saved.total ≤ order.total ∧
        ∃ k, k < order.items.length ∧ saved.items = order.items.eraseIdx k) := by
  refine ⟨?_, ?_, ?_, ?_⟩
  · intro items notes db' order message statusCode hprice hqty hcreate
    obtain ⟨hlines, htotal⟩ :=
      createOrder_success_lines db db' user items notes order message statusCode hcreate
    have hnonneg := snapshotLines_nonneg db.products items order.items hlines hprice hqty
    refine ⟨hnonneg, ?_, htotal⟩
    rw [htotal]
    exact subtotalSum_nonneg order.items (fun line hline => (hnonneg line hline).2)
  · intro id itemIndex db' order saved message statusCode hfind hlines htotal hremove
    obtain ⟨k, hk, hitems, hnew, hsum⟩ :=
      removeOrderItem_saved_shape db db' user id itemIndex order saved message statusCode
        hfind hremove
    have hsaved : ∀ line ∈ saved.items, 1 ≤ line.quantity ∧ 0 ≤ line.subtotal := by
      intro line hline
      rw [hitems] at hline
      exact hlines line (List.mem_of_mem_eraseIdx hline)
    have hold : order.total = subtotalSum order.items := htotal
    have hremoved : 0 ≤ (order.items[k]).subtotal :=
      (hlines _ (List.getElem_mem _)).2
    refine ⟨hsaved, ?_, hsum, ?_, k, hk, hitems⟩
    · rw [hsum]
      exact subtotalSum_nonneg saved.items (fun line hline => (hsaved line hline).2)
    · rw [hnew, hold]
      linarith
  · intro items notes db' order message statusCode hprice hqty hcreate
    obtain ⟨hlines, htotal⟩ :=
      createOrderDouble_success_lines db db' user items notes order message statusCode
        hprice hqty hcreate
    refine ⟨hlines, ?_, htotal⟩
    rw [htotal]
    exact reduceSubtotalsDouble_nonneg order.items (fun line hline => (hlines line hline).2)
  · intro id itemIndex db' order saved message statusCode hfind hlines htotal hremove
    obtain ⟨k, hk, hitems, hnew⟩ :=
      removeOrderItemDouble_saved_shape db db' user id itemIndex order saved message
        statusCode hfind hremove
    have hsub : ∀ line ∈ order.items, 0 ≤ line.subtotal :=
      fun line hline => (hlines line hline).2
    have hsaved : ∀ line ∈ saved.items, 1 ≤ line.quantity ∧ 0 ≤ line.subtotal := by
      intro line hline
      rw [hitems] at hline
      exact hlines line (List.mem_of_mem_eraseIdx hline)
    refine ⟨hsaved, ?_, ?_, ?_, k, hk, hitems⟩
    · rw [hnew, ← hitems]
      exact reduceSubtotalsDouble_nonneg saved.items
        (fun line hline => (hsaved line hline).2)
    · rw [hnew, hitems]
    · rw [hnew, htotal]
      exact reduceSubtotalsDouble_eraseIdx_le order.items k hsub

/-- In the sample catalog every price is at least 0. In exact arithmetic the order created
for 10 A and 5 B has quantities 10 and 5, subtotals 113 and 59.95 and total 172.95, and
removing line 1 of the stored two-line order leaves line 0 and the total 113. In binary64 the
order created for the same cart has the subtotals 113 and 59.95 and the total 172.95 as
binary64 values, and removing its line 1 leaves line 0 and the total 113, which is at most the
old total. -/
theorem C21_non_negativity_witness :
    ((∀ line ∈ orderAB.items, 1 ≤ line.quantity ∧ 0 ≤ line.subtotal) ∧
      0 ≤ orderAB.total ∧ orderAB.total = (orderAB.items.map OrderItem.subtotal).sum) ∧
    ((∀ line ∈ [lineA], 1 ≤ line.quantity ∧ 0 ≤ line.subtotal) ∧
      (0 : Number) ≤ 113 ∧ (113 : Number) = ([lineA].map OrderItem.subtotal).sum ∧
      (113 : Number) ≤ orderTwoLines.total ∧
      ∃ k, k < orderTwoLines.items.length ∧ [lineA] = orderTwoLines.items.eraseIdx k) ∧
    ((∀ line ∈ orderABDouble.items, 1 ≤ line.quantity ∧ 0 ≤ line.subtotal) ∧
      0 ≤ orderABDouble.total ∧
      orderABDouble.total = reduceSubtotalsDouble orderABDouble.items) ∧
    ((∀ line ∈ orderADouble.items, 1 ≤ line.quantity ∧ 0 ≤ line.subtotal) ∧
      0 ≤ orderADouble.total ∧
      orderADouble.total = reduceSubtotalsDouble orderADouble.items ∧
      orderADouble.total ≤ orderABDouble.total ∧
      ∃ k, k < orderABDouble.items.length ∧
        orderADouble.items = orderABDouble.items.eraseIdx k) :=
  ⟨(C21_non_negativity emptyStore customer).1 cartAB none
      { emptyStore with orders := [orderAB], nextId := 11 } orderAB
      (some "Order created successfully") (some 201) (by decide!) (by decide!) (by decide!),
   (C21_non_negativity sampleStore customer).2.1 10 "1"
      { sampleStore with
          orders := [{ orderTwoLines with items := [lineA], total := 113 }, orderConfirmed,
                     orderOneLine] }
      orderTwoLines { orderTwoLines with items := [lineA], total := 113 }
      (some "Item removed from order") none rfl (by decide!) (by decide!) (by decide!),
   (C21_non_negativity doubleStore customer).2.2.1 cartAB none
      { doubleStore with orders := [orderABDouble], nextId := 11 } orderABDouble
      (some "Order created successfully") (some 201) (by decide!) (by decide!) (by decide!),
   (C21_non_negativity { doubleStore with orders := [orderABDouble], nextId := 11 }
      customer).2.2.2 10 "1" { doubleStore with orders := [orderADouble], nextId := 11 }
      orderABDouble orderADouble (some "Item removed from order") none rfl (by decide!)
      (by decide!) (by decide!)⟩

/-! ## Orders that are not pending and requesters who are not administrators -/

theorem save_findById_ne {db db' : Db} {order saved : Order} {id : Nat}
    (h : Order.save db order = some (db', saved)) (hne : order._id ≠ id) :
    Order.findById db'.orders id = Order.findById db.orders id := by
  unfold Order.save at h
  split at h
  · simp only [Option.some.injEq, Prod.mk.injEq] at h
    obtain ⟨rfl, _⟩ := h
    apply findById_replace_ne
    rw [preSave_id]
    exact hne
  · simp at h

theorem removeOrderItem_findById_ne (db : Db) (user : User) (id other : Nat)
    (itemIndex : String) (hne : other ≠ id) :
    Order.findById (removeOrderItem db user other itemIndex).1.orders id =
      Order.findById db.orders id := by
  unfold removeOrderItem
  split
  · rfl
  · rename_i order hfind
    simp only
    split
    · rfl
    · split
      · rfl
      · split
        · rfl
        · split
          · exact findById_delete_ne (fun e => hne e.symm)
          · split
            · rfl
            · rename_i db' saved hsave
              refine save_findById_ne hsave ?_
              show order._id ≠ id
              rw [findById_id hfind]
              exact hne

theorem cancelOrder_findById_ne (db : Db) (user : User) (id other : Nat) (hne : other ≠ id) :
    Order.findById (cancelOrder db user other).1.orders id = Order.findById db.orders id := by
  unfold cancelOrder
  split
  · rfl
  · rename_i order hfind
    simp only
    split
    · rfl
    · split
      · rfl
      · split
        · rfl
        · rename_i db' saved hsave
          refine save_findById_ne hsave ?_
          show order._id ≠ id
          rw [findById_id hfind]
          exact hne

theorem createOrder_findById (db : Db) (user : User) (items : List CartItem)
    (notes : Option String) (id : Nat) (order : Order)
    (h : Order.findById db.orders id = some order) :
    Order.findById (createOrder db user items notes).1.orders id = some order := by
  rcases createOrder_cases db user items notes with ⟨_, heq⟩ | ⟨_, _, _, heq⟩ |
    ⟨_, _, _, _, _, heq⟩ | ⟨_, _, db', created, _, _, _, heq⟩
  · rw [heq]; exact h
  · rw [heq]; exact h
  · rw [heq]; exact h
  · obtain ⟨horders, _, _⟩ :=
      createOrder_success_shape db db' user items notes created _ _ heq
    rw [heq]
    show Order.findById db'.orders id = some order
    rw [horders]
    have h' : List.find? (fun o => o._id == id) db.orders = some order := h
    simp [Order.findById, List.find?_append, h']

theorem behindAdminOnly_nonAdmin (db : Db) (user : User) (handler : Db × Outcome)
    (hrole : user.role ≠ "admin") : (behindAdminOnly db user handler).1 = db := by
  have hcontains : (["admin"].contains user.role) = false := by simpa using hrole
  simp only [behindAdminOnly, adminOnly, authorize, hcontains]
  rfl

/-- A request by a requester who is not an administrator leaves an order that is not pending
stored exactly as it was. -/
theorem step_nonAdmin_preserves (db : Db) (request : Request) (id : Nat) (order : Order)
    (h : Order.findById db.orders id = some order) (hstatus : order.status ≠ "pending")
    (hrole : request.user.role ≠ "admin") :
    Order.findById (step db request).1.orders id = some order := by
  cases request with
  | createOrder user items notes =>
    simp only [step]
    split
    · exact createOrder_findById db user items notes id order h
    · exact h
  | getOrderById user id' => exact h
  | removeOrderItem user id' itemIndex =>
    by_cases hid : id' = id
    · subst hid
      have hauth : ¬ mayModify user order := by
        rintro (hadmin | ⟨_, hpending⟩)
        · exact hrole hadmin
        · exact hstatus hpending
      show Order.findById (removeOrderItem db user id' itemIndex).1.orders id' = some order
      rw [(removeOrderItem_refused db user id' itemIndex order h hauth).1]
      exact h
    · show Order.findById (removeOrderItem db user id' itemIndex).1.orders id = some order
      rw [removeOrderItem_findById_ne db user id id' itemIndex hid]
      exact h
  | cancelOrder user id' =>
    by_cases hid : id' = id
    · subst hid
      have hauth : ¬ mayModify user order := by
        rintro (hadmin | ⟨_, hpending⟩)
        · exact hrole hadmin
        · exact hstatus hpending
      show Order.findById (cancelOrder db user id').1.orders id' = some order
      rw [(cancelOrder_refused db user id' order h hauth).1]
      exact h
    · show Order.findById (cancelOrder db user id').1.orders id = some order
      rw [cancelOrder_findById_ne db user id id' hid]
      exact h
  | adminUpdateOrderStatus user id' status =>
    show Order.findById (behindAdminOnly db user _).1.orders id = some order
    rw [behindAdminOnly_nonAdmin db user _ hrole]
    exact h
  | adminDeleteOrder user id' =>
    show Order.findById (behindAdminOnly db user _).1.orders id = some order
    rw [behindAdminOnly_nonAdmin db user _ hrole]
    exact h
  | adminRemoveOrderItem user id' itemIndex =>
    show Order.findById (behindAdminOnly db user _).1.orders id = some order
    rw [behindAdminOnly_nonAdmin db user _ hrole]
    exact h

theorem run_nonAdmin_preserves (db : Db) (requests : List Request) (id : Nat) (order : Order)
    (h : Order.findById db.orders id = some order) (hstatus : order.status ≠ "pending")
    (hrole : ∀ request ∈ requests, request.user.role ≠ "admin") :
    Order.findById (run db requests).orders id = some order := by
  induction requests generalizing db with
  | nil => exact h
  | cons request rest ih =>
    exact ih (step db request).1
      (step_nonAdmin_preserves db request id order h hstatus
        (hrole request (List.mem_cons_self _ _)))
      (fun r hr => hrole r (List.mem_cons_of_mem _ hr))

/-- An authorized removal at a valid position succeeds, by deleting the order or by saving
it, when the stored order passes validation and has no negative subtotal. -/
theorem removeOrderItem_success (db : Db) (user : User) (id : Nat) (order : Order)
    (itemIndex : String) (i : Nat)
    (h : Order.findById db.orders id = some order) (hauth : mayModify user order)
    (hindex : parseInt itemIndex = some (i : Int)) (hi : i < order.items.length)
    (hvalid : order.validate = true) (hsub : ∀ item ∈ order.items, 0 ≤ item.subtotal) :
    (removeOrderItem db user id itemIndex).2.isSuccess = true := by
  obtain ⟨h1, h2⟩ := guards_of_mayModify user order hauth
  have hrange := inRange_valid order.items.length i hi
  have hsplice := splice_valid order.items i hi
  by_cases hlen : (order.items.eraseIdx i).length = 0
  · simp only [removeOrderItem, h, h1, h2, Bool.false_eq_true, if_false, hindex, hrange,
      hsplice, hlen, if_true]
    rfl
  · have hsave := save_valid db
      { order with items := order.items.eraseIdx i,
                   total := reduceSubtotals (order.items.eraseIdx i) }
      (erased_valid order i hvalid hsub) rfl
    simp only [removeOrderItem, h, h1, h2, Bool.false_eq_true, if_false, hindex, hrange,
      hsplice, hlen, hsave]
    rfl

/-- C22, counterexample: the owner cancels the pending sample order 12, the administrator
sets its status back to `pending`, and the owner's next cancellation is not refused; nor is
the owner's removal of its only line, which deletes the order. -/
theorem C22_counterexample :
    (cancelOrder sampleStore customer 12).2.isSuccess = true ∧
    Order.findById (run sampleStore reopenRequests).orders 12 = some orderOneLine ∧
    (cancelOrder (run sampleStore reopenRequests) customer 12).2 =
      .successResponse (some orderOneLine.cancelled) (some "Order cancelled") none ∧
    (removeOrderItem (run sampleStore reopenRequests) customer 12 "0").2.isSuccess = true ∧
    Order.findById (removeOrderItem (run sampleStore reopenRequests) customer 12 "0").1.orders
      12 = none := by
  refine ⟨by decide!, by decide!, by decide!, by decide!, by decide!⟩

/-- A requester who is the owner but not an administrator is answered 400 by `cancelOrder`
and `removeOrderItem` on an order that is not pending, and the database is returned
unchanged. -/
theorem owner_refused_not_pending (db : Db) (owner : User) (id : Nat) (order : Order)
    (h : Order.findById db.orders id = some order) (howner : order.user = owner._id)
    (hrole : owner.role ≠ "admin") (hstatus : order.status ≠ "pending") :
    cancelOrder db owner id =
        (db, .errorResponse (.str "Cannot cancel order that is not pending") 400) ∧
      ∀ itemIndex, removeOrderItem db owner id itemIndex =
        (db, .errorResponse (.str "Cannot modify order that is not pending") 400) := by
  constructor
  · simp [cancelOrder, h, howner, hrole, hstatus]
  · intro itemIndex
    simp [removeOrderItem, h, howner, hrole, hstatus]

/-- C22, amended (owner lock-out): when a requester who is not an administrator cancels
their own pending order (stored with valid lines, non-negative subtotals and total equal to
their sum), the cancellation succeeds, and after any further sequence of requests by
requesters who are not administrators the order is still stored, cancelled and otherwise
unchanged, and the owner's `cancelOrder` and `removeOrderItem`, for every index text, are
answered 400 and change nothing; an administrator can still cancel it and remove a line at a
valid position; an administrator can also set its status back to `pending` through the route
`PUT /api/admin/orders/:id/status`, which stores the order as it was before the cancellation,
and after that the owner's `cancelOrder` succeeds again and so does the owner's
`removeOrderItem` at a valid position. In general, no sequence of requests by requesters who
are not administrators changes an order whose status is not `pending`. -/
theorem C22_owner_lock_out (db : Db) (owner : User) (id : Nat) (order : Order)
    (h : Order.findById db.orders id = some order)
    (howner : order.user = owner._id) (hrole : owner.role ≠ "admin")
    (hpending : order.status = "pending")
    (hvalid : order.validate = true)
    (htotal : order.total = (order.items.map OrderItem.subtotal).sum)
    (hsub : ∀ item ∈ order.items, 0 ≤ item.subtotal) :
    (cancelOrder db owner id).2 =
      .successResponse (some order.cancelled) (some "Order cancelled") none ∧
    (∀ requests : List Request, (∀ request ∈ requests, request.user.role ≠ "admin") →
      Order.findById (run (cancelOrder db owner id).1 requests).orders id =
        some order.cancelled ∧
      cancelOrder (run (cancelOrder db owner id).1 requests) owner id =
        (run (cancelOrder db owner id).1 requests,
          .errorResponse (.str "Cannot cancel order that is not pending") 400) ∧
      ∀ itemIndex, removeOrderItem (run (cancelOrder db owner id).1 requests) owner id
          itemIndex =
        (run (cancelOrder db owner id).1 requests,
          .errorResponse (.str "Cannot modify order that is not pending") 400)) ∧
    (∀ admin : User, admin.role = "admin" →
      (cancelOrder (cancelOrder db owner id).1 admin id).2.isSuccess = true ∧
      ∀ (itemIndex : String) (i : Nat), parseInt itemIndex = some (i : Int) →
        i < order.items.length →
        (removeOrderItem (cancelOrder db owner id).1 admin id itemIndex).2.isSuccess =
          true) ∧
    (∀ admin : User, admin.role = "admin" →
      (adminUpdateOrderStatus (cancelOrder db owner id).1 admin id (some "pending")).2 =
        .successResponse (some order) (some "Order status updated to pending") none ∧
      Order.findById
        (adminUpdateOrderStatus (cancelOrder db owner id).1 admin id (some "pending")).1.orders
        id = some order ∧
      (cancelOrder
        (adminUpdateOrderStatus (cancelOrder db owner id).1 admin id (some "pending")).1
        owner id).2 =
        .successResponse (some order.cancelled) (some "Order cancelled") none ∧
      ∀ (itemIndex : String) (i : Nat), parseInt itemIndex = some (i : Int) →
        i < order.items.length →
        (removeOrderItem
          (adminUpdateOrderStatus (cancelOrder db owner id).1 admin id (some "pending")).1
          owner id itemIndex).2.isSuccess = true) ∧
    (∀ (d : Db) (other : Nat) (stored : Order) (requests : List Request),
      Order.findById d.orders other = some stored → stored.status ≠ "pending" →
      (∀ request ∈ requests, request.user.role ≠ "admin") →
      Order.findById (run d requests).orders other = some stored) := by
  have hparts := validate_parts order hvalid
  have hcancel := cancelOrder_authorized db owner id order h (Or.inr ⟨howner, hpending⟩)
    hvalid htotal
  have hfound : Order.findById (cancelOrder db owner id).1.orders id =
      some order.cancelled := by
    rw [hcancel]
    exact findById_replace h rfl
  have hstatus : order.cancelled.status ≠ "pending" := by
    show "cancelled" ≠ "pending"
    decide
  have hvalid' : order.cancelled.validate = true :=
    validate_with_status order "cancelled" hparts.1 hparts.2 (by decide)
  refine ⟨by rw [hcancel]; rfl, ?_, ?_, ?_, ?_⟩
  · intro requests hrequests
    have hkept := run_nonAdmin_preserves (cancelOrder db owner id).1 requests id
      order.cancelled hfound hstatus hrequests
    have hrefused := owner_refused_not_pending (run (cancelOrder db owner id).1 requests)
      owner id order.cancelled hkept howner hrole hstatus
    exact ⟨hkept, hrefused.1, hrefused.2⟩
  · intro admin hadmin
    constructor
    · rw [cancelOrder_authorized (cancelOrder db owner id).1 admin id order.cancelled hfound
        (Or.inl hadmin) hvalid' htotal]
      rfl
    · intro itemIndex i hindex hi
      exact removeOrderItem_success (cancelOrder db owner id).1 admin id order.cancelled
        itemIndex i hfound (Or.inl hadmin) hindex hi hvalid' hsub
  · intro admin hadmin
    have hsame : ({ order.cancelled with status := "pending" } : Order) = order := by
      cases order
      simp only at hpending
      simp [Order.cancelled, hpending]
    have hupdate := updateOrderStatus_valid (cancelOrder db owner id).1 id order.cancelled
      "pending" hfound (by decide) hparts.1 hparts.2 htotal
    rw [hsame] at hupdate
    have hroute : adminUpdateOrderStatus (cancelOrder db owner id).1 admin id (some "pending") =
        updateOrderStatus (cancelOrder db owner id).1 id (some "pending") :=
      adminRoute_of_admin _ admin _ hadmin
    have hreopened : Order.findById
        (adminUpdateOrderStatus (cancelOrder db owner id).1 admin id (some "pending")).1.orders
        id = some order := by
      rw [hroute, hupdate]
      exact findById_replace hfound rfl
    refine ⟨by rw [hroute, hupdate]; rfl, hreopened, ?_, ?_⟩
    · rw [cancelOrder_authorized _ owner id order hreopened (Or.inr ⟨howner, hpending⟩)
        hvalid htotal]
      rfl
    · intro itemIndex i hindex hi
      exact removeOrderItem_success _ owner id order itemIndex i hreopened
        (Or.inr ⟨howner, hpending⟩) hindex hi hvalid hsub
  · intro d other stored requests hstored hnot hrequests
    exact run_nonAdmin_preserves d requests other stored hstored hnot hrequests

/-- The owner cancels the pending one-line sample order; after further requests by the owner
and by another customer, none of them an administrator, the order is still stored cancelled
and the owner's cancellation and removal are answered 400, while the administrator's are not
refused; and once the administrator has set the status back to `pending` the order is stored
as before the cancellation and the owner's cancellation and removal succeed again. -/
theorem C22_owner_lock_out_witness :
    (∀ request ∈ nonAdminRequests, request.user.role ≠ "admin") ∧
    (Order.findById (run (cancelOrder sampleStore customer 12).1 nonAdminRequests).orders 12 =
        some orderOneLine.cancelled ∧
      cancelOrder (run (cancelOrder sampleStore customer 12).1 nonAdminRequests) customer 12 =
        (run (cancelOrder sampleStore customer 12).1 nonAdminRequests,
          .errorResponse (.str "Cannot cancel order that is not pending") 400) ∧
      ∀ itemIndex,
        removeOrderItem (run (cancelOrder sampleStore customer 12).1 nonAdminRequests)
          customer 12 itemIndex =
        (run (cancelOrder sampleStore customer 12).1 nonAdminRequests,
          .errorResponse (.str "Cannot modify order that is not pending") 400)) ∧
    ((cancelOrder (cancelOrder sampleStore customer 12).1 administrator 12).2.isSuccess =
        true ∧
      ∀ (itemIndex : String) (i : Nat), parseInt itemIndex = some (i : Int) →
        i < orderOneLine.items.length →
        (removeOrderItem (cancelOrder sampleStore customer 12).1 administrator 12
          itemIndex).2.isSuccess = true) ∧
    ((adminUpdateOrderStatus (cancelOrder sampleStore customer 12).1 administrator 12
        (some "pending")).2 =
        .successResponse (some orderOneLine) (some "Order status updated to pending") none ∧
      Order.findById
        (adminUpdateOrderStatus (cancelOrder sampleStore customer 12).1 administrator 12
          (some "pending")).1.orders 12 = some orderOneLine ∧
      (cancelOrder
        (adminUpdateOrderStatus (cancelOrder sampleStore customer 12).1 administrator 12
          (some "pending")).1 customer 12).2 =
        .successResponse (some orderOneLine.cancelled) (some "Order cancelled") none ∧
      ∀ (itemIndex : String) (i : Nat), parseInt itemIndex = some (i : Int) →
        i < orderOneLine.items.length →
        (removeOrderItem
          (adminUpdateOrderStatus (cancelOrder sampleStore customer 12).1 administrator 12
            (some "pending")).1 customer 12 itemIndex).2.isSuccess = true) :=
  ⟨by decide,
   (C22_owner_lock_out sampleStore customer 12 orderOneLine rfl rfl (by decide) rfl
      (by decide!) (by decide!) (by decide!)).2.1 nonAdminRequests (by decide),
   (C22_owner_lock_out sampleStore customer 12 orderOneLine rfl rfl (by decide) rfl
      (by decide!) (by decide!) (by decide!)).2.2.1 administrator rfl,
   (C22_owner_lock_out sampleStore customer 12 orderOneLine rfl rfl (by decide) rfl
      (by decide!) (by decide!) (by decide!)).2.2.2.1 administrator rfl⟩

end Sherwin
